import Mathlib

/-!
# serialized-go: the endpoint wrappers of `feed.go`, `projection.go`, `reaction.go`

A shallow embedding of the client operations and of the wire formats they rely on.

* Go strings are byte sequences (`GoString`).
* A Go `error` value is a `GoError`; `nil` is `none`.
* A call that dereferences a nil `*http.Response` ends in `Outcome.panicked`.
* `newRequest` and `do` are methods of `Client` declared outside the three source
  files. The operations are written against a `Client` record holding both, so that
  every statement about an operation holds for every behaviour of the two helpers;
  `specClient` is the model of the two helpers that follows the specification.
* The standard library is embedded as far as the operations use it: `strconv.ParseInt`,
  the escaping of `net/url`, `unicode/utf8`, and of `encoding/json` the string
  literals, the encoding of structs by their tags and the decoding into the types of
  `reaction.go`. The encoder builds the syntax tree of a JSON text and renders it to
  bytes; the decoder reads the bytes of a body into a syntax tree and decodes the tree.

The definitions come first; the theorems follow, grouped by subject.
-/

set_option linter.dupNamespace false

namespace Serialized

/-! ## Strings, errors, outcomes -/

/-- A Go string: a sequence of bytes, each element below 256. -/
abbrev GoString := List Nat

/-- The bytes of an ASCII string literal of the source. -/
def lit (s : String) : GoString := s.toList.map Char.toNat

/-- A Go slice: `none` is the nil slice. -/
abbrev Slice (α : Type) := Option (List α)

/-- The built-in `len` of a slice. -/
def Slice.len {α : Type} : Slice α → Nat
  | none => 0
  | some xs => xs.length

/-- The two sentinel errors of `strconv`. -/
inductive NumErr where
  | ErrSyntax
  | ErrRange
  deriving DecidableEq, Repr

/-- A non-nil Go `error` value. -/
inductive GoError where
  /-- The value built by `errors.New` and `fmt.Errorf`: it carries its message. -/
  | errorString (msg : GoString)
  /-- A `*strconv.NumError`. -/
  | numError (func : GoString) (num : GoString) (err : NumErr)
  /-- A `*json.SyntaxError` or `io.EOF` reported while reading a body. -/
  | syntaxError
  /-- A `*json.UnmarshalTypeError`. -/
  | unmarshalTypeError (value : GoString) (field : GoString)
  deriving DecidableEq, Repr

/-- How a call of an operation ends: it returns a value and an error (`none` is the
nil error), or the goroutine panics on a nil pointer dereference. -/
inductive Outcome (α : Type) where
  | returned (val : α) (err : Option GoError)
  | panicked
  deriving DecidableEq, Repr

/-! ## Decimal text: `fmt` verb `%d` and `strconv.ParseInt` -/

/-- The digit loop of `strconv` (`formatBits`) for base 10: the digits of `u` are put
in front of `acc`, least significant first. `fuel` bounds the number of iterations. -/
def formatBits : Nat → Nat → List Nat → List Nat
  | 0, _, acc => acc
  | fuel + 1, u, acc =>
    if u < 10 then (48 + u) :: acc
    else formatBits fuel (u / 10) ((48 + u % 10) :: acc)

/-- Decimal digits of a natural number, most significant first. -/
def formatNat (n : Nat) : GoString := formatBits (n + 1) n []

/-- The text `fmt.Sprintf("%d", i)` produces for an integer. -/
def formatInt (i : Int) : GoString :=
  if i < 0 then 45 :: formatNat i.natAbs else formatNat i.natAbs

/-- The error `fmt.Errorf("unexpected status code: %d", code)`. -/
def unexpectedStatus (code : Int) : GoError :=
  .errorString (lit "unexpected status code: " ++ formatInt code)

/-- Go `lower(c)` of strconv: `c | ('x' - 'X')`, for a byte. -/
def lower (c : Nat) : Nat := if c / 32 % 2 = 1 then c else c + 32

/-- The loop of `strconv.ParseUint` over the bytes of `s`, for a base in 2..36 given
explicitly (the source passes 10), on `uint64` arithmetic. The result is the pair
`(value, err)` of the Go function. -/
def parseUintLoop (base cutoff maxVal : Nat) : List Nat → Nat → Nat × Option NumErr
  | [], n => (n, none)
  | c :: cs, n =>
    if 48 ≤ c ∧ c ≤ 57 ∨ 97 ≤ lower c ∧ lower c ≤ 122 then
      let d := if 48 ≤ c ∧ c ≤ 57 then c - 48 else lower c - 97 + 10
      if d ≥ base then (0, some .ErrSyntax)
      else if n ≥ cutoff then (maxVal, some .ErrRange)
      else
        let n10 := (n * base) % 2 ^ 64
        let n1 := (n10 + d) % 2 ^ 64
        if n1 < n10 ∨ n1 > maxVal then (maxVal, some .ErrRange)
        else parseUintLoop base cutoff maxVal cs n1
    else (0, some .ErrSyntax)

/-- Go `strconv.ParseUint(s, base, bitSize)` for an explicit base in 2..36 and a
bit size in 1..64. -/
def ParseUint (s : GoString) (base bitSize : Nat) : Nat × Option NumErr :=
  if s = [] then (0, some .ErrSyntax)
  else
    let cutoff := (2 ^ 64 - 1) / base + 1
    let maxVal := 2 ^ bitSize - 1
    parseUintLoop base cutoff maxVal s 0

/-- Go `strconv.ParseInt(s, base, bitSize)` for an explicit base and bit size. -/
def ParseInt (s : GoString) (base bitSize : Nat) : Int × Option GoError :=
  match s with
  | [] => (0, some (.numError (lit "ParseInt") [] .ErrSyntax))
  | c :: cs =>
    let neg := c = 45
    let s1 := if c = 43 ∨ c = 45 then cs else s
    let (un, err) := ParseUint s1 base bitSize
    match err with
    | some .ErrSyntax => (0, some (.numError (lit "ParseInt") s .ErrSyntax))
    | _ =>
      let cutoff := 2 ^ (bitSize - 1)
      if ¬ neg ∧ un ≥ cutoff then
        (((cutoff - 1 : Nat) : Int), some (.numError (lit "ParseInt") s .ErrRange))
      else if neg ∧ un > cutoff then
        (-((cutoff : Nat) : Int), some (.numError (lit "ParseInt") s .ErrRange))
      else if neg then (-(un : Int), none) else ((un : Int), none)

/-! ## `net/url`: escaping and `URL.String` -/

/-- The escaping modes of `net/url` used by the source. -/
inductive Encoding where
  | encodePath
  | encodeQueryComponent
  deriving DecidableEq, Repr

/-- Go `shouldEscape(c, mode)` of `net/url`. -/
def shouldEscape (c : Nat) (mode : Encoding) : Bool :=
  if (97 ≤ c ∧ c ≤ 122) ∨ (65 ≤ c ∧ c ≤ 90) ∨ (48 ≤ c ∧ c ≤ 57) then false
  else if c = 45 ∨ c = 95 ∨ c = 46 ∨ c = 126 then false
  else if c = 36 ∨ c = 38 ∨ c = 43 ∨ c = 44 ∨ c = 47 ∨ c = 58 ∨ c = 59 ∨ c = 61
      ∨ c = 63 ∨ c = 64 then
    match mode with
    | .encodePath => c = 63
    | .encodeQueryComponent => true
  else true

/-- The upper-case hexadecimal digit of a nibble. -/
def upperhex (n : Nat) : Nat := if n < 10 then 48 + n else 55 + n

/-- Go `escape(s, mode)` of `net/url`. -/
def escape (s : GoString) (mode : Encoding) : GoString :=
  s.flatMap fun c =>
    if c = 32 ∧ mode = .encodeQueryComponent then [43]
    else if shouldEscape c mode then [37, upperhex (c / 16), upperhex (c % 16)]
    else [c]

/-- Go `url.QueryEscape`. -/
def QueryEscape (s : GoString) : GoString := escape s .encodeQueryComponent

/-- Go `url.Values`: the keys with their values. -/
abbrev Values := List (GoString × List GoString)

/-- Go `Values.Set`: the key gets exactly one value. -/
def Values.Set (vs : Values) (key value : GoString) : Values :=
  (key, [value]) :: vs.filter (fun kv => kv.1 ≠ key)

/-- The `key=value` pairs of one key, joined by `&`, appended to `buf`. -/
def encodeKey (buf : GoString) (k : GoString) : List GoString → GoString
  | [] => buf
  | v :: vs =>
    let buf1 := if buf = [] then buf else buf ++ [38]
    encodeKey (buf1 ++ QueryEscape k ++ 61 :: QueryEscape v) k vs

/-- Go `Values.Encode`: keys in sorted order, each value as `key=value`. -/
def Values.Encode (vs : Values) : GoString :=
  (vs.insertionSort (fun a b => a.1 ≤ b.1)).foldl (fun buf kv => encodeKey buf kv.1 kv.2) []

/-- The fields of `url.URL` the source sets; every other field keeps its zero value. -/
structure URL where
  Path : GoString
  RawQuery : GoString
  deriving DecidableEq, Repr

/-- Go `URL.EscapedPath` when `RawPath` is empty. -/
def URL.EscapedPath (u : URL) : GoString :=
  if u.Path = [42] then [42] else escape u.Path .encodePath

/-- Go `URL.String` when scheme, opaque, user, host and fragment are empty. -/
def URL.String (u : URL) : GoString :=
  let path := u.EscapedPath
  let segment := path.takeWhile (fun c => c ≠ 47)
  let buf := if 58 ∈ segment then lit "./" ++ path else path
  if u.RawQuery ≠ [] then buf ++ 63 :: u.RawQuery else buf

/-! ## JSON texts

A JSON text is kept as its syntax tree. A string token holds the bytes of the literal
exactly as they stand on the wire, quotes and escapes included; white space between
tokens is not represented. -/

/-- The syntax tree of a JSON text. -/
inductive Json where
  | null
  | bool (b : Bool)
  | num (text : List Nat)
  | str (token : List Nat)
  | arr (items : List Json)
  | obj (members : List (List Nat × Json))
  deriving Repr

/-! ## The data types of the source -/

/-- `Reaction.Action` of `reaction.go`. -/
structure Action where
  HTTPMethod : GoString
  TargetURI : GoString
  Body : GoString
  ActionType : GoString
  deriving DecidableEq, Repr

/-- `Reaction` of `reaction.go`. -/
structure Reaction where
  ID : GoString
  Name : GoString
  Feed : GoString
  EventType : GoString
  Action : Action
  deriving DecidableEq, Repr

/-- `Function` of `projection.go`. `RawData` has type `interface{}`: `none` is the
nil interface, `some j` a value that marshals to the JSON text `j`. -/
structure Function where
  Function : GoString
  TargetSelector : GoString
  EventSelector : GoString
  TargetFilter : GoString
  EventFilter : GoString
  RawData : Option Json

/-- `EventHandler` of `projection.go`; `Functions` is a slice of pointers. -/
structure EventHandler where
  EventType : GoString
  Functions : Slice (Option Function)

/-- `ProjectionDefinition` of `projection.go`; `Handlers` is a slice of pointers. -/
structure ProjectionDefinition where
  Name : GoString
  Feed : GoString
  Handlers : Slice (Option EventHandler)

/-- `Projection` of `projection.go`; `Data` is a `json.RawMessage`, a byte slice. -/
structure Projection where
  ID : GoString
  Data : Slice Nat
  deriving DecidableEq, Repr

/-- `FeedEntry` of `feed.go`. The element type `Event` is declared outside the source
files at hand and is a parameter. -/
structure FeedEntry (Event : Type) where
  SequenceNumber : Int
  AggregateID : GoString
  Timestamp : Int
  Events : Slice (Option Event)

/-- `Feed` of `feed.go`. -/
structure Feed (Event : Type) where
  Entries : Slice (Option (FeedEntry Event))
  HasMore : Bool

/-- The anonymous `struct { Feeds []string }` of `Client.Feeds`. -/
structure FeedsResponse where
  Feeds : Slice GoString
  deriving DecidableEq, Repr

/-- The anonymous `struct { Definitions []*ProjectionDefinition }`. -/
structure DefinitionsResponse where
  Definitions : Slice (Option ProjectionDefinition)

/-- The anonymous `struct { Projections []*Projection }`. -/
structure ProjectionsResponse where
  Projections : Slice (Option Projection)
  deriving DecidableEq, Repr

/-- The anonymous `struct { Reactions []Reaction }` of `Client.ListReactions`. -/
structure ReactionsResponse where
  Reactions : Slice Reaction
  deriving DecidableEq, Repr

/-! ## HTTP -/

/-- `http.StatusOK`. -/
def StatusOK : Int := 200

/-- `http.StatusCreated`. -/
def StatusCreated : Int := 201

/-- Go `http.Header`: canonical keys with their values. -/
abbrev Header := List (GoString × List GoString)

/-- Go `Header.Get` for a key that is already in canonical form: the first value of
the key, or the empty string. -/
def Header.Get (h : Header) (key : GoString) : GoString :=
  match h.lookup key with
  | some (v :: _) => v
  | _ => []

/-- The parts of an `http.Response` the client reads. `Body` holds the bytes of the
body. -/
structure Response where
  StatusCode : Int
  Header : Header
  Body : List Nat

/-- The parts of an `http.Request` the client sets: method, the URL text handed to
`newRequest`, and the bytes of the body (`none` when there is no body). -/
structure Request where
  Method : GoString
  URL : GoString
  Body : Option (List Nat)
  deriving DecidableEq, Repr

/-- The dynamic value an operation passes as `body interface{}`. -/
inductive Payload where
  | reaction (r : Reaction)
  /-- A `*ProjectionDefinition`; `none` is the nil pointer. -/
  | projectionDefinition (d : Option ProjectionDefinition)

/-- What a call `c.do(ctx, req, v)` leaves behind: the returned `*http.Response`
(`none` is nil), the returned error, and the value `v` points to after the call. -/
structure DoResult (α : Type) where
  resp : Option Response
  err : Option GoError
  val : α

/-- The two helper methods of `Client`, for a call whose decoding target has type `α`
(`Unit` when the operation passes a nil target). `newRequest` returns a request or
an error; `do` receives the request and the initial value of the target. -/
structure Client (α : Type) where
  newRequest : GoString → GoString → Option Payload → Except GoError Request
  «do» : Request → α → DoResult α

/-! ## `feed.go` -/

/-- `Client.Feeds`. -/
def Client.Feeds (c : Client FeedsResponse) : Outcome (Slice GoString) :=
  match c.newRequest (lit "GET") (lit "/feeds/") none with
  | .error err => .returned none (some err)
  | .ok req =>
    let d := c.«do» req { Feeds := none }
    match d.err with
    | some err => .returned none (some err)
    | none =>
      match d.resp with
      | none => .panicked
      | some resp =>
        if resp.StatusCode ≠ StatusOK then
          .returned none (some (unexpectedStatus resp.StatusCode))
        else .returned d.val.Feeds none

/-- The URL `Client.Feed` builds before calling `newRequest` (lines 50 to 58). -/
def FeedURL (name : GoString) (since : Int) : URL :=
  let u : URL := { Path := lit "/feeds/" ++ name, RawQuery := [] }
  if since > 0 then
    let vs := Values.Set [] (lit "since") (formatInt since)
    { u with RawQuery := vs.Encode }
  else u

/-- `Client.Feed`. The local `f` is a `*Feed` and `do` receives `&f`, so the target of
the call is the pointer itself: `none` is the nil pointer. -/
def Client.Feed {Event : Type} (c : Client (Option (Serialized.Feed Event)))
    (name : GoString) (since : Int) : Outcome (Option (Serialized.Feed Event)) :=
  let u := FeedURL name since
  match c.newRequest (lit "GET") u.String none with
  | .error err => .returned none (some err)
  | .ok req =>
    let f : Option (Serialized.Feed Event) := some { Entries := none, HasMore := false }
    let d := c.«do» req f
    match d.err with
    | some err => .returned none (some err)
    | none =>
      match d.resp with
      | none => .panicked
      | some resp =>
        if resp.StatusCode ≠ StatusOK then
          .returned none (some (unexpectedStatus resp.StatusCode))
        else .returned d.val none

/-- `Client.FeedSequenceNumber`. -/
def Client.FeedSequenceNumber (c : Client Unit) (feedName : GoString) : Outcome Int :=
  match c.newRequest (lit "HEAD") (lit "/feeds/" ++ feedName) none with
  | .error err => .returned 0 (some err)
  | .ok req =>
    let d := c.«do» req ()
    match d.err with
    | some err => .returned 0 (some err)
    | none =>
      match d.resp with
      | none => .panicked
      | some resp =>
        if resp.StatusCode ≠ StatusOK then
          .returned 0 (some (unexpectedStatus resp.StatusCode))
        else
          let seqstr := resp.Header.Get (lit "Current-Sequence-Number")
          match ParseInt seqstr 10 64 with
          | (_, some err) => .returned 0 (some err)
          | (seq, none) => .returned seq none

/-! ## `projection.go` -/

/-- `Client.ListProjectionDefinitions`. -/
def Client.ListProjectionDefinitions (c : Client DefinitionsResponse) :
    Outcome (Slice (Option Serialized.ProjectionDefinition)) :=
  match c.newRequest (lit "GET") (lit "/projections/definitions") none with
  | .error err => .returned none (some err)
  | .ok req =>
    let d := c.«do» req { Definitions := none }
    match d.resp with
    | none => .panicked
    | some resp =>
      if resp.StatusCode ≠ StatusOK then
        .returned none (some (unexpectedStatus resp.StatusCode))
      else .returned d.val.Definitions d.err

/-- `Client.CreateProjectionDefinition`. -/
def Client.CreateProjectionDefinition (c : Client Unit)
    (d : Option Serialized.ProjectionDefinition) : Outcome Unit :=
  match c.newRequest (lit "POST") (lit "/projections/definitions")
      (some (.projectionDefinition d)) with
  | .error err => .returned () (some err)
  | .ok req =>
    let r := c.«do» req ()
    match r.resp with
    | none => .panicked
    | some resp =>
      if resp.StatusCode ≠ StatusOK then
        .returned () (some (unexpectedStatus resp.StatusCode))
      else .returned () r.err

/-- `Client.ProjectionDefinition`: the target is the local `pd`, returned as `&pd`. -/
def Client.ProjectionDefinition (c : Client Serialized.ProjectionDefinition)
    (name : GoString) : Outcome (Option Serialized.ProjectionDefinition) :=
  match c.newRequest (lit "GET") (lit "/projections/definitions/" ++ name) none with
  | .error err => .returned none (some err)
  | .ok req =>
    let d := c.«do» req { Name := [], Feed := [], Handlers := none }
    match d.resp with
    | none => .panicked
    | some resp =>
      if resp.StatusCode ≠ StatusOK then
        .returned none (some (unexpectedStatus resp.StatusCode))
      else .returned (some d.val) d.err

/-- `Client.DeleteProjectionDefinition`. -/
def Client.DeleteProjectionDefinition (c : Client Unit) (name : GoString) : Outcome Unit :=
  match c.newRequest (lit "DELETE") (lit "/projections/definitions/" ++ name) none with
  | .error err => .returned () (some err)
  | .ok req =>
    let r := c.«do» req ()
    match r.resp with
    | none => .panicked
    | some resp =>
      if resp.StatusCode ≠ StatusOK then
        .returned () (some (unexpectedStatus resp.StatusCode))
      else .returned () r.err

/-- `Client.SingleProjection`: the target is the local `proj`, returned as `&proj`. -/
def Client.SingleProjection (c : Client Projection) (projName aggID : GoString) :
    Outcome (Option Projection) :=
  match c.newRequest (lit "GET") (lit "/projections/single/" ++ projName ++ lit "/" ++ aggID)
      none with
  | .error err => .returned none (some err)
  | .ok req =>
    let d := c.«do» req { ID := [], Data := none }
    match d.resp with
    | none => .panicked
    | some resp =>
      if resp.StatusCode ≠ StatusOK then
        .returned none (some (unexpectedStatus resp.StatusCode))
      else .returned (some d.val) d.err

/-- `Client.ListSingleProjections`. -/
def Client.ListSingleProjections (c : Client ProjectionsResponse) (name : GoString) :
    Outcome (Slice (Option Projection)) :=
  match c.newRequest (lit "GET") (lit "/projections/single/" ++ name) none with
  | .error err => .returned none (some err)
  | .ok req =>
    let d := c.«do» req { Projections := none }
    match d.resp with
    | none => .panicked
    | some resp =>
      if resp.StatusCode ≠ StatusOK then
        .returned none (some (unexpectedStatus resp.StatusCode))
      else .returned d.val.Projections d.err

/-- `Client.AggregatedProjection`: the target is the local `proj`, returned as `&proj`. -/
def Client.AggregatedProjection (c : Client Projection) (name : GoString) :
    Outcome (Option Projection) :=
  match c.newRequest (lit "GET") (lit "/projections/aggregated/" ++ name) none with
  | .error err => .returned none (some err)
  | .ok req =>
    let d := c.«do» req { ID := [], Data := none }
    match d.resp with
    | none => .panicked
    | some resp =>
      if resp.StatusCode ≠ StatusOK then
        .returned none (some (unexpectedStatus resp.StatusCode))
      else .returned (some d.val) d.err

/-- `Client.ListAggregatedProjections`. -/
def Client.ListAggregatedProjections (c : Client ProjectionsResponse) :
    Outcome (Slice (Option Projection)) :=
  match c.newRequest (lit "GET") (lit "/projections/aggregated") none with
  | .error err => .returned none (some err)
  | .ok req =>
    let d := c.«do» req { Projections := none }
    match d.resp with
    | none => .panicked
    | some resp =>
      if resp.StatusCode ≠ StatusOK then
        .returned none (some (unexpectedStatus resp.StatusCode))
      else .returned d.val.Projections d.err

/-! ## `reaction.go` -/

/-- `Client.CreateReaction`. -/
def Client.CreateReaction (c : Client Unit) (r : Reaction) : Outcome Unit :=
  match c.newRequest (lit "POST") (lit "/reactions") (some (.reaction r)) with
  | .error err => .returned () (some err)
  | .ok req =>
    let d := c.«do» req ()
    match d.resp with
    | none => .panicked
    | some resp =>
      if resp.StatusCode ≠ StatusCreated then
        .returned () (some (unexpectedStatus resp.StatusCode))
      else .returned () d.err

/-- `Client.ListReactions`. -/
def Client.ListReactions (c : Client ReactionsResponse) : Outcome (Slice Reaction) :=
  match c.newRequest (lit "GET") (lit "/reactions") none with
  | .error err => .returned none (some err)
  | .ok req =>
    let d := c.«do» req { Reactions := none }
    match d.resp with
    | none => .panicked
    | some resp =>
      if resp.StatusCode ≠ StatusOK then
        .returned none (some (unexpectedStatus resp.StatusCode))
      else .returned d.val.Reactions d.err

/-! ## `unicode/utf8` -/

/-- `utf8.RuneError`, the replacement character U+FFFD. -/
def RuneError : Nat := 0xFFFD

/-- The table `first` of `unicode/utf8` together with `acceptRanges`, for a lead byte
at or above 0x80: the size of the sequence and the bounds of its second byte; `none`
for a byte that starts no sequence. -/
def acceptRange (p0 : Nat) : Option (Nat × Nat × Nat) :=
  if 0xC2 ≤ p0 ∧ p0 ≤ 0xDF then some (2, 0x80, 0xBF)
  else if p0 = 0xE0 then some (3, 0xA0, 0xBF)
  else if 0xE1 ≤ p0 ∧ p0 ≤ 0xEC then some (3, 0x80, 0xBF)
  else if p0 = 0xED then some (3, 0x80, 0x9F)
  else if 0xEE ≤ p0 ∧ p0 ≤ 0xEF then some (3, 0x80, 0xBF)
  else if p0 = 0xF0 then some (4, 0x90, 0xBF)
  else if 0xF1 ≤ p0 ∧ p0 ≤ 0xF3 then some (4, 0x80, 0xBF)
  else if p0 = 0xF4 then some (4, 0x80, 0x8F)
  else none

/-- Go `utf8.DecodeRune`: the first rune of `p` and its width in bytes;
`(RuneError, 1)` for an invalid encoding, `(RuneError, 0)` for empty input. -/
def DecodeRune (p : List Nat) : Nat × Nat :=
  match p with
  | [] => (RuneError, 0)
  | p0 :: rest =>
    if p0 < 0x80 then (p0, 1)
    else
      match acceptRange p0 with
      | none => (RuneError, 1)
      | some (sz, lo, hi) =>
        if p.length < sz then (RuneError, 1)
        else
          let b1 := rest.getD 0 0
          if b1 < lo ∨ hi < b1 then (RuneError, 1)
          else if sz ≤ 2 then (p0 % 32 * 64 + b1 % 64, 2)
          else
            let b2 := rest.getD 1 0
            if b2 < 0x80 ∨ 0xBF < b2 then (RuneError, 1)
            else if sz ≤ 3 then (p0 % 16 * 4096 + b1 % 64 * 64 + b2 % 64, 3)
            else
              let b3 := rest.getD 2 0
              if b3 < 0x80 ∨ 0xBF < b3 then (RuneError, 1)
              else (p0 % 8 * 262144 + b1 % 64 * 4096 + b2 % 64 * 64 + b3 % 64, 4)

/-- Go `utf8.EncodeRune`: the UTF-8 bytes of a rune; a surrogate or a value above
U+10FFFF is written as U+FFFD. -/
def EncodeRune (r : Nat) : List Nat :=
  if r ≤ 0x7F then [r]
  else if r ≤ 0x7FF then [0xC0 + r / 64, 0x80 + r % 64]
  else if r > 0x10FFFF ∨ (0xD800 ≤ r ∧ r ≤ 0xDFFF) then [0xEF, 0xBF, 0xBD]
  else if r ≤ 0xFFFF then [0xE0 + r / 4096, 0x80 + r / 64 % 64, 0x80 + r % 64]
  else [0xF0 + r / 262144, 0x80 + r / 4096 % 64, 0x80 + r / 64 % 64, 0x80 + r % 64]

/-- Go `utf8.Valid` on the first `fuel` runes of `s`: every rune decodes. -/
def validLoop : Nat → List Nat → Bool
  | _, [] => true
  | 0, _ :: _ => false
  | fuel + 1, b :: rest =>
    if b < 0x80 then validLoop fuel rest
    else if (DecodeRune (b :: rest)).1 = RuneError ∧ (DecodeRune (b :: rest)).2 = 1 then false
    else validLoop fuel ((b :: rest).drop (DecodeRune (b :: rest)).2)

/-- Go `utf8.ValidString`. -/
def ValidString (s : GoString) : Bool := validLoop s.length s

/-! ## `encoding/json`: string literals -/

/-- The lower-case hexadecimal digit of a nibble (the table `hex` of the encoder). -/
def hexDigit (n : Nat) : Nat := if n < 10 then 48 + n else 87 + n

/-- The table `htmlSafeSet` of the encoder: the ASCII bytes written unescaped. -/
def htmlSafe (b : Nat) : Bool :=
  32 ≤ b ∧ b < 0x80 ∧ b ≠ 34 ∧ b ≠ 92 ∧ b ≠ 60 ∧ b ≠ 62 ∧ b ≠ 38

/-- What the encoder writes for one ASCII byte (`escapeHTML` is on, the default of
`json.Marshal` and of `json.NewEncoder`). Backspace and form feed are written with
their short escapes, as current Go releases do; older releases write `\u0008` and
`\u000c`, which the decoder reads back as the same bytes. -/
def escapeByte (b : Nat) : List Nat :=
  if htmlSafe b then [b]
  else if b = 92 ∨ b = 34 then [92, b]
  else if b = 8 then [92, 98]
  else if b = 12 then [92, 102]
  else if b = 10 then [92, 110]
  else if b = 13 then [92, 114]
  else if b = 9 then [92, 116]
  else [92, 117, 48, 48, hexDigit (b / 16), hexDigit (b % 16)]

/-- One iteration of the loop of the encoder over the bytes of a string
(`appendString`), at the byte `b` followed by `rest`: the bytes written and the
input left. An ASCII byte is written as `escapeByte` says; a byte that starts no
valid UTF-8 sequence is written as the escape of U+FFFD; U+2028 and U+2029 are
escaped; any other rune is copied. -/
def appendStringStep (b : Nat) (rest : List Nat) : List Nat × List Nat :=
  if b < 0x80 then (escapeByte b, rest)
  else
    let (c, size) := DecodeRune (b :: rest)
    if c = RuneError ∧ size = 1 then ([92, 117, 102, 102, 102, 100], rest)
    else if c = 0x2028 ∨ c = 0x2029 then
      ([92, 117, 50, 48, 50, hexDigit (c % 16)], (b :: rest).drop size)
    else ((b :: rest).take size, (b :: rest).drop size)

/-- The loop of the encoder over the bytes of a string, without the surrounding
quotes. `fuel` bounds the number of iterations; the length of the string always
suffices. -/
def appendStringLoop : Nat → List Nat → List Nat
  | _, [] => []
  | 0, _ :: _ => []
  | fuel + 1, b :: rest =>
    (appendStringStep b rest).1 ++ appendStringLoop fuel (appendStringStep b rest).2

/-- The JSON string literal the encoder writes for a Go string, quotes included. -/
def appendString (src : GoString) : List Nat :=
  34 :: appendStringLoop src.length src ++ [34]

/-- Value of one hexadecimal digit, as `getu4` reads it. -/
def unhex (c : Nat) : Option Nat :=
  if 48 ≤ c ∧ c ≤ 57 then some (c - 48)
  else if 97 ≤ c ∧ c ≤ 102 then some (c - 97 + 10)
  else if 65 ≤ c ∧ c ≤ 70 then some (c - 65 + 10)
  else none

/-- Go `getu4` of the decoder: the code unit of a `\uXXXX` escape at the head of `s`;
`none` stands for the result -1. -/
def getu4 (s : List Nat) : Option Nat :=
  match s with
  | 92 :: 117 :: a :: b :: c :: d :: _ =>
    match unhex a, unhex b, unhex c, unhex d with
    | some a, some b, some c, some d => some (((a * 16 + b) * 16 + c) * 16 + d)
    | _, _, _, _ => none
  | _ => none

/-- Go `utf16.IsSurrogate`. -/
def IsSurrogate (r : Nat) : Bool := 0xD800 ≤ r ∧ r < 0xE000

/-- Go `utf16.DecodeRune` on the result of two `getu4` calls: the code point of a
surrogate pair, U+FFFD when the two do not form a pair. -/
def utf16DecodeRune (r1 : Nat) (r2 : Option Nat) : Nat :=
  match r2 with
  | some r2 =>
    if 0xD800 ≤ r1 ∧ r1 < 0xDC00 ∧ 0xDC00 ≤ r2 ∧ r2 < 0xE000 then
      (r1 - 0xD800) * 1024 + (r2 - 0xDC00) + 0x10000
    else RuneError
  | none => RuneError

/-- One iteration of the loop of `unquoteBytes` of the decoder, at the byte `c`
followed by `rest`: the bytes written and the input left; `none` when the literal is
malformed there. An escape is resolved, an ASCII byte is copied, and any other byte
is decoded as a rune and written back, which coerces the text to well-formed UTF-8. -/
def unquoteStep (c : Nat) (rest : List Nat) : Option (List Nat × List Nat) :=
  if c = 92 then
    match rest with
    | [] => none
    | e :: rest2 =>
      if e = 34 ∨ e = 92 ∨ e = 47 ∨ e = 39 then some ([e], rest2)
      else if e = 98 then some ([8], rest2)
      else if e = 102 then some ([12], rest2)
      else if e = 110 then some ([10], rest2)
      else if e = 114 then some ([13], rest2)
      else if e = 116 then some ([9], rest2)
      else if e = 117 then
        match getu4 (c :: rest) with
        | none => none
        | some rr =>
          let rest6 := (c :: rest).drop 6
          if IsSurrogate rr then
            let dec := utf16DecodeRune rr (getu4 rest6)
            if dec ≠ RuneError then some (EncodeRune dec, rest6.drop 6)
            else some (EncodeRune RuneError, rest6)
          else some (EncodeRune rr, rest6)
      else none
  else if c = 34 ∨ c < 32 then none
  else if c < 0x80 then some ([c], rest)
  else some (EncodeRune (DecodeRune (c :: rest)).1, (c :: rest).drop (DecodeRune (c :: rest)).2)

/-- The loop of `unquoteBytes` of the decoder over the bytes between the quotes;
`none` when the literal is malformed. `fuel` bounds the number of iterations; the
length of the input always suffices. -/
def unquoteLoop : Nat → List Nat → Option (List Nat)
  | _, [] => some []
  | 0, _ :: _ => none
  | fuel + 1, c :: rest =>
    match unquoteStep c rest with
    | none => none
    | some (out, rem) => (unquoteLoop fuel rem).map (out ++ ·)

/-- Go `unquote` of the decoder: the Go string a JSON string literal denotes. -/
def unquote (s : List Nat) : Option GoString :=
  if s.length < 2 ∨ s.head? ≠ some 34 ∨ s.getLast? ≠ some 34 then none
  else
    let body := s.tail.dropLast
    unquoteLoop body.length body

/-! ## `encoding/json`: marshaling by struct tags -/

mutual
/-- The bytes of a JSON text in compact form, as the encoder writes it. -/
def Json.render : Json → List Nat
  | .null => [110, 117, 108, 108]
  | .bool b => if b then [116, 114, 117, 101] else [102, 97, 108, 115, 101]
  | .num t => t
  | .str t => t
  | .arr xs => 91 :: renderItems xs ++ [93]
  | .obj ms => 123 :: renderMembers ms ++ [125]
/-- The items of an array, separated by commas. -/
def renderItems : List Json → List Nat
  | [] => []
  | [x] => x.render
  | x :: y :: xs => x.render ++ 44 :: renderItems (y :: xs)
/-- The members of an object, `key:value`, separated by commas. -/
def renderMembers : List (List Nat × Json) → List Nat
  | [] => []
  | [(k, v)] => k ++ 58 :: v.render
  | (k, v) :: m :: ms => k ++ 58 :: v.render ++ 44 :: renderMembers (m :: ms)
end

/-- One field of a struct as the encoder sees it: the key of its `json` tag, whether
the tag carries `omitempty`, whether the value is empty (`isEmptyValue`), and the
encoding of the value. -/
structure Field where
  name : GoString
  omitEmpty : Bool
  isEmpty : Bool
  value : Json

/-- The encoder on a struct: the fields in declaration order, a field dropped when it
is tagged `omitempty` and its value is empty. -/
def encodeStruct (fields : List Field) : Json :=
  .obj ((fields.filter fun f => !(f.omitEmpty && f.isEmpty)).map
    fun f => (appendString f.name, f.value))

/-- A field of type `string`: empty when its length is zero. -/
def stringField (name : GoString) (omitEmpty : Bool) (s : GoString) : Field :=
  { name := name, omitEmpty := omitEmpty, isEmpty := s.length = 0, value := .str (appendString s) }

/-- The encoder on a pointer: `null` for nil, the pointee otherwise. -/
def encodePtr {α : Type} (enc : α → Json) : Option α → Json
  | none => .null
  | some a => enc a

/-- The encoder on a slice: `null` for nil, an array otherwise. -/
def encodeSlice {α : Type} (enc : α → Json) : Slice α → Json
  | none => .null
  | some xs => .arr (xs.map enc)

/-- A field of slice type: empty when its length is zero. -/
def sliceField {α : Type} (name : GoString) (omitEmpty : Bool) (enc : α → Json)
    (xs : Slice α) : Field :=
  { name := name, omitEmpty := omitEmpty, isEmpty := xs.len = 0, value := encodeSlice enc xs }

/-- A field of type `interface{}`: empty when it is nil. -/
def ifaceField (name : GoString) (omitEmpty : Bool) (v : Option Json) : Field :=
  { name := name, omitEmpty := omitEmpty, isEmpty := v.isNone, value := encodePtr id v }

/-- The encoding of an `Action`, from its struct tags. -/
def Action.marshal (a : Action) : Json :=
  encodeStruct [
    stringField (lit "httpMethod") false a.HTTPMethod,
    stringField (lit "targetUri") false a.TargetURI,
    stringField (lit "body") false a.Body,
    stringField (lit "actionType") false a.ActionType]

/-- The encoding of a `Reaction`, from its struct tags. -/
def Reaction.marshal (r : Reaction) : Json :=
  encodeStruct [
    stringField (lit "id") false r.ID,
    stringField (lit "name") false r.Name,
    stringField (lit "feed") false r.Feed,
    stringField (lit "eventType") false r.EventType,
    { name := lit "action", omitEmpty := false, isEmpty := false, value := r.Action.marshal }]

/-- The encoding of a `Function`, from its struct tags. -/
def Function.marshal (f : Serialized.Function) : Json :=
  encodeStruct [
    stringField (lit "function") true f.Function,
    stringField (lit "targetSelector") true f.TargetSelector,
    stringField (lit "eventSelector") true f.EventSelector,
    stringField (lit "targetFilter") true f.TargetFilter,
    stringField (lit "eventFilter") true f.EventFilter,
    ifaceField (lit "rawData") true f.RawData]

/-- The encoding of an `EventHandler`, from its struct tags. -/
def EventHandler.marshal (h : EventHandler) : Json :=
  encodeStruct [
    stringField (lit "eventType") true h.EventType,
    sliceField (lit "functions") true (encodePtr Function.marshal) h.Functions]

/-- The encoding of a `ProjectionDefinition`, from its struct tags. -/
def ProjectionDefinition.marshal (d : ProjectionDefinition) : Json :=
  encodeStruct [
    stringField (lit "projectionName") true d.Name,
    stringField (lit "feedName") true d.Feed,
    sliceField (lit "handlers") true (encodePtr EventHandler.marshal) d.Handlers]

/-- The encoding of the value an operation passes as request body. -/
def Payload.marshal : Payload → Json
  | .reaction r => r.marshal
  | .projectionDefinition d => encodePtr ProjectionDefinition.marshal d

/-! ## `encoding/json`: unmarshaling into the types of `reaction.go` -/

/-- A decoder into a target of type `σ`: the new value of the target and the error
the decoder saves (an `UnmarshalTypeError`), if any. -/
abbrev Dec (σ : Type) := Json → σ → σ × Option GoError

/-- The name of the kind of a JSON value, as `UnmarshalTypeError.Value` reports it. -/
def Json.kind : Json → GoString
  | .null => lit "null"
  | .bool _ => lit "bool"
  | .num _ => lit "number"
  | .str _ => lit "string"
  | .arr _ => lit "array"
  | .obj _ => lit "object"

/-- The decoder on a target of type `string`: a string literal is stored, `null`
leaves the target as it is, every other value is a type error. -/
def decodeString : Dec GoString
  | .str tok, s =>
    match unquote tok with
    | some t => (t, none)
    | none => (s, some .syntaxError)
  | .null, s => (s, none)
  | j, s => (s, some (.unmarshalTypeError j.kind (lit "string")))

/-- One field of a struct as the decoder sees it: the key of its tag and the decoder
that stores a value into that field of the struct. -/
structure FieldDec (σ : Type) where
  name : GoString
  dec : Dec σ

/-- Go `foldName` of the decoder, as far as it decides a match with an ASCII name: an
ASCII letter is folded to upper case, and the two runes outside ASCII whose simple
case folding reaches an ASCII letter are folded to it, U+017F (bytes C5 BF) to `S` and
U+212A (bytes E2 84 AA) to `K`. Every other byte is kept: a rune outside ASCII folds
to a rune outside ASCII, which no byte of an ASCII name equals. -/
def foldName : List Nat → List Nat
  | [] => []
  | 0xC5 :: 0xBF :: rest => 83 :: foldName rest
  | 0xE2 :: 0x84 :: 0xAA :: rest => 75 :: foldName rest
  | c :: rest => (if 97 ≤ c ∧ c ≤ 122 then c - 32 else c) :: foldName rest

/-- The field a key selects: the field whose name equals the key, else the first
field whose name equals it under case folding. The names of the fields are ASCII. -/
def findField {σ : Type} (fields : List (FieldDec σ)) (key : GoString) : Option (FieldDec σ) :=
  match fields.find? (fun f => f.name = key) with
  | some f => some f
  | none => fields.find? (fun f => foldName f.name = foldName key)

/-- The decoder over the members of an object, in order: a member whose key selects a
field is decoded into it, any other member is skipped; the first error is kept. -/
def decodeMembers {σ : Type} (fields : List (FieldDec σ)) :
    List (List Nat × Json) → σ → σ × Option GoError
  | [], s => (s, none)
  | (k, v) :: ms, s =>
    let r1 : σ × Option GoError :=
      match (unquote k).bind (findField fields) with
      | some f => f.dec v s
      | none => (s, none)
    let r2 := decodeMembers fields ms r1.1
    (r2.1, r1.2 <|> r2.2)

/-- The decoder on a target of struct type: an object is decoded member by member,
`null` leaves the target as it is, every other value is a type error. -/
def decodeStruct {σ : Type} (tyName : GoString) (fields : List (FieldDec σ)) : Dec σ
  | .obj ms, s => decodeMembers fields ms s
  | .null, s => (s, none)
  | j, s => (s, some (.unmarshalTypeError j.kind tyName))

/-- The items of an array decoded one by one: the item at index `i` is decoded into
the element the slice holds at `i`, and into a zero value when the slice is shorter
(`cur` holds the elements from `i` on). The result has as many elements as the array
has items. -/
def decodeItems {α : Type} (dec : Dec α) (zero : α) :
    List Json → List α → List α × Option GoError
  | [], _ => ([], none)
  | j :: js, cur =>
    let r1 := dec j (cur.headD zero)
    let r2 := decodeItems dec zero js cur.tail
    (r1.1 :: r2.1, r1.2 <|> r2.2)

/-- The decoder on a target of slice type: an array is decoded item by item into the
elements of the slice, which ends with the length of the array (a nil slice is
empty; the spare capacity of a slice is taken to hold zero values); `null` gives the
nil slice, every other value is a type error. -/
def decodeSlice {α : Type} (tyName : GoString) (dec : Dec α) (zero : α) : Dec (Slice α)
  | .arr items, s =>
    let r := decodeItems dec zero items (s.getD [])
    (some r.1, r.2)
  | .null, _ => (none, none)
  | j, s => (s, some (.unmarshalTypeError j.kind tyName))

/-- The decoder on a target of pointer type: `null` sets the pointer to nil; any
other value is decoded into the pointee, which is allocated when the pointer is nil. -/
def decodePtr {α : Type} (dec : Dec α) (zero : α) : Dec (Option α)
  | .null, _ => (none, none)
  | j, p =>
    let r := dec j (p.getD zero)
    (some r.1, r.2)

/-- The decoder into an `Action`, from its struct tags. -/
def Action.unmarshal : Dec Action :=
  decodeStruct (lit "serialized.Action") [
    { name := lit "httpMethod", dec := fun j a =>
        let r := decodeString j a.HTTPMethod; ({ a with HTTPMethod := r.1 }, r.2) },
    { name := lit "targetUri", dec := fun j a =>
        let r := decodeString j a.TargetURI; ({ a with TargetURI := r.1 }, r.2) },
    { name := lit "body", dec := fun j a =>
        let r := decodeString j a.Body; ({ a with Body := r.1 }, r.2) },
    { name := lit "actionType", dec := fun j a =>
        let r := decodeString j a.ActionType; ({ a with ActionType := r.1 }, r.2) }]

/-- The decoder into a `Reaction`, from its struct tags. -/
def Reaction.unmarshal : Dec Reaction :=
  decodeStruct (lit "serialized.Reaction") [
    { name := lit "id", dec := fun j x =>
        let r := decodeString j x.ID; ({ x with ID := r.1 }, r.2) },
    { name := lit "name", dec := fun j x =>
        let r := decodeString j x.Name; ({ x with Name := r.1 }, r.2) },
    { name := lit "feed", dec := fun j x =>
        let r := decodeString j x.Feed; ({ x with Feed := r.1 }, r.2) },
    { name := lit "eventType", dec := fun j x =>
        let r := decodeString j x.EventType; ({ x with EventType := r.1 }, r.2) },
    { name := lit "action", dec := fun j x =>
        let r := Action.unmarshal j x.Action; ({ x with Action := r.1 }, r.2) }]

/-- The zero value of `Reaction`. -/
def Reaction.zero : Reaction :=
  { ID := [], Name := [], Feed := [], EventType := [],
    Action := { HTTPMethod := [], TargetURI := [], Body := [], ActionType := [] } }

/-- The decoder into the anonymous struct of `Client.ListReactions`. -/
def ReactionsResponse.unmarshal : Dec ReactionsResponse :=
  decodeStruct (lit "struct") [
    { name := lit "reactions", dec := fun j x =>
        let r := decodeSlice (lit "[]serialized.Reaction") Reaction.unmarshal Reaction.zero
          j x.Reactions
        ({ x with Reactions := r.1 }, r.2) }]

/-- The decoder into the anonymous struct of `Client.Feeds`. -/
def FeedsResponse.unmarshal : Dec FeedsResponse :=
  decodeStruct (lit "struct") [
    { name := lit "feeds", dec := fun j x =>
        let r := decodeSlice (lit "[]string") decodeString [] j x.Feeds
        ({ x with Feeds := r.1 }, r.2) }]

/-- Whether a byte is a hexadecimal digit, as the scanner of the decoder reads it. -/
def isHex (c : Nat) : Bool := (48 ≤ c ∧ c ≤ 57) ∨ (97 ≤ c ∧ c ≤ 102) ∨ (65 ≤ c ∧ c ≤ 70)

/-- The scanner of the decoder over the bytes between the quotes of a string literal
(its states `stateInString`, `stateInStringEsc` and `stateInStringEscU`): no quote
and no control character outside of an escape, and every escape is one of
`\b \f \n \r \t \\ \/ \"` or `\u` followed by four hexadecimal digits. -/
def scanString : List Nat → Bool
  | [] => true
  | c :: rest =>
    if c = 34 then false
    else if c = 92 then
      match rest with
      | [] => false
      | e :: rest2 =>
        if e = 98 ∨ e = 102 ∨ e = 110 ∨ e = 114 ∨ e = 116 ∨ e = 92 ∨ e = 47 ∨ e = 34 then
          scanString rest2
        else if e = 117 then
          match rest2 with
          | h1 :: h2 :: h3 :: h4 :: rest3 =>
            isHex h1 && isHex h2 && isHex h3 && isHex h4 && scanString rest3
          | _ => false
        else false
    else if c < 32 then false
    else scanString rest

/-- Whether a token is a string literal the scanner accepts, quotes included. -/
def validLiteral (s : List Nat) : Bool :=
  2 ≤ s.length ∧ s.head? = some 34 ∧ s.getLast? = some 34 ∧ scanString s.tail.dropLast = true

mutual
/-- Whether every string literal of a JSON text is well formed. The decoder scans
the whole text before it stores anything. -/
def Json.valid : Json → Bool
  | .null => true
  | .bool _ => true
  | .num _ => true
  | .str t => validLiteral t
  | .arr xs => validItems xs
  | .obj ms => validMembers ms
/-- Validity of the items of an array. -/
def validItems : List Json → Bool
  | [] => true
  | x :: xs => x.valid && validItems xs
/-- Validity of the members of an object. -/
def validMembers : List (List Nat × Json) → Bool
  | [] => true
  | (k, v) :: ms => validLiteral k && v.valid && validMembers ms
end

/-! ## `encoding/json`: reading a JSON text -/

/-- White space between the tokens of a JSON text. -/
def isSpace (c : Nat) : Bool := c = 32 ∨ c = 9 ∨ c = 13 ∨ c = 10

/-- The input without its leading white space. -/
def skipSpace : List Nat → List Nat
  | [] => []
  | c :: rest => if isSpace c then skipSpace rest else c :: rest

/-- The input after an opening quote, split at the closing quote: the bytes of the
literal between the quotes and the input after the closing quote. A backslash takes
the byte after it along; `none` when the literal is not closed. -/
def splitString : List Nat → Option (List Nat × List Nat)
  | [] => none
  | c :: rest =>
    if c = 34 then some ([], rest)
    else if c = 92 then
      match rest with
      | [] => none
      | e :: rest2 => (splitString rest2).map fun p => (c :: e :: p.1, p.2)
    else (splitString rest).map fun p => (c :: p.1, p.2)

/-- The states of the scanner inside a number. -/
inductive NumState where
  | neg
  | zero
  | digits
  | dot
  | frac
  | exp
  | expSign
  | expDigits
  deriving DecidableEq, Repr

/-- The state of the scanner after a byte that continues the number; `none` when the
byte does not continue it. -/
def numStep : NumState → Nat → Option NumState
  | .neg, c => if c = 48 then some .zero else if 49 ≤ c ∧ c ≤ 57 then some .digits else none
  | .zero, c => if c = 46 then some .dot else if c = 101 ∨ c = 69 then some .exp else none
  | .digits, c =>
    if 48 ≤ c ∧ c ≤ 57 then some .digits
    else if c = 46 then some .dot else if c = 101 ∨ c = 69 then some .exp else none
  | .dot, c => if 48 ≤ c ∧ c ≤ 57 then some .frac else none
  | .frac, c =>
    if 48 ≤ c ∧ c ≤ 57 then some .frac else if c = 101 ∨ c = 69 then some .exp else none
  | .exp, c =>
    if c = 43 ∨ c = 45 then some .expSign
    else if 48 ≤ c ∧ c ≤ 57 then some .expDigits else none
  | .expSign, c => if 48 ≤ c ∧ c ≤ 57 then some .expDigits else none
  | .expDigits, c => if 48 ≤ c ∧ c ≤ 57 then some .expDigits else none

/-- Whether a number may end in a state. -/
def numFinal : NumState → Bool
  | .zero => true
  | .digits => true
  | .frac => true
  | .expDigits => true
  | _ => false

/-- The rest of a number: the bytes that continue it and the input after them. -/
def scanNumber : NumState → List Nat → Option (List Nat × List Nat)
  | st, [] => if numFinal st then some ([], []) else none
  | st, c :: rest =>
    match numStep st c with
    | some st2 => (scanNumber st2 rest).map fun p => (c :: p.1, p.2)
    | none => if numFinal st then some ([], c :: rest) else none

mutual
/-- The first JSON value of the input, after white space, and the input after it.
`fuel` bounds the number of nested and chained calls; `depth` is the number of
objects and arrays that are open, which the scanner lets grow to 10000
(`maxNestingDepth`) and no further. -/
def parseValue : Nat → Nat → List Nat → Option (Json × List Nat)
  | 0, _, _ => none
  | fuel + 1, depth, s =>
    match skipSpace s with
    | [] => none
    | c :: rest =>
      if c = 123 then
        if 10000 ≤ depth then none
        else
          match skipSpace rest with
          | [] => none
          | c2 :: rest2 =>
            if c2 = 125 then some (.obj [], rest2)
            else (parseMembers fuel (depth + 1) (c2 :: rest2)).map fun p => (.obj p.1, p.2)
      else if c = 91 then
        if 10000 ≤ depth then none
        else
          match skipSpace rest with
          | [] => none
          | c2 :: rest2 =>
            if c2 = 93 then some (.arr [], rest2)
            else (parseItems fuel (depth + 1) (c2 :: rest2)).map fun p => (.arr p.1, p.2)
      else if c = 34 then (splitString rest).map fun p => (.str (34 :: p.1 ++ [34]), p.2)
      else if c = 116 then
        if rest.take 3 = [114, 117, 101] then some (.bool true, rest.drop 3) else none
      else if c = 102 then
        if rest.take 4 = [97, 108, 115, 101] then some (.bool false, rest.drop 4) else none
      else if c = 110 then
        if rest.take 3 = [117, 108, 108] then some (.null, rest.drop 3) else none
      else if c = 45 then (scanNumber .neg rest).map fun p => (.num (c :: p.1), p.2)
      else if c = 48 then (scanNumber .zero rest).map fun p => (.num (c :: p.1), p.2)
      else if 49 ≤ c ∧ c ≤ 57 then
        (scanNumber .digits rest).map fun p => (.num (c :: p.1), p.2)
      else none
/-- The items of an array up to the closing bracket, and the input after it. -/
def parseItems : Nat → Nat → List Nat → Option (List Json × List Nat)
  | 0, _, _ => none
  | fuel + 1, depth, s =>
    match parseValue fuel depth s with
    | none => none
    | some (v, r) =>
      match skipSpace r with
      | [] => none
      | c :: rest =>
        if c = 44 then (parseItems fuel depth rest).map fun p => (v :: p.1, p.2)
        else if c = 93 then some ([v], rest)
        else none
/-- The members of an object up to the closing brace, and the input after it. -/
def parseMembers : Nat → Nat → List Nat → Option (List (List Nat × Json) × List Nat)
  | 0, _, _ => none
  | fuel + 1, depth, s =>
    match skipSpace s with
    | [] => none
    | q :: rest =>
      if q = 34 then
        match splitString rest with
        | none => none
        | some (k, r1) =>
          match skipSpace r1 with
          | [] => none
          | colon :: r2 =>
            if colon = 58 then
              match parseValue fuel depth r2 with
              | none => none
              | some (v, r3) =>
                match skipSpace r3 with
                | [] => none
                | c :: r4 =>
                  if c = 44 then
                    (parseMembers fuel depth r4).map fun p =>
                      ((34 :: k ++ [34], v) :: p.1, p.2)
                  else if c = 125 then some ([(34 :: k ++ [34], v)], r4)
                  else none
            else none
      else none
end

/-- The syntax tree of the first JSON value of a body, as `Decoder.Decode` reads it;
`none` when the body does not start with a JSON value (an empty body included). What
follows the value is left unread. The fuel is twice the length of the body and two
more: of two calls in a row at least one consumes a byte. -/
def parseJSON (body : List Nat) : Option Json :=
  (parseValue (2 * body.length + 2) 0 body).map fun p => p.1

/-- Go `Decoder.Decode` on the bytes of a body: the first JSON value of the body is
decoded into the target; a body that does not start with a well-formed JSON value is
an error of the decoder and leaves the target as it is. -/
def decodeInto {σ : Type} (dec : Dec σ) (body : List Nat) (v : σ) : σ × Option GoError :=
  match parseJSON body with
  | none => (v, some .syntaxError)
  | some j => if j.valid then dec j v else (v, some .syntaxError)

/-! ## The helpers `newRequest` and `do` -/

/-- Modelled from the spec: `newRequest` is declared outside the source files at hand.
The specification describes the plumbing as building a URL and marshaling a body:
the request carries the method, the URL text resolved by `resolve` (which stands for
the base URL handling and may fail), and, for a non-nil `body`, its JSON encoding in
compact form. White space after the JSON text, which `TestCreateReaction` trims
before it compares, is not represented. -/
def newRequest (resolve : GoString → Except GoError GoString)
    (method url : GoString) (body : Option Payload) : Except GoError Request :=
  match resolve url with
  | .error err => .error err
  | .ok u => .ok { Method := method, URL := u, Body := body.map fun p => p.marshal.render }

/-- Modelled from the spec: `do` is declared outside the source files at hand. The
specification describes it as issuing the request and unmarshaling the response: a
transport failure gives a nil response and the error; otherwise the body is decoded
into the target when there is one (`decode` is `none` for a nil target, as in
`CreateReaction`, whose test answers with an empty body), and the response is
returned with the error of the decoder. -/
def doRequest {α : Type} (transport : Request → Except GoError Response)
    (decode : Option (Dec α)) (req : Request) (v : α) : DoResult α :=
  match transport req with
  | .error err => { resp := none, err := some err, val := v }
  | .ok resp =>
    match decode with
    | none => { resp := some resp, err := none, val := v }
    | some dec =>
      let r := decodeInto dec resp.Body v
      { resp := some resp, err := r.2, val := r.1 }

/-- Modelled from the spec: the client whose two helpers are `newRequest` and
`doRequest`, over a given URL resolution and a given transport. -/
def specClient {α : Type} (resolve : GoString → Except GoError GoString)
    (transport : Request → Except GoError Response) (decode : Option (Dec α)) : Client α :=
  { newRequest := newRequest resolve, «do» := doRequest transport decode }

/-! ## Vocabulary of the statements -/

/-- The round trip of an operation: `newRequest`, called with the given method, URL
text and body, returned a request, and `do`, called with that request and a target
holding `v`, returned the response `resp` (`none` is nil) and the error `err`. -/
def Delivered {α : Type} (c : Client α) (method url : GoString) (body : Option Payload)
    (v : α) (resp : Option Response) (err : Option GoError) : Prop :=
  ∃ req, c.newRequest method url body = .ok req ∧
    (c.«do» req v).resp = resp ∧ (c.«do» req v).err = err

/-- The operation returned, and its error is nil. -/
def Outcome.nilError {β : Type} (o : Outcome β) : Prop := ∃ v, o = .returned v none

/-- An operation with outcome `o`, whose round trip is described by `c`, `method`,
`url`, `body` and `v`, compares the status code to the constant `expected`: its
error is nil exactly when the round trip delivered a response with that status and no
error, and a response with any other status gives the zero value and the error
`unexpected status code: N`, whatever error `do` reports along with the response. -/
def ChecksStatus {α β : Type} (o : Outcome β) (c : Client α) (method url : GoString)
    (body : Option Payload) (v : α) (expected : Int) (zero : β) : Prop :=
  (o.nilError ↔
    ∃ resp, Delivered c method url body v (some resp) none ∧ resp.StatusCode = expected) ∧
  (∀ resp err, Delivered c method url body v (some resp) err → resp.StatusCode ≠ expected →
    o = .returned zero (some (unexpectedStatus resp.StatusCode)))

/-- An operation with outcome `o` looks at the error of `do` before it compares the
status code to the constant `expected`: its error is nil exactly when the round trip
delivered a response with that status and no error; a response with any other
status, delivered without an error, gives the zero value and the error
`unexpected status code: N`; and an error `e` of `do`, with or without a response,
gives the zero value and `e`. -/
def ChecksErrorThenStatus {α β : Type} (o : Outcome β) (c : Client α) (method url : GoString)
    (body : Option Payload) (v : α) (expected : Int) (zero : β) : Prop :=
  (o.nilError ↔
    ∃ resp, Delivered c method url body v (some resp) none ∧ resp.StatusCode = expected) ∧
  (∀ resp, Delivered c method url body v (some resp) none → resp.StatusCode ≠ expected →
    o = .returned zero (some (unexpectedStatus resp.StatusCode))) ∧
  (∀ resp e, Delivered c method url body v resp (some e) → o = .returned zero (some e))

/-- The token `t` is a JSON string of the Go string `s`: the scanner of the decoder
accepts `t` as a string literal, and the literal reads as `s`. -/
def IsJSONString (t : List Nat) (s : GoString) : Prop :=
  validLiteral t = true ∧ unquote t = some s

/-- The reading of the claim on the body of `CreateReaction`, in its own words: the
bytes of the JSON object with the keys `id`, `name`, `feed`, `eventType`, `action` in
this order, `action` being the object with the keys `httpMethod`, `targetUri`, `body`,
`actionType` in this order, and with the eight given tokens as values. -/
def reactionObject (id name feed eventType httpMethod targetUri body actionType : List Nat) :
    List Nat :=
  lit "\x7b\"id\":" ++ id
    ++ lit ",\"name\":" ++ name
    ++ lit ",\"feed\":" ++ feed
    ++ lit ",\"eventType\":" ++ eventType
    ++ lit ",\"action\":\x7b\"httpMethod\":" ++ httpMethod
    ++ lit ",\"targetUri\":" ++ targetUri
    ++ lit ",\"body\":" ++ body
    ++ lit ",\"actionType\":" ++ actionType
    ++ lit "\x7d\x7d"

/-- A transport that answers the one request `want` with `answer` and every other
request with status 400 and no body. -/
def expectRequest (want : Request) (answer : Response) : Request → Except GoError Response :=
  fun req => if req = want then .ok answer else .ok { StatusCode := 400, Header := [], Body := [] }

/-- The value of a string of decimal digits. -/
def digitsValue (ds : List Nat) : Nat := ds.foldl (fun v c => v * 10 + (c - 48)) 0

/-- A non-empty string of decimal digits. -/
def isDigits (ds : List Nat) : Bool := ds ≠ [] ∧ ∀ c ∈ ds, 48 ≤ c ∧ c ≤ 57

/-- The reading of the claim on `FeedSequenceNumber`, in its own words: the integer
a text denotes when the text is a base-10 integer, that is an optional sign followed
by one or more decimal digits; `none` when the text is not a base-10 integer (the
empty text included). The value is not bounded. -/
def decimalInteger (s : GoString) : Option Int :=
  match s with
  | 43 :: ds => if isDigits ds then some (digitsValue ds : Int) else none
  | 45 :: ds => if isDigits ds then some (-(digitsValue ds : Int)) else none
  | ds => if isDigits ds then some (digitsValue ds : Int) else none

/-- The Go string a literal written by the encoder denotes: the bytes of the string
with every byte that starts no valid UTF-8 sequence replaced by the three bytes of
U+FFFD. `fuel` bounds the number of iterations. -/
def coerceLoop : Nat → List Nat → List Nat
  | _, [] => []
  | 0, _ :: _ => []
  | fuel + 1, b :: rest =>
    if b < 0x80 then b :: coerceLoop fuel rest
    else if (DecodeRune (b :: rest)).1 = RuneError ∧ (DecodeRune (b :: rest)).2 = 1 then
      [0xEF, 0xBF, 0xBD] ++ coerceLoop fuel rest
    else (b :: rest).take (DecodeRune (b :: rest)).2
      ++ coerceLoop fuel ((b :: rest).drop (DecodeRune (b :: rest)).2)

/-- A Go string coerced to well-formed UTF-8, byte by byte. -/
def coerceUTF8 (s : GoString) : GoString := coerceLoop s.length s

/-- The keys of a JSON object, in the order in which they are written. -/
def Json.keys : Json → List (List Nat)
  | .obj ms => ms.map (fun m => m.1)
  | _ => []

/-- The value of the first member of a JSON object whose key denotes `key`. -/
def Json.member (j : Json) (key : GoString) : Option Json :=
  match j with
  | .obj ms => (ms.find? (fun m => unquote m.1 = some key)).map (fun m => m.2)
  | _ => none

/-- The Go string denoted by the string value of the member `key` of a JSON object. -/
def Json.stringAt (j : Json) (key : GoString) : Option GoString :=
  match j.member key with
  | some (.str tok) => unquote tok
  | _ => none

/-- Every string field of a reaction is valid UTF-8. -/
def Reaction.ValidUTF8 (r : Reaction) : Prop :=
  ValidString r.ID = true ∧ ValidString r.Name = true ∧ ValidString r.Feed = true ∧
  ValidString r.EventType = true ∧ ValidString r.Action.HTTPMethod = true ∧
  ValidString r.Action.TargetURI = true ∧ ValidString r.Action.Body = true ∧
  ValidString r.Action.ActionType = true

instance (r : Reaction) : Decidable r.ValidUTF8 := by
  unfold Reaction.ValidUTF8; infer_instance

/-- A reaction with every string field coerced to well-formed UTF-8. -/
def Reaction.coerce (r : Reaction) : Reaction :=
  { ID := coerceUTF8 r.ID, Name := coerceUTF8 r.Name, Feed := coerceUTF8 r.Feed,
    EventType := coerceUTF8 r.EventType,
    Action := {
      HTTPMethod := coerceUTF8 r.Action.HTTPMethod,
      TargetURI := coerceUTF8 r.Action.TargetURI,
      Body := coerceUTF8 r.Action.Body,
      ActionType := coerceUTF8 r.Action.ActionType } }

/-- A reaction whose `ID` is the single byte 0xFF, which is not valid UTF-8. -/
def badReaction : Reaction := { Reaction.zero with ID := [0xFF] }

/-- The value `new(Feed)` points to. -/
def Feed.zero (Event : Type) : Feed Event := { Entries := none, HasMore := false }

/-- A client whose `newRequest` always returns `req` and whose `do` always returns
the response `resp` and the error `err`, storing `val` into the target. -/
def constClient {α : Type} (req : Request) (resp : Option Response) (err : Option GoError)
    (val : α) : Client α :=
  { newRequest := fun _ _ _ => .ok req, «do» := fun _ _ => { resp := resp, err := err, val := val } }

/-- The reaction of `TestListReactions` and `TestCreateReaction`. -/
def testReaction : Reaction :=
  { ID := lit "be278b27-8687-42b4-a502-164a6702797c",
    Name := lit "PaymentProcessedEmailReaction",
    Feed := lit "payment",
    EventType := lit "PaymentProcessed",
    Action := {
      HTTPMethod := lit "POST",
      TargetURI := lit "https://your-webhook",
      Body := lit "A new payment was processed",
      ActionType := lit "HTTP" } }

/-- The body the server of `TestListReactions` writes. -/
def listReactionsBody : List Nat :=
  lit "\x7b\n  \"reactions\": [\n    \x7b\n      \"id\": \"be278b27-8687-42b4-a502-164a6702797c\",\n      \"name\": \"PaymentProcessedEmailReaction\",\n      \"feed\": \"payment\",\n      \"eventType\": \"PaymentProcessed\",\n      \"action\": \x7b\n        \"httpMethod\": \"POST\",\n        \"targetUri\": \"https://your-webhook\",\n        \"body\": \"A new payment was processed\",\n        \"actionType\": \"HTTP\"\n      \x7d\n    \x7d\n  ]\n\x7d"

/-- The bytes the server of `TestCreateReaction` wants as the body of the request. -/
def createReactionBody : List Nat :=
  lit "\x7b\"id\":\"be278b27-8687-42b4-a502-164a6702797c\",\"name\":\"PaymentProcessedEmailReaction\",\"feed\":\"payment\",\"eventType\":\"PaymentProcessed\",\"action\":\x7b\"httpMethod\":\"POST\",\"targetUri\":\"https://your-webhook\",\"body\":\"A new payment was processed\",\"actionType\":\"HTTP\"\x7d\x7d"

/-- The body `CreateReaction` sends for `badReaction`. -/
def badReactionBody : List Nat :=
  lit "\x7b\"id\":\"\\ufffd\",\"name\":\"\",\"feed\":\"\",\"eventType\":\"\",\"action\":\x7b\"httpMethod\":\"\",\"targetUri\":\"\",\"body\":\"\",\"actionType\":\"\"\x7d\x7d"

/-- A reaction whose `ID` holds a quote, a backslash, a line feed and `<`. -/
def escapedReaction : Reaction := { Reaction.zero with ID := [97, 34, 98, 92, 99, 10, 60] }

/-- A body that holds `escapedReaction`, with the escapes of its `id` written out. -/
def escapedBody : List Nat :=
  lit "\x7b\"reactions\":[\x7b\"id\":\"a\\\"b\\\\c\\n\\u003c\",\"name\":\"\",\"feed\":\"\",\"eventType\":\"\",\"action\":\x7b\"httpMethod\":\"\",\"targetUri\":\"\",\"body\":\"\",\"actionType\":\"\"\x7d\x7d]\x7d"

/-- A request, for the concrete instances. -/
def someRequest : Request := { Method := lit "GET", URL := lit "/", Body := none }

/-- A response with status 404 and no body. -/
def notFound : Response := { StatusCode := 404, Header := [], Body := [] }

/-- A response with status 204 and no body. -/
def noContent : Response := { StatusCode := 204, Header := [], Body := [] }

/-- The error `io.EOF`, as the decoder reports it on an empty body. -/
def errEOF : GoError := .errorString (lit "EOF")

end Serialized

namespace Serialized

/-! ## Status codes and errors of the operations -/

theorem constClient_delivered {α : Type} (req : Request) (resp : Option Response)
    (err : Option GoError) (val v : α) (m u : GoString) (b : Option Payload) :
    Delivered (constClient req resp err val) m u b v resp err :=
  ⟨req, rfl, rfl, rfl⟩

/-- The status check of the ten operations of `projection.go` and `reaction.go`, which
read the status before they look at the error of `do`. -/
theorem status_first {α β : Type} (c : Client α) (m u : GoString) (b : Option Payload) (v : α)
    (expected : Int) (zero : β) (f : DoResult α → β) (o : Outcome β)
    (ho : o = match c.newRequest m u b with
      | .error err => .returned zero (some err)
      | .ok req =>
        match (c.«do» req v).resp with
        | none => .panicked
        | some resp =>
          if resp.StatusCode ≠ expected then
            .returned zero (some (unexpectedStatus resp.StatusCode))
          else .returned (f (c.«do» req v)) (c.«do» req v).err) :
    ChecksStatus o c m u b v expected zero ∧
    (∀ resp err, Delivered c m u b v (some resp) err → resp.StatusCode ≠ expected →
      o = .returned zero (some (unexpectedStatus resp.StatusCode))) ∧
    (∀ err, Delivered c m u b v none err → o = .panicked) := by
  subst ho
  refine ⟨⟨⟨?_, ?_⟩, ?_⟩, ?_, ?_⟩
  · rintro ⟨w, hw⟩
    cases hreq : c.newRequest m u b with
    | error e => simp [hreq] at hw
    | ok req =>
      simp only [hreq] at hw
      cases hresp : (c.«do» req v).resp with
      | none => simp [hresp] at hw
      | some resp =>
        simp only [hresp] at hw
        by_cases hs : resp.StatusCode = expected
        · simp [hs] at hw
          exact ⟨resp, ⟨req, hreq, hresp, hw.2⟩, hs⟩
        · simp [hs] at hw
  · rintro ⟨resp, ⟨req, hreq, hresp, herr⟩, hs⟩
    exact ⟨f (c.«do» req v), by simp [hreq, hresp, hs, herr]⟩
  · rintro resp err ⟨req, hreq, hresp, -⟩ hs
    simp [hreq, hresp, hs]
  · rintro resp err ⟨req, hreq, hresp, -⟩ hs
    simp [hreq, hresp, hs]
  · rintro err ⟨req, hreq, hresp, -⟩
    simp [hreq, hresp]

end Serialized

namespace Serialized

/-- The checks of the three operations of `feed.go`, which return the error of `do`
before they read the status; `k` is what they do with a response of the expected
status. -/
theorem error_first {α β : Type} (c : Client α) (m u : GoString) (b : Option Payload) (v : α)
    (expected : Int) (zero : β) (k : Response → DoResult α → Outcome β) (o : Outcome β)
    (ho : o = match c.newRequest m u b with
      | .error err => .returned zero (some err)
      | .ok req =>
        match (c.«do» req v).err with
        | some err => .returned zero (some err)
        | none =>
          match (c.«do» req v).resp with
          | none => .panicked
          | some resp =>
            if resp.StatusCode ≠ expected then
              .returned zero (some (unexpectedStatus resp.StatusCode))
            else k resp (c.«do» req v)) :
    (∀ resp, Delivered c m u b v (some resp) none → resp.StatusCode ≠ expected →
      o = .returned zero (some (unexpectedStatus resp.StatusCode))) ∧
    (∀ resp e, Delivered c m u b v resp (some e) → o = .returned zero (some e)) ∧
    (∀ resp, Delivered c m u b v (some resp) none → resp.StatusCode = expected →
      ∃ req, c.newRequest m u b = .ok req ∧ o = k resp (c.«do» req v)) ∧
    (∀ w, o = .returned w none →
      ∃ req resp, Delivered c m u b v (some resp) none ∧ resp.StatusCode = expected ∧
        c.newRequest m u b = .ok req ∧ k resp (c.«do» req v) = .returned w none) ∧
    (∀ w e, o = .returned w (some e) → w = zero ∨
      ∃ req resp, c.newRequest m u b = .ok req ∧ k resp (c.«do» req v) = .returned w (some e)) := by
  subst ho
  refine ⟨?_, ?_, ?_, ?_, ?_⟩
  · rintro resp ⟨req, hreq, hresp, herr⟩ hs
    simp [hreq, hresp, herr, hs]
  · rintro resp e ⟨req, hreq, -, herr⟩
    simp [hreq, herr]
  · rintro resp ⟨req, hreq, hresp, herr⟩ hs
    exact ⟨req, hreq, by simp [hreq, hresp, herr, hs]⟩
  · intro w hw
    cases hreq : c.newRequest m u b with
    | error e => simp [hreq] at hw
    | ok req =>
      simp only [hreq] at hw
      cases herr : (c.«do» req v).err with
      | some e => simp [herr] at hw
      | none =>
        simp only [herr] at hw
        cases hresp : (c.«do» req v).resp with
        | none => simp [hresp] at hw
        | some resp =>
          simp only [hresp] at hw
          by_cases hs : resp.StatusCode = expected
          · simp only [hs, ne_eq, not_true_eq_false, if_false] at hw
            exact ⟨req, resp, ⟨req, hreq, hresp, herr⟩, hs, rfl, hw⟩
          · simp [hs] at hw
  · intro w e hw
    cases hreq : c.newRequest m u b with
    | error e => simp [hreq] at hw; exact Or.inl hw.1.symm
    | ok req =>
      simp only [hreq] at hw
      cases herr : (c.«do» req v).err with
      | some e => simp [herr] at hw; exact Or.inl hw.1.symm
      | none =>
        simp only [herr] at hw
        cases hresp : (c.«do» req v).resp with
        | none => simp [hresp] at hw
        | some resp =>
          simp only [hresp] at hw
          by_cases hs : resp.StatusCode = expected
          · simp only [hs, ne_eq, not_true_eq_false, if_false] at hw
            exact Or.inr ⟨req, resp, rfl, hw⟩
          · simp [hs] at hw; exact Or.inl hw.1.symm

/-- C1 (as amended): for a response whose status code is not in 200..299, each of the
ten operations of `projection.go` and `reaction.go` returns the zero value and the
error `unexpected status code: N`, whatever error `do` reports along with the
response. `Feeds`, `Feed` and `FeedSequenceNumber` do so when `do` reports no error
along with the response, as the modelled `do` does for the nil target of
`FeedSequenceNumber`; when `do` reports an error along with the response, they return
that error instead. -/
theorem C1_non2xx_status_error (resp : Response)
    (h : ¬ (200 ≤ resp.StatusCode ∧ resp.StatusCode ≤ 299)) :
    (∀ c : Client FeedsResponse,
      (Delivered c (lit "GET") (lit "/feeds/") none { Feeds := none } (some resp) none →
        c.Feeds = .returned none (some (unexpectedStatus resp.StatusCode))) ∧
      (∀ e, Delivered c (lit "GET") (lit "/feeds/") none { Feeds := none } (some resp) (some e) →
        c.Feeds = .returned none (some e))) ∧
    (∀ (Event : Type) (c : Client (Option (Feed Event))) (name : GoString) (since : Int),
      (Delivered c (lit "GET") (FeedURL name since).String none (some (Feed.zero Event))
          (some resp) none →
        c.Feed name since = .returned none (some (unexpectedStatus resp.StatusCode))) ∧
      (∀ e, Delivered c (lit "GET") (FeedURL name since).String none (some (Feed.zero Event))
          (some resp) (some e) →
        c.Feed name since = .returned none (some e))) ∧
    (∀ (c : Client Unit) (feedName : GoString),
      (Delivered c (lit "HEAD") (lit "/feeds/" ++ feedName) none () (some resp) none →
        c.FeedSequenceNumber feedName
          = .returned 0 (some (unexpectedStatus resp.StatusCode))) ∧
      (∀ e, Delivered c (lit "HEAD") (lit "/feeds/" ++ feedName) none () (some resp) (some e) →
        c.FeedSequenceNumber feedName = .returned 0 (some e))) ∧
    (∀ (resolve : GoString → Except GoError GoString)
        (transport : Request → Except GoError Response) (feedName u : GoString),
      resolve (lit "/feeds/" ++ feedName) = .ok u →
      transport { Method := lit "HEAD", URL := u, Body := none } = .ok resp →
      (specClient resolve transport none).FeedSequenceNumber feedName
        = .returned 0 (some (unexpectedStatus resp.StatusCode))) ∧
    (∀ (c : Client DefinitionsResponse) (err : Option GoError),
      Delivered c (lit "GET") (lit "/projections/definitions") none { Definitions := none }
        (some resp) err →
      c.ListProjectionDefinitions
        = .returned none (some (unexpectedStatus resp.StatusCode))) ∧
    (∀ (c : Client Unit) (err : Option GoError) (d : Option ProjectionDefinition),
      Delivered c (lit "POST") (lit "/projections/definitions")
        (some (.projectionDefinition d)) () (some resp) err →
      c.CreateProjectionDefinition d
        = .returned () (some (unexpectedStatus resp.StatusCode))) ∧
    (∀ (c : Client ProjectionDefinition) (err : Option GoError) (name : GoString),
      Delivered c (lit "GET") (lit "/projections/definitions/" ++ name) none
        { Name := [], Feed := [], Handlers := none } (some resp) err →
      c.ProjectionDefinition name
        = .returned none (some (unexpectedStatus resp.StatusCode))) ∧
    (∀ (c : Client Unit) (err : Option GoError) (name : GoString),
      Delivered c (lit "DELETE") (lit "/projections/definitions/" ++ name) none ()
        (some resp) err →
      c.DeleteProjectionDefinition name
        = .returned () (some (unexpectedStatus resp.StatusCode))) ∧
    (∀ (c : Client Projection) (err : Option GoError) (projName aggID : GoString),
      Delivered c (lit "GET") (lit "/projections/single/" ++ projName ++ lit "/" ++ aggID) none
        { ID := [], Data := none } (some resp) err →
      c.SingleProjection projName aggID
        = .returned none (some (unexpectedStatus resp.StatusCode))) ∧
    (∀ (c : Client ProjectionsResponse) (err : Option GoError) (name : GoString),
      Delivered c (lit "GET") (lit "/projections/single/" ++ name) none { Projections := none }
        (some resp) err →
      c.ListSingleProjections name
        = .returned none (some (unexpectedStatus resp.StatusCode))) ∧
    (∀ (c : Client Projection) (err : Option GoError) (name : GoString),
      Delivered c (lit "GET") (lit "/projections/aggregated/" ++ name) none
        { ID := [], Data := none } (some resp) err →
      c.AggregatedProjection name
        = .returned none (some (unexpectedStatus resp.StatusCode))) ∧
    (∀ (c : Client ProjectionsResponse) (err : Option GoError),
      Delivered c (lit "GET") (lit "/projections/aggregated") none { Projections := none }
        (some resp) err →
      c.ListAggregatedProjections
        = .returned none (some (unexpectedStatus resp.StatusCode))) ∧
    (∀ (c : Client Unit) (err : Option GoError) (r : Reaction),
      Delivered c (lit "POST") (lit "/reactions") (some (.reaction r)) () (some resp) err →
      c.CreateReaction r = .returned () (some (unexpectedStatus resp.StatusCode))) ∧
    (∀ (c : Client ReactionsResponse) (err : Option GoError),
      Delivered c (lit "GET") (lit "/reactions") none { Reactions := none } (some resp) err →
      c.ListReactions = .returned none (some (unexpectedStatus resp.StatusCode))) := by
  have hok : resp.StatusCode ≠ StatusOK := by
    intro h200; apply h; rw [h200]; decide
  have hcreated : resp.StatusCode ≠ StatusCreated := by
    intro h201; apply h; rw [h201]; decide
  refine ⟨?_, ?_, ?_, ?_, ?_, ?_, ?_, ?_, ?_, ?_, ?_, ?_, ?_, ?_⟩
  · intro c
    have := error_first c (lit "GET") (lit "/feeds/") none { Feeds := none } StatusOK none
      (fun _ d => .returned d.val.Feeds none) c.Feeds rfl
    exact ⟨fun hd => this.1 resp hd hok, fun e hd => this.2.1 (some resp) e hd⟩
  · intro Event c name since
    have := error_first c (lit "GET") (FeedURL name since).String none (some (Feed.zero Event))
      StatusOK none (fun _ d => .returned d.val none) (c.Feed name since) rfl
    exact ⟨fun hd => this.1 resp hd hok, fun e hd => this.2.1 (some resp) e hd⟩
  · intro c feedName
    have := error_first c (lit "HEAD") (lit "/feeds/" ++ feedName) none () StatusOK 0
      (fun resp _ =>
        match ParseInt (resp.Header.Get (lit "Current-Sequence-Number")) 10 64 with
        | (_, some err) => .returned 0 (some err)
        | (seq, none) => .returned seq none)
      (c.FeedSequenceNumber feedName) rfl
    exact ⟨fun hd => this.1 resp hd hok, fun e hd => this.2.1 (some resp) e hd⟩
  · intro resolve transport feedName u hres htr
    have := error_first (specClient resolve transport none) (lit "HEAD")
      (lit "/feeds/" ++ feedName) none () StatusOK 0
      (fun resp _ =>
        match ParseInt (resp.Header.Get (lit "Current-Sequence-Number")) 10 64 with
        | (_, some err) => .returned 0 (some err)
        | (seq, none) => .returned seq none)
      ((specClient resolve transport none).FeedSequenceNumber feedName) rfl
    refine this.1 resp ⟨{ Method := lit "HEAD", URL := u, Body := none }, ?_, ?_, ?_⟩ hok
    · simp only [specClient, newRequest, hres, Option.map]
    · simp only [specClient, doRequest, htr]
    · simp only [specClient, doRequest, htr]
  · intro c err hd
    exact (status_first c _ _ _ _ StatusOK none (fun d => d.val.Definitions)
      c.ListProjectionDefinitions rfl).2.1 resp err hd hok
  · intro c err d hd
    exact (status_first c _ _ _ _ StatusOK () (fun _ => ())
      (c.CreateProjectionDefinition d) rfl).2.1 resp err hd hok
  · intro c err name hd
    exact (status_first c _ _ _ _ StatusOK none (fun d => some d.val)
      (c.ProjectionDefinition name) rfl).2.1 resp err hd hok
  · intro c err name hd
    exact (status_first c _ _ _ _ StatusOK () (fun _ => ())
      (c.DeleteProjectionDefinition name) rfl).2.1 resp err hd hok
  · intro c err projName aggID hd
    exact (status_first c _ _ _ _ StatusOK none (fun d => some d.val)
      (c.SingleProjection projName aggID) rfl).2.1 resp err hd hok
  · intro c err name hd
    exact (status_first c _ _ _ _ StatusOK none (fun d => d.val.Projections)
      (c.ListSingleProjections name) rfl).2.1 resp err hd hok
  · intro c err name hd
    exact (status_first c _ _ _ _ StatusOK none (fun d => some d.val)
      (c.AggregatedProjection name) rfl).2.1 resp err hd hok
  · intro c err hd
    exact (status_first c _ _ _ _ StatusOK none (fun d => d.val.Projections)
      c.ListAggregatedProjections rfl).2.1 resp err hd hok
  · intro c err r hd
    exact (status_first c _ _ _ _ StatusCreated () (fun _ => ())
      (c.CreateReaction r) rfl).2.1 resp err hd hcreated
  · intro c err hd
    exact (status_first c _ _ _ _ StatusOK none (fun d => d.val.Reactions)
      c.ListReactions rfl).2.1 resp err hd hok

/-- C1, at a concrete input: a response with status 404 and an empty body.
`ListReactions` returns the formatted error although the decoder of `do` reports an
error on the body, and so does `FeedSequenceNumber`, whose target is nil. -/
theorem C1_non2xx_status_error_witness :
    ¬ (200 ≤ notFound.StatusCode ∧ notFound.StatusCode ≤ 299) ∧
    Client.ListReactions
        (specClient Except.ok (fun _ => .ok notFound) (some ReactionsResponse.unmarshal))
      = .returned none (some (unexpectedStatus 404)) ∧
    Client.FeedSequenceNumber (specClient Except.ok (fun _ => .ok notFound) none) (lit "orders")
      = .returned 0 (some (unexpectedStatus 404)) :=
  ⟨by decide,
    (C1_non2xx_status_error notFound (by decide)).2.2.2.2.2.2.2.2.2.2.2.2.2 _
      (some .syntaxError) ⟨{ Method := lit "GET", URL := lit "/reactions", Body := none },
        rfl, rfl, rfl⟩,
    (C1_non2xx_status_error notFound (by decide)).2.2.2.1 Except.ok (fun _ => .ok notFound)
      (lit "orders") _ rfl rfl⟩

/-- C1, counterexample: `do` delivers a response with status 404 together with an
error; `Feeds` and `Feed` return that error, whose message is not
`unexpected status code: 404`. With the modelled helpers this is what a 404 with an
empty body does: the decoder reports an error on the body. -/
theorem C1_counterexample :
    ¬ (200 ≤ notFound.StatusCode ∧ notFound.StatusCode ≤ 299) ∧
    Client.Feeds (constClient someRequest (some notFound) (some errEOF) { Feeds := none })
      = .returned none (some errEOF) ∧
    errEOF ≠ unexpectedStatus notFound.StatusCode ∧
    Client.Feeds (specClient Except.ok (fun _ => .ok notFound) (some FeedsResponse.unmarshal))
      = .returned none (some .syntaxError) ∧
    GoError.syntaxError ≠ unexpectedStatus notFound.StatusCode := by
  decide

end Serialized

namespace Serialized

/-- C2 (the code at the failing input): when `do` fails with a transport error `e` and
returns a nil response, the three operations of `feed.go` return `e` with the zero
value, while the ten operations of `projection.go` and `reaction.go` read the status
code of the nil response and panic. -/
theorem C2_transport_error (e : GoError) :
    (∀ c : Client FeedsResponse,
      Delivered c (lit "GET") (lit "/feeds/") none { Feeds := none } none (some e) →
      c.Feeds = .returned none (some e)) ∧
    (∀ (Event : Type) (c : Client (Option (Feed Event))) (name : GoString) (since : Int),
      Delivered c (lit "GET") (FeedURL name since).String none (some (Feed.zero Event))
        none (some e) →
      c.Feed name since = .returned none (some e)) ∧
    (∀ (c : Client Unit) (feedName : GoString),
      Delivered c (lit "HEAD") (lit "/feeds/" ++ feedName) none () none (some e) →
      c.FeedSequenceNumber feedName = .returned 0 (some e)) ∧
    (∀ c : Client DefinitionsResponse,
      Delivered c (lit "GET") (lit "/projections/definitions") none { Definitions := none }
        none (some e) →
      c.ListProjectionDefinitions = .panicked) ∧
    (∀ (c : Client Unit) (d : Option ProjectionDefinition),
      Delivered c (lit "POST") (lit "/projections/definitions")
        (some (.projectionDefinition d)) () none (some e) →
      c.CreateProjectionDefinition d = .panicked) ∧
    (∀ (c : Client ProjectionDefinition) (name : GoString),
      Delivered c (lit "GET") (lit "/projections/definitions/" ++ name) none
        { Name := [], Feed := [], Handlers := none } none (some e) →
      c.ProjectionDefinition name = .panicked) ∧
    (∀ (c : Client Unit) (name : GoString),
      Delivered c (lit "DELETE") (lit "/projections/definitions/" ++ name) none ()
        none (some e) →
      c.DeleteProjectionDefinition name = .panicked) ∧
    (∀ (c : Client Projection) (projName aggID : GoString),
      Delivered c (lit "GET") (lit "/projections/single/" ++ projName ++ lit "/" ++ aggID) none
        { ID := [], Data := none } none (some e) →
      c.SingleProjection projName aggID = .panicked) ∧
    (∀ (c : Client ProjectionsResponse) (name : GoString),
      Delivered c (lit "GET") (lit "/projections/single/" ++ name) none { Projections := none }
        none (some e) →
      c.ListSingleProjections name = .panicked) ∧
    (∀ (c : Client Projection) (name : GoString),
      Delivered c (lit "GET") (lit "/projections/aggregated/" ++ name) none
        { ID := [], Data := none } none (some e) →
      c.AggregatedProjection name = .panicked) ∧
    (∀ c : Client ProjectionsResponse,
      Delivered c (lit "GET") (lit "/projections/aggregated") none { Projections := none }
        none (some e) →
      c.ListAggregatedProjections = .panicked) ∧
    (∀ (c : Client Unit) (r : Reaction),
      Delivered c (lit "POST") (lit "/reactions") (some (.reaction r)) () none (some e) →
      c.CreateReaction r = .panicked) ∧
    (∀ c : Client ReactionsResponse,
      Delivered c (lit "GET") (lit "/reactions") none { Reactions := none } none (some e) →
      c.ListReactions = .panicked) := by
  refine ⟨?_, ?_, ?_, ?_, ?_, ?_, ?_, ?_, ?_, ?_, ?_, ?_, ?_⟩
  · intro c hd
    exact (error_first c (lit "GET") (lit "/feeds/") none { Feeds := none } StatusOK none
      (fun _ d => .returned d.val.Feeds none) c.Feeds rfl).2.1 none e hd
  · intro Event c name since hd
    exact (error_first c (lit "GET") (FeedURL name since).String none (some (Feed.zero Event))
      StatusOK none (fun _ d => .returned d.val none) (c.Feed name since) rfl).2.1 none e hd
  · intro c feedName hd
    exact (error_first c (lit "HEAD") (lit "/feeds/" ++ feedName) none () StatusOK 0
      (fun resp _ =>
        match ParseInt (resp.Header.Get (lit "Current-Sequence-Number")) 10 64 with
        | (_, some err) => .returned 0 (some err)
        | (seq, none) => .returned seq none)
      (c.FeedSequenceNumber feedName) rfl).2.1 none e hd
  · intro c hd
    exact (status_first c _ _ _ _ StatusOK none (fun d => d.val.Definitions)
      c.ListProjectionDefinitions rfl).2.2 (some e) hd
  · intro c d hd
    exact (status_first c _ _ _ _ StatusOK () (fun _ => ())
      (c.CreateProjectionDefinition d) rfl).2.2 (some e) hd
  · intro c name hd
    exact (status_first c _ _ _ _ StatusOK none (fun d => some d.val)
      (c.ProjectionDefinition name) rfl).2.2 (some e) hd
  · intro c name hd
    exact (status_first c _ _ _ _ StatusOK () (fun _ => ())
      (c.DeleteProjectionDefinition name) rfl).2.2 (some e) hd
  · intro c projName aggID hd
    exact (status_first c _ _ _ _ StatusOK none (fun d => some d.val)
      (c.SingleProjection projName aggID) rfl).2.2 (some e) hd
  · intro c name hd
    exact (status_first c _ _ _ _ StatusOK none (fun d => d.val.Projections)
      (c.ListSingleProjections name) rfl).2.2 (some e) hd
  · intro c name hd
    exact (status_first c _ _ _ _ StatusOK none (fun d => some d.val)
      (c.AggregatedProjection name) rfl).2.2 (some e) hd
  · intro c hd
    exact (status_first c _ _ _ _ StatusOK none (fun d => d.val.Projections)
      c.ListAggregatedProjections rfl).2.2 (some e) hd
  · intro c r hd
    exact (status_first c _ _ _ _ StatusCreated () (fun _ => ())
      (c.CreateReaction r) rfl).2.2 (some e) hd
  · intro c hd
    exact (status_first c _ _ _ _ StatusOK none (fun d => d.val.Reactions)
      c.ListReactions rfl).2.2 (some e) hd

/-- C2, at a concrete input: the transport fails with an error and `do` returns a nil
response; `ListReactions` panics instead of returning the error. -/
theorem C2_transport_error_witness :
    Client.ListReactions (constClient someRequest none (some errEOF) { Reactions := none })
      = .panicked :=
  (C2_transport_error errEOF).2.2.2.2.2.2.2.2.2.2.2.2 _ (constClient_delivered _ _ _ _ _ _ _ _)

/-- The checks of an operation of `feed.go` whose last step returns a nil error. -/
theorem checksStatus_of_error_first {α β : Type} (c : Client α) (m u : GoString)
    (b : Option Payload) (v : α) (expected : Int) (zero : β) (f : DoResult α → β)
    (o : Outcome β)
    (ho : o = match c.newRequest m u b with
      | .error err => .returned zero (some err)
      | .ok req =>
        match (c.«do» req v).err with
        | some err => .returned zero (some err)
        | none =>
          match (c.«do» req v).resp with
          | none => .panicked
          | some resp =>
            if resp.StatusCode ≠ expected then
              .returned zero (some (unexpectedStatus resp.StatusCode))
            else .returned (f (c.«do» req v)) none) :
    ChecksErrorThenStatus o c m u b v expected zero := by
  have h := error_first c m u b v expected zero (fun _ d => .returned (f d) none) o ho
  refine ⟨⟨?_, ?_⟩, h.1, h.2.1⟩
  · rintro ⟨w, hw⟩
    obtain ⟨_, resp, hd, hs, -, -⟩ := h.2.2.2.1 w hw
    exact ⟨resp, hd, hs⟩
  · rintro ⟨resp, hd, hs⟩
    obtain ⟨req, -, hk⟩ := h.2.2.1 resp hd hs
    exact ⟨_, hk⟩

/-- C8 (as amended): every operation compares the status code to one constant.
`CreateReaction` returns a nil error exactly when `do` delivered a response with
status 201 and no error; each other operation exactly when `do` delivered a response
with status 200 and no error and, for `FeedSequenceNumber`, the header parses. A
response with any other status gives the error `unexpected status code: N`: from the
ten operations of `projection.go` and `reaction.go` whatever error `do` reports along
with it, from `Feeds`, `Feed` and `FeedSequenceNumber` when `do` reports no error
along with it (as the modelled `do` does for the nil target of
`FeedSequenceNumber`); an error of `do` is what these three return first. -/
theorem C8_status_compared_to_one_constant :
    (∀ c : Client FeedsResponse,
      ChecksErrorThenStatus c.Feeds c (lit "GET") (lit "/feeds/") none { Feeds := none }
        200 none) ∧
    (∀ (Event : Type) (c : Client (Option (Feed Event))) (name : GoString) (since : Int),
      ChecksErrorThenStatus (c.Feed name since) c (lit "GET") (FeedURL name since).String
        none (some (Feed.zero Event)) 200 none) ∧
    (∀ (c : Client Unit) (feedName : GoString),
      ((c.FeedSequenceNumber feedName).nilError ↔
        ∃ resp, Delivered c (lit "HEAD") (lit "/feeds/" ++ feedName) none () (some resp) none ∧
          resp.StatusCode = 200 ∧
          (ParseInt (resp.Header.Get (lit "Current-Sequence-Number")) 10 64).2 = none) ∧
      (∀ resp, Delivered c (lit "HEAD") (lit "/feeds/" ++ feedName) none () (some resp) none →
        resp.StatusCode ≠ 200 →
        c.FeedSequenceNumber feedName
          = .returned 0 (some (unexpectedStatus resp.StatusCode))) ∧
      (∀ resp e, Delivered c (lit "HEAD") (lit "/feeds/" ++ feedName) none () resp (some e) →
        c.FeedSequenceNumber feedName = .returned 0 (some e))) ∧
    (∀ (resolve : GoString → Except GoError GoString)
        (transport : Request → Except GoError Response) (feedName u : GoString)
        (resp : Response),
      resolve (lit "/feeds/" ++ feedName) = .ok u →
      transport { Method := lit "HEAD", URL := u, Body := none } = .ok resp →
      resp.StatusCode ≠ 200 →
      (specClient resolve transport none).FeedSequenceNumber feedName
        = .returned 0 (some (unexpectedStatus resp.StatusCode))) ∧
    (∀ c : Client DefinitionsResponse,
      ChecksStatus c.ListProjectionDefinitions c (lit "GET") (lit "/projections/definitions")
        none { Definitions := none } 200 none) ∧
    (∀ (c : Client Unit) (d : Option ProjectionDefinition),
      ChecksStatus (c.CreateProjectionDefinition d) c (lit "POST")
        (lit "/projections/definitions") (some (.projectionDefinition d)) () 200 ()) ∧
    (∀ (c : Client ProjectionDefinition) (name : GoString),
      ChecksStatus (c.ProjectionDefinition name) c (lit "GET")
        (lit "/projections/definitions/" ++ name) none
        { Name := [], Feed := [], Handlers := none } 200 none) ∧
    (∀ (c : Client Unit) (name : GoString),
      ChecksStatus (c.DeleteProjectionDefinition name) c (lit "DELETE")
        (lit "/projections/definitions/" ++ name) none () 200 ()) ∧
    (∀ (c : Client Projection) (projName aggID : GoString),
      ChecksStatus (c.SingleProjection projName aggID) c (lit "GET")
        (lit "/projections/single/" ++ projName ++ lit "/" ++ aggID) none
        { ID := [], Data := none } 200 none) ∧
    (∀ (c : Client ProjectionsResponse) (name : GoString),
      ChecksStatus (c.ListSingleProjections name) c (lit "GET")
        (lit "/projections/single/" ++ name) none { Projections := none } 200 none) ∧
    (∀ (c : Client Projection) (name : GoString),
      ChecksStatus (c.AggregatedProjection name) c (lit "GET")
        (lit "/projections/aggregated/" ++ name) none { ID := [], Data := none } 200 none) ∧
    (∀ c : Client ProjectionsResponse,
      ChecksStatus c.ListAggregatedProjections c (lit "GET") (lit "/projections/aggregated")
        none { Projections := none } 200 none) ∧
    (∀ (c : Client Unit) (r : Reaction),
      ChecksStatus (c.CreateReaction r) c (lit "POST") (lit "/reactions")
        (some (.reaction r)) () 201 ()) ∧
    (∀ c : Client ReactionsResponse,
      ChecksStatus c.ListReactions c (lit "GET") (lit "/reactions") none
        { Reactions := none } 200 none) := by
  refine ⟨?_, ?_, ?_, ?_, ?_, ?_, ?_, ?_, ?_, ?_, ?_, ?_, ?_, ?_⟩
  · intro c
    exact checksStatus_of_error_first c _ _ _ _ StatusOK none (fun d => d.val.Feeds) c.Feeds rfl
  · intro Event c name since
    exact checksStatus_of_error_first c _ _ _ _ StatusOK none (fun d => d.val)
      (c.Feed name since) rfl
  · intro c feedName
    have h := error_first c (lit "HEAD") (lit "/feeds/" ++ feedName) none () StatusOK 0
      (fun resp _ =>
        match ParseInt (resp.Header.Get (lit "Current-Sequence-Number")) 10 64 with
        | (_, some err) => .returned 0 (some err)
        | (seq, none) => .returned seq none)
      (c.FeedSequenceNumber feedName) rfl
    refine ⟨⟨?_, ?_⟩, h.1, h.2.1⟩
    · rintro ⟨w, hw⟩
      obtain ⟨_, resp, hd, hs, -, hk⟩ := h.2.2.2.1 w hw
      refine ⟨resp, hd, hs, ?_⟩
      simp only at hk
      generalize ParseInt (resp.Header.Get (lit "Current-Sequence-Number")) 10 64 = p at hk ⊢
      rcases p with ⟨n, _ | e⟩ <;> simp at hk ⊢
    · rintro ⟨resp, hd, hs, hp⟩
      obtain ⟨req, -, hk⟩ := h.2.2.1 resp hd hs
      rw [hk]
      simp only
      generalize ParseInt (resp.Header.Get (lit "Current-Sequence-Number")) 10 64 = p at hp ⊢
      rcases p with ⟨n, _ | e⟩ <;> simp [Outcome.nilError] at hp ⊢
  · intro resolve transport feedName u resp hres htr hs
    have := error_first (specClient resolve transport none) (lit "HEAD")
      (lit "/feeds/" ++ feedName) none () StatusOK 0
      (fun resp _ =>
        match ParseInt (resp.Header.Get (lit "Current-Sequence-Number")) 10 64 with
        | (_, some err) => .returned 0 (some err)
        | (seq, none) => .returned seq none)
      ((specClient resolve transport none).FeedSequenceNumber feedName) rfl
    refine this.1 resp ⟨{ Method := lit "HEAD", URL := u, Body := none }, ?_, ?_, ?_⟩ hs
    · simp only [specClient, newRequest, hres, Option.map]
    · simp only [specClient, doRequest, htr]
    · simp only [specClient, doRequest, htr]
  · intro c
    exact (status_first c _ _ _ _ StatusOK none (fun d => d.val.Definitions)
      c.ListProjectionDefinitions rfl).1
  · intro c d
    exact (status_first c _ _ _ _ StatusOK () (fun _ => ())
      (c.CreateProjectionDefinition d) rfl).1
  · intro c name
    exact (status_first c _ _ _ _ StatusOK none (fun d => some d.val)
      (c.ProjectionDefinition name) rfl).1
  · intro c name
    exact (status_first c _ _ _ _ StatusOK () (fun _ => ())
      (c.DeleteProjectionDefinition name) rfl).1
  · intro c projName aggID
    exact (status_first c _ _ _ _ StatusOK none (fun d => some d.val)
      (c.SingleProjection projName aggID) rfl).1
  · intro c name
    exact (status_first c _ _ _ _ StatusOK none (fun d => d.val.Projections)
      (c.ListSingleProjections name) rfl).1
  · intro c name
    exact (status_first c _ _ _ _ StatusOK none (fun d => some d.val)
      (c.AggregatedProjection name) rfl).1
  · intro c
    exact (status_first c _ _ _ _ StatusOK none (fun d => d.val.Projections)
      c.ListAggregatedProjections rfl).1
  · intro c r
    exact (status_first c _ _ _ _ StatusCreated () (fun _ => ())
      (c.CreateReaction r) rfl).1
  · intro c
    exact (status_first c _ _ _ _ StatusOK none (fun d => d.val.Reactions)
      c.ListReactions rfl).1

end Serialized

namespace Serialized

/-- C8, at concrete inputs: a response with status 200 makes `CreateReaction` return
the error `unexpected status code: 200`, one with status 201 a nil error; a response
with status 204 and no body makes `ListReactions` return
`unexpected status code: 204`. -/
theorem C8_status_compared_to_one_constant_witness :
    Client.CreateReaction (constClient someRequest (some ⟨200, [], []⟩) none ())
        testReaction
      = .returned () (some (unexpectedStatus 200)) ∧
    (Client.CreateReaction (constClient someRequest (some ⟨201, [], []⟩) none ())
        testReaction).nilError ∧
    Client.ListReactions
        (specClient Except.ok (fun _ => .ok noContent) (some ReactionsResponse.unmarshal))
      = .returned none (some (unexpectedStatus 204)) :=
  ⟨(C8_status_compared_to_one_constant.2.2.2.2.2.2.2.2.2.2.2.2.1 _ testReaction).2 ⟨200, [], []⟩
      none (constClient_delivered _ _ _ _ _ _ _ _) (by decide),
    (C8_status_compared_to_one_constant.2.2.2.2.2.2.2.2.2.2.2.2.1 _ testReaction).1.2
      ⟨⟨201, [], []⟩, constClient_delivered _ _ _ _ _ _ _ _, rfl⟩,
    (C8_status_compared_to_one_constant.2.2.2.2.2.2.2.2.2.2.2.2.2 _).2 noContent
      (some .syntaxError) ⟨{ Method := lit "GET", URL := lit "/reactions", Body := none },
        rfl, rfl, rfl⟩ (by decide)⟩

/-- C8, counterexample: the server answers 204 with no body. The decoder of `do`
reports an error on the empty body, and `Feeds` and `Feed` return that error, not
`unexpected status code: 204`; they do so for every error `do` reports along with
the response. -/
theorem C8_counterexample :
    Client.Feeds (specClient Except.ok (fun _ => .ok noContent) (some FeedsResponse.unmarshal))
      = .returned none (some .syntaxError) ∧
    Client.Feed (specClient Except.ok (fun _ => .ok noContent)
        (some (decodePtr (fun _ (f : Feed Unit) => (f, none)) (Feed.zero Unit))))
        (lit "orders") 0
      = .returned none (some .syntaxError) ∧
    GoError.syntaxError ≠ unexpectedStatus noContent.StatusCode ∧
    Client.Feeds (constClient someRequest (some noContent) (some errEOF) { Feeds := none })
      = .returned none (some errEOF) ∧
    errEOF ≠ unexpectedStatus noContent.StatusCode :=
  ⟨by decide, rfl, by decide, by decide, by decide⟩

/-- The three operations of `feed.go` never return a result together with an error: a
non-nil error comes with nil (`Feeds`, `Feed`) or with 0 (`FeedSequenceNumber`). When
the error of `Feed` is nil, the pointer it returns is the one `do` left in `f`. -/
theorem feed_results (Event : Type) :
    (∀ (c : Client FeedsResponse) (w : Slice GoString) (e : GoError),
      c.Feeds = .returned w (some e) → w = none) ∧
    (∀ (c : Client (Option (Feed Event))) (name : GoString) (since : Int)
        (w : Option (Feed Event)) (e : GoError),
      c.Feed name since = .returned w (some e) → w = none) ∧
    (∀ (c : Client Unit) (feedName : GoString) (w : Int) (e : GoError),
      c.FeedSequenceNumber feedName = .returned w (some e) → w = 0) ∧
    (∀ (c : Client (Option (Feed Event))) (name : GoString) (since : Int)
        (w : Option (Feed Event)),
      c.Feed name since = .returned w none →
      ∃ req, c.newRequest (lit "GET") (FeedURL name since).String none = .ok req ∧
        w = (c.«do» req (some (Feed.zero Event))).val) := by
  refine ⟨?_, ?_, ?_, ?_⟩
  · intro c w e hw
    rcases (error_first c (lit "GET") (lit "/feeds/") none { Feeds := none } StatusOK none
      (fun _ d => .returned d.val.Feeds none) c.Feeds rfl).2.2.2.2 w e hw with h | ⟨_, _, -, hk⟩
    · exact h
    · simp at hk
  · intro c name since w e hw
    rcases (error_first c (lit "GET") (FeedURL name since).String none (some (Feed.zero Event))
      StatusOK none (fun _ d => .returned d.val none) (c.Feed name since) rfl).2.2.2.2 w e hw
      with h | ⟨_, _, -, hk⟩
    · exact h
    · simp at hk
  · intro c feedName w e hw
    rcases (error_first c (lit "HEAD") (lit "/feeds/" ++ feedName) none () StatusOK 0
      (fun resp _ =>
        match ParseInt (resp.Header.Get (lit "Current-Sequence-Number")) 10 64 with
        | (_, some err) => .returned 0 (some err)
        | (seq, none) => .returned seq none)
      (c.FeedSequenceNumber feedName) rfl).2.2.2.2 w e hw with h | ⟨_, resp, -, hk⟩
    · exact h
    · generalize ParseInt (resp.Header.Get (lit "Current-Sequence-Number")) 10 64 = p at hk
      rcases p with ⟨n, _ | e⟩ <;> simp at hk
      exact hk.1.symm
  · intro c name since w hw
    obtain ⟨req, _, -, -, hreq, hk⟩ :=
      (error_first c (lit "GET") (FeedURL name since).String none (some (Feed.zero Event))
        StatusOK none (fun _ d => .returned d.val none) (c.Feed name since) rfl).2.2.2.1 w hw
    refine ⟨req, hreq, ?_⟩
    simp at hk
    exact hk.symm

/-- C9 (the code at the failing input): a non-nil error of `Feeds`, `Feed` and
`FeedSequenceNumber` always comes with the nil or zero value, but a nil error of
`Feed` does not come with a non-nil pointer. `Feed` hands `do` the address `&f` of
its pointer, so `do` can set the pointer itself: when the server answers 200 with
the body `null`, the decoder stores nil into `f` and `Feed` returns a nil pointer
with a nil error, whatever decoder is used for the pointee. -/
theorem C9_feed_nil_pointer :
    (∀ (c : Client FeedsResponse) (w : Slice GoString) (e : GoError),
      c.Feeds = .returned w (some e) → w = none) ∧
    (∀ (Event : Type) (c : Client (Option (Feed Event))) (name : GoString) (since : Int)
        (w : Option (Feed Event)) (e : GoError),
      c.Feed name since = .returned w (some e) → w = none) ∧
    (∀ (c : Client Unit) (feedName : GoString) (w : Int) (e : GoError),
      c.FeedSequenceNumber feedName = .returned w (some e) → w = 0) ∧
    (∀ (Event : Type) (dec : Dec (Feed Event)) (name : GoString) (since : Int),
      Client.Feed (specClient (fun u => .ok u) (fun _ => .ok ⟨200, [], lit "null"⟩)
          (some (decodePtr dec (Feed.zero Event)))) name since
        = .returned none none) ∧
    Client.Feed (constClient someRequest (some ⟨200, [], lit "null"⟩) none
        (none : Option (Feed Unit))) (lit "orders") 0
      = .returned none none :=
  ⟨(feed_results Unit).1, fun Event => (feed_results Event).2.1, (feed_results Unit).2.2.1,
    fun _ _ _ _ => rfl, rfl⟩

end Serialized

namespace Serialized

/-! ## Decimal text -/

/-- The value of a string of decimal digits read from the left, starting from `n0`. -/
theorem foldl_digits_append (n0 : Nat) (ds : List Nat) (d : Nat) :
    (ds ++ [d]).foldl (fun v c => v * 10 + (c - 48)) n0
      = (ds.foldl (fun v c => v * 10 + (c - 48)) n0) * 10 + (d - 48) := by
  simp [List.foldl_append]

/-- What `formatBits` writes: a non-empty string of digits in front of `acc`, whose
value is `u`. -/
theorem formatBits_spec (fuel : Nat) : ∀ (u : Nat) (acc : List Nat), u < 10 ^ (fuel + 1) →
    ∃ ds, formatBits (fuel + 1) u acc = ds ++ acc ∧ ds ≠ [] ∧
      (∀ c ∈ ds, 48 ≤ c ∧ c ≤ 57) ∧
      ∀ n0, ds.foldl (fun v c => v * 10 + (c - 48)) n0 = n0 * 10 ^ ds.length + u := by
  induction fuel with
  | zero =>
    intro u acc hu
    refine ⟨[48 + u], ?_, by simp, ?_, ?_⟩
    · simp only [formatBits]; simp at hu; simp [hu]
    · intro c hc; simp at hc hu; omega
    · intro n0; simp
  | succ fuel ih =>
    intro u acc hu
    by_cases h10 : u < 10
    · refine ⟨[48 + u], ?_, by simp, ?_, ?_⟩
      · simp [formatBits, h10]
      · intro c hc; simp at hc; omega
      · intro n0; simp
    · have hdiv : u / 10 < 10 ^ (fuel + 1) := by
        rw [Nat.div_lt_iff_lt_mul (by decide)]
        calc u < 10 ^ (fuel + 1 + 1) := hu
          _ = 10 ^ (fuel + 1) * 10 := by ring
      obtain ⟨ds, heq, -, hdig, hval⟩ := ih (u / 10) ((48 + u % 10) :: acc) hdiv
      refine ⟨ds ++ [48 + u % 10], ?_, by simp, ?_, ?_⟩
      · rw [formatBits]; simp only [h10, if_false]; rw [heq]; simp
      · intro c hc
        rcases List.mem_append.1 hc with h | h
        · exact hdig c h
        · simp at h; omega
      · intro n0
        rw [foldl_digits_append, hval]
        simp only [List.length_append, List.length_singleton, pow_succ]
        have : 48 + u % 10 - 48 = u % 10 := by omega
        rw [this]
        have := Nat.div_add_mod u 10
        nlinarith [Nat.div_add_mod u 10]

/-- What `formatNat` writes: a non-empty string of digits whose value is `n`. -/
theorem formatNat_spec (n : Nat) :
    formatNat n ≠ [] ∧ (∀ c ∈ formatNat n, 48 ≤ c ∧ c ≤ 57) ∧
      ∀ n0, (formatNat n).foldl (fun v c => v * 10 + (c - 48)) n0
        = n0 * 10 ^ (formatNat n).length + n := by
  have hlt : n < 10 ^ (n + 1) :=
    calc n < 2 ^ n := Nat.lt_two_pow n
      _ ≤ 10 ^ n := Nat.pow_le_pow_left (by decide) n
      _ ≤ 10 ^ (n + 1) := Nat.pow_le_pow_right (by decide) (Nat.le_succ n)
  obtain ⟨ds, heq, hne, hdig, hval⟩ := formatBits_spec n n [] hlt
  have : formatNat n = ds := by simp [formatNat, heq]
  rw [this]
  exact ⟨hne, hdig, hval⟩

/-! ## The request of `Feed` -/

/-- `escape` leaves a string of digits as it is. -/
theorem escape_digits (mode : Encoding) : ∀ ds : List Nat, (∀ c ∈ ds, 48 ≤ c ∧ c ≤ 57) →
    escape ds mode = ds := by
  intro ds
  induction ds with
  | nil => intro _; rfl
  | cons d ds ih =>
    intro h
    have hd := h d (List.mem_cons_self _ _)
    have htail : escape ds mode = ds := ih (fun c hc => h c (List.mem_cons_of_mem _ hc))
    have hne : d ≠ 32 := by omega
    have hse : shouldEscape d mode = false := by
      simp only [shouldEscape]
      rw [if_pos (Or.inr (Or.inr hd))]
    simp only [escape, List.flatMap_cons] at htail ⊢
    rw [htail]
    simp [hne, hse]

/-- `Values.Encode` on a single key with a single value. -/
theorem encode_single (k v : GoString) :
    Values.Encode (Values.Set [] k v) = QueryEscape k ++ 61 :: QueryEscape v := by
  simp [Values.Encode, Values.Set, encodeKey]

/-- `URL.String` for a path that starts with a slash: the escaped path, then the
query after a question mark when there is one. -/
theorem url_string_feeds (name query : GoString) :
    URL.String { Path := lit "/feeds/" ++ name, RawQuery := query }
      = lit "/feeds/" ++ escape name .encodePath
        ++ (if query ≠ [] then 63 :: query else []) := by
  have hlit : lit "/feeds/" = [47, 102, 101, 101, 100, 115, 47] := by decide
  have hesc : escape (lit "/feeds/" ++ name) .encodePath
      = lit "/feeds/" ++ escape name .encodePath := by
    simp only [escape, List.flatMap_append]
    congr 1
  have hpath : URL.EscapedPath { Path := lit "/feeds/" ++ name, RawQuery := query }
      = lit "/feeds/" ++ escape name .encodePath := by
    simp only [URL.EscapedPath]
    rw [if_neg (by rw [hlit]; simp), hesc]
  simp only [URL.String, hpath]
  rw [hlit]
  by_cases hq : query = [] <;> simp [hq, List.takeWhile]

end Serialized

namespace Serialized

/-- C6 (as amended): `Feed` asks `newRequest` for a GET of the URL with path
`/feeds/<name>`, and passes the cursor through only when it is positive: for
`since > 0` the query string is `since=` followed by the decimal text of the value,
unchanged; for `since ≤ 0` the URL has no query string at all. -/
theorem C6_since_passed_when_positive (name : GoString) (since : Int) :
    (FeedURL name since).Path = lit "/feeds/" ++ name ∧
    (0 < since →
      (FeedURL name since).RawQuery = lit "since=" ++ formatInt since ∧
      (FeedURL name since).String
        = lit "/feeds/" ++ escape name .encodePath ++ lit "?since=" ++ formatInt since) ∧
    (since ≤ 0 →
      (FeedURL name since).RawQuery = [] ∧
      (FeedURL name since).String = lit "/feeds/" ++ escape name .encodePath) ∧
    (∀ (Event : Type) (c c' : Client (Option (Feed Event))),
      c.newRequest (lit "GET") (FeedURL name since).String none
        = c'.newRequest (lit "GET") (FeedURL name since).String none →
      c.«do» = c'.«do» → c.Feed name since = c'.Feed name since) := by
  refine ⟨?_, ?_, ?_, ?_⟩
  · simp only [FeedURL]; split <;> rfl
  · intro hpos
    have hfmt : formatInt since = formatNat since.natAbs := by
      simp only [formatInt]; rw [if_neg (by omega)]
    have hdig : ∀ c ∈ formatInt since, 48 ≤ c ∧ c ≤ 57 := by
      rw [hfmt]; exact (formatNat_spec _).2.1
    have hne : formatInt since ≠ [] := by
      rw [hfmt]; exact (formatNat_spec _).1
    have hq : (FeedURL name since).RawQuery = lit "since=" ++ formatInt since := by
      simp only [FeedURL]
      rw [if_pos hpos]
      simp only [encode_single, QueryEscape]
      rw [escape_digits _ _ hdig]
      have : escape (lit "since") .encodeQueryComponent ++ [61] = lit "since=" := by decide
      rw [← this]; simp
    refine ⟨hq, ?_⟩
    have hu : FeedURL name since
        = { Path := lit "/feeds/" ++ name, RawQuery := lit "since=" ++ formatInt since } := by
      rw [← hq]; simp only [FeedURL]; rw [if_pos hpos]
    rw [hu, url_string_feeds]
    have hl : lit "since=" = [115, 105, 110, 99, 101, 61] := by decide
    have hl2 : lit "?since=" = [63, 115, 105, 110, 99, 101, 61] := by decide
    rw [hl, hl2]; simp
  · intro hle
    have hu : FeedURL name since = { Path := lit "/feeds/" ++ name, RawQuery := [] } := by
      simp only [FeedURL]; rw [if_neg (by omega)]
    rw [hu, url_string_feeds]; simp
  · intro Event c c' h1 h2
    simp only [Client.Feed, h1, h2]

/-- C6, at concrete inputs: the cursor 42 is passed as `since=42`. -/
theorem C6_since_passed_when_positive_witness :
    (FeedURL (lit "orders") 42).String = lit "/feeds/orders?since=42" :=
  ((C6_since_passed_when_positive (lit "orders") 42).2.1 (by decide)).2.trans (by decide)

/-- C6, counterexample: for the cursor 0 (and for a negative one) the request carries
no `since` parameter. -/
theorem C6_counterexample :
    (FeedURL (lit "orders") 0).RawQuery = [] ∧
    (FeedURL (lit "orders") 0).RawQuery ≠ lit "since=" ++ formatInt 0 ∧
    (FeedURL (lit "orders") 0).String = lit "/feeds/orders" ∧
    (FeedURL (lit "orders") (-7)).String = lit "/feeds/orders" := by
  decide

end Serialized

namespace Serialized

/-! ## `strconv.ParseInt` against the decimal reading -/

theorem foldl_digits_ge (ds : List Nat) : ∀ n, n ≤ ds.foldl (fun v c => v * 10 + (c - 48)) n := by
  induction ds with
  | nil => intro n; exact Nat.le_refl n
  | cons d ds ih =>
    intro n
    simp only [List.foldl_cons]
    exact Nat.le_trans (by omega) (ih _)

/-- One step of the loop of `ParseUint` on a digit. -/
theorem parseUintLoop_cons_digit (c : Nat) (cs : List Nat) (n : Nat) (hc : 48 ≤ c ∧ c ≤ 57) :
    parseUintLoop 10 ((2 ^ 64 - 1) / 10 + 1) (2 ^ 64 - 1) (c :: cs) n
      = if 1844674407370955162 ≤ n then (2 ^ 64 - 1, some .ErrRange)
        else if (n * 10 % 2 ^ 64 + (c - 48)) % 2 ^ 64 < n * 10 % 2 ^ 64
            ∨ (n * 10 % 2 ^ 64 + (c - 48)) % 2 ^ 64 > 2 ^ 64 - 1 then
          (2 ^ 64 - 1, some .ErrRange)
        else parseUintLoop 10 ((2 ^ 64 - 1) / 10 + 1) (2 ^ 64 - 1) cs
          ((n * 10 % 2 ^ 64 + (c - 48)) % 2 ^ 64) := by
  rw [parseUintLoop]
  simp only [if_pos (Or.inl hc : 48 ≤ c ∧ c ≤ 57 ∨ 97 ≤ lower c ∧ lower c ≤ 122), if_pos hc]
  rw [if_neg (by omega)]
  rfl

/-- One step of the loop of `ParseUint` on a byte that is no digit. -/
theorem parseUintLoop_cons_nondigit (c : Nat) (cs : List Nat) (n : Nat)
    (hc : ¬ (48 ≤ c ∧ c ≤ 57)) :
    parseUintLoop 10 ((2 ^ 64 - 1) / 10 + 1) (2 ^ 64 - 1) (c :: cs) n = (0, some .ErrSyntax) := by
  rw [parseUintLoop]
  by_cases hl : 97 ≤ lower c ∧ lower c ≤ 122
  · simp only [if_pos (Or.inr hl : 48 ≤ c ∧ c ≤ 57 ∨ 97 ≤ lower c ∧ lower c ≤ 122), if_neg hc]
    rw [if_pos (by omega)]
  · rw [if_neg (by tauto)]

/-- On a string of digits the loop of `ParseUint` computes the value of the string,
and reports a range error exactly when the value does not fit 64 bits. -/
theorem parseUintLoop_digits (ds : List Nat) : ∀ n, (∀ c ∈ ds, 48 ≤ c ∧ c ≤ 57) → n < 2 ^ 64 →
    parseUintLoop 10 ((2 ^ 64 - 1) / 10 + 1) (2 ^ 64 - 1) ds n
      = if ds.foldl (fun v c => v * 10 + (c - 48)) n < 2 ^ 64
        then (ds.foldl (fun v c => v * 10 + (c - 48)) n, none)
        else (2 ^ 64 - 1, some .ErrRange) := by
  induction ds with
  | nil => intro n _ hn; simp only [parseUintLoop, List.foldl_nil]; rw [if_pos hn]
  | cons c cs ih =>
    intro n hdig hn
    have hc := hdig c (List.mem_cons_self _ _)
    have hcs : ∀ x ∈ cs, 48 ≤ x ∧ x ≤ 57 := fun x hx => hdig x (List.mem_cons_of_mem _ hx)
    have hge := foldl_digits_ge cs (n * 10 + (c - 48))
    rw [parseUintLoop_cons_digit c cs n hc]
    simp only [List.foldl_cons]
    norm_num at hn hge ⊢
    by_cases hcut : 1844674407370955162 ≤ n
    · rw [if_pos hcut, if_neg (by omega)]
    · rw [if_neg hcut]
      have h10 : n * 10 % 18446744073709551616 = n * 10 := Nat.mod_eq_of_lt (by omega)
      rw [h10]
      by_cases hov : n * 10 + (c - 48) < 18446744073709551616
      · have h1 : (n * 10 + (c - 48)) % 18446744073709551616 = n * 10 + (c - 48) :=
          Nat.mod_eq_of_lt hov
        rw [h1, if_neg (by omega)]
        have := ih (n * 10 + (c - 48)) hcs (by norm_num; exact hov)
        norm_num at this
        exact this
      · have h1 : (n * 10 + (c - 48)) % 18446744073709551616
            = n * 10 + (c - 48) - 18446744073709551616 := by
          rw [Nat.mod_eq_sub_mod (by omega)]
          exact Nat.mod_eq_of_lt (by omega)
        rw [h1, if_pos (Or.inl (by omega)), if_neg (by omega)]

/-- Whatever the input, the loop of `ParseUint` ends without an error, with a syntax
error and the value 0, or with a range error and the largest value. -/
theorem parseUintLoop_shape (ds : List Nat) : ∀ n,
    (parseUintLoop 10 ((2 ^ 64 - 1) / 10 + 1) (2 ^ 64 - 1) ds n).2 = none ∨
    parseUintLoop 10 ((2 ^ 64 - 1) / 10 + 1) (2 ^ 64 - 1) ds n = (0, some .ErrSyntax) ∨
    parseUintLoop 10 ((2 ^ 64 - 1) / 10 + 1) (2 ^ 64 - 1) ds n
      = (2 ^ 64 - 1, some .ErrRange) := by
  induction ds with
  | nil => intro n; left; rfl
  | cons c cs ih =>
    intro n
    by_cases hc : 48 ≤ c ∧ c ≤ 57
    · rw [parseUintLoop_cons_digit c cs n hc]
      split
      · right; right; rfl
      · split
        · right; right; rfl
        · exact ih _
    · rw [parseUintLoop_cons_nondigit c cs n hc]
      right; left; rfl

/-- A string with a byte that is no digit makes the loop of `ParseUint` fail. -/
theorem parseUintLoop_nondigit (ds : List Nat) : ∀ n, (∃ c ∈ ds, ¬ (48 ≤ c ∧ c ≤ 57)) →
    (parseUintLoop 10 ((2 ^ 64 - 1) / 10 + 1) (2 ^ 64 - 1) ds n).2 ≠ none := by
  induction ds with
  | nil => intro n h; simp at h
  | cons c cs ih =>
    intro n h
    by_cases hc : 48 ≤ c ∧ c ≤ 57
    · have hcs : ∃ x ∈ cs, ¬ (48 ≤ x ∧ x ≤ 57) := by
        obtain ⟨x, hx, hnx⟩ := h
        rcases List.mem_cons.1 hx with rfl | hx
        · exact absurd hc hnx
        · exact ⟨x, hx, hnx⟩
      rw [parseUintLoop_cons_digit c cs n hc]
      split
      · simp
      · split
        · simp
        · exact ih _ hcs
    · rw [parseUintLoop_cons_nondigit c cs n hc]; simp

end Serialized

namespace Serialized

/-- `ParseUint` on a non-empty string of digits. -/
theorem ParseUint_digits (ds : List Nat) (h : isDigits ds = true) :
    ParseUint ds 10 64
      = if digitsValue ds < 2 ^ 64 then (digitsValue ds, none)
        else (2 ^ 64 - 1, some .ErrRange) := by
  simp only [isDigits, decide_eq_true_eq] at h
  simp only [ParseUint]
  rw [if_neg h.1]
  exact parseUintLoop_digits ds 0 h.2 (by norm_num)

/-- `ParseUint` on a string that is not a non-empty string of digits. -/
theorem ParseUint_not_digits (ds : List Nat) (h : isDigits ds = false) :
    ParseUint ds 10 64 = (0, some .ErrSyntax) ∨
    ParseUint ds 10 64 = (2 ^ 64 - 1, some .ErrRange) := by
  simp only [isDigits, decide_eq_false_iff_not, not_and_or, not_not] at h
  simp only [ParseUint]
  by_cases hne : ds = []
  · rw [if_pos hne]; left; rfl
  · rw [if_neg hne]
    have hnd : ∃ c ∈ ds, ¬ (48 ≤ c ∧ c ≤ 57) := by
      rcases h with h | h
      · exact absurd h hne
      · push_neg at h; obtain ⟨c, hc, hn⟩ := h; exact ⟨c, hc, by omega⟩
    have h1 := parseUintLoop_nondigit ds 0 hnd
    rcases parseUintLoop_shape ds 0 with h2 | h2 | h2
    · exact absurd h2 h1
    · left; exact h2
    · right; exact h2

/-- `ParseInt` in terms of the result of `ParseUint` on the text after the sign. -/
theorem ParseInt_cons (c : Nat) (cs : List Nat) (un : Nat) (err : Option NumErr) :
    ParseUint (if c = 43 ∨ c = 45 then cs else c :: cs) 10 64 = (un, err) →
    ParseInt (c :: cs) 10 64 =
      match err with
      | some .ErrSyntax => (0, some (.numError (lit "ParseInt") (c :: cs) .ErrSyntax))
      | _ =>
        if ¬ c = 45 ∧ un ≥ 2 ^ 63 then
          (((2 ^ 63 - 1 : Nat) : Int), some (.numError (lit "ParseInt") (c :: cs) .ErrRange))
        else if c = 45 ∧ un > 2 ^ 63 then
          (-((2 ^ 63 : Nat) : Int), some (.numError (lit "ParseInt") (c :: cs) .ErrRange))
        else if c = 45 then (-(un : Int), none) else ((un : Int), none) := by
  intro h
  simp only [ParseInt, h]

/-- `ParseInt` when the text after the sign is no string of digits. -/
theorem ParseInt_bad (c : Nat) (cs : List Nat)
    (h : isDigits (if c = 43 ∨ c = 45 then cs else c :: cs) = false) :
    (ParseInt (c :: cs) 10 64).2 ≠ none := by
  rcases ParseUint_not_digits _ h with hu | hu
  · rw [ParseInt_cons c cs _ _ hu]; simp
  · rw [ParseInt_cons c cs _ _ hu]
    by_cases hneg : c = 45
    · simp [hneg]
    · simp [hneg]

/-- `ParseInt` when the text after the sign is a string of digits: `v` is the value
of the digits, negated after a minus sign. -/
theorem ParseInt_good (c : Nat) (cs : List Nat)
    (h : isDigits (if c = 43 ∨ c = 45 then cs else c :: cs) = true) (v : Int)
    (hv : v = if c = 45
      then -(digitsValue (if c = 43 ∨ c = 45 then cs else c :: cs) : Int)
      else (digitsValue (if c = 43 ∨ c = 45 then cs else c :: cs) : Int)) :
    (-2 ^ 63 ≤ v → v < 2 ^ 63 → ParseInt (c :: cs) 10 64 = (v, none)) ∧
    ((v < -2 ^ 63 ∨ 2 ^ 63 ≤ v) → (ParseInt (c :: cs) 10 64).2 ≠ none) := by
  have hu := ParseUint_digits _ h
  generalize digitsValue (if c = 43 ∨ c = 45 then cs else c :: cs) = U at hu hv
  by_cases hfit : U < 2 ^ 64
  · rw [if_pos hfit] at hu
    rw [ParseInt_cons c cs _ _ hu]
    by_cases hneg : c = 45
    · rw [if_pos hneg] at hv
      rw [hv]
      norm_num at hfit ⊢
      constructor
      · intro h1 _
        simp only [hneg, not_true_eq_false, false_and, if_false, true_and]
        rw [if_neg (by omega)]
        simp
      · intro h1
        simp only [hneg, not_true_eq_false, false_and, if_false, true_and]
        rw [if_pos (by omega)]
        simp
    · rw [if_neg hneg] at hv
      rw [hv]
      norm_num at hfit ⊢
      constructor
      · intro _ h2
        simp only [hneg, not_false_eq_true, true_and, false_and, if_false]
        rw [if_neg (by omega)]
      · intro h1
        simp only [hneg, not_false_eq_true, true_and, false_and, if_false]
        rw [if_pos (by omega)]
        simp
  · rw [if_neg hfit] at hu
    rw [ParseInt_cons c cs _ _ hu]
    norm_num at hfit
    by_cases hneg : c = 45
    · rw [if_pos hneg] at hv
      rw [hv]
      constructor
      · intro h1 _; omega
      · intro _; simp [hneg]
    · rw [if_neg hneg] at hv
      rw [hv]
      constructor
      · intro _ h2; omega
      · intro _; simp [hneg]

/-- `strconv.ParseInt(s, 10, 64)` against the decimal reading of `s`: a base-10 integer
of the `int64` range is returned without an error; a base-10 integer outside of the
range, and a text that is no base-10 integer, give a non-nil error. -/
theorem ParseInt_spec (s : GoString) :
    (∀ v, decimalInteger s = some v → -2 ^ 63 ≤ v → v < 2 ^ 63 → ParseInt s 10 64 = (v, none)) ∧
    (∀ v, decimalInteger s = some v → (v < -2 ^ 63 ∨ 2 ^ 63 ≤ v) →
      (ParseInt s 10 64).2 ≠ none) ∧
    (decimalInteger s = none → (ParseInt s 10 64).2 ≠ none) := by
  cases s with
  | nil => simp [decimalInteger, isDigits, ParseInt]
  | cons c cs =>
    have hdec : decimalInteger (c :: cs) =
        if isDigits (if c = 43 ∨ c = 45 then cs else c :: cs) = true then
          some (if c = 45
            then -(digitsValue (if c = 43 ∨ c = 45 then cs else c :: cs) : Int)
            else (digitsValue (if c = 43 ∨ c = 45 then cs else c :: cs) : Int))
        else none := by
      by_cases h43 : c = 43
      · subst h43; simp [decimalInteger]
      · by_cases h45 : c = 45
        · subst h45; simp [decimalInteger]
        · simp only [h43, h45, or_self, if_false]
          unfold decimalInteger
          split
          · rename_i heq; cases heq; exact absurd rfl h43
          · rename_i heq; cases heq; exact absurd rfl h45
          · rfl
    rw [hdec]
    by_cases hd : isDigits (if c = 43 ∨ c = 45 then cs else c :: cs) = true
    · simp only [hd, if_true]
      refine ⟨?_, ?_, by simp⟩
      · intro v hv; exact (ParseInt_good c cs hd v (Option.some.inj hv).symm).1
      · intro v hv; exact (ParseInt_good c cs hd v (Option.some.inj hv).symm).2
    · have hb := ParseInt_bad c cs (by simpa using hd)
      simp only [hd]
      refine ⟨by simp, by simp, fun _ => hb⟩

end Serialized

namespace Serialized

/-- The decimal reading of a non-empty string of digits. -/
theorem decimalInteger_digits (ds : List Nat) (h : isDigits ds = true) :
    decimalInteger ds = some (digitsValue ds : Int) := by
  have h' := h
  simp only [isDigits, decide_eq_true_eq] at h'
  cases ds with
  | nil => exact absurd rfl h'.1
  | cons d ds =>
    have hd := h'.2 d (List.mem_cons_self _ _)
    unfold decimalInteger
    split
    · rename_i heq; cases heq; omega
    · rename_i heq; cases heq; omega
    · rw [if_pos h]

/-- The decimal reading of the text `%d` writes for `n` is `n`. -/
theorem decimalInteger_formatInt (n : Int) : decimalInteger (formatInt n) = some n := by
  obtain ⟨hne, hdig, hval⟩ := formatNat_spec n.natAbs
  have hD : isDigits (formatNat n.natAbs) = true := by
    simp only [isDigits, decide_eq_true_eq]; exact ⟨hne, hdig⟩
  have hV : digitsValue (formatNat n.natAbs) = n.natAbs := by
    have := hval 0
    simpa [digitsValue] using this
  unfold formatInt
  by_cases hn : n < 0
  · rw [if_pos hn]
    simp only [decimalInteger, hD, if_true, hV]
    congr 1; omega
  · rw [if_neg hn, decimalInteger_digits _ hD, hV]
    congr 1; omega

/-- C7: when the HEAD request of `FeedSequenceNumber` is answered with status 200 (and
`do` reports no error), a `Current-Sequence-Number` header that is the base-10 text
of an `int64` `n` makes it return `(n, nil)`; a header that is absent, empty, not a
base-10 integer, or outside of the `int64` range makes it return 0 and a non-nil
error. -/
theorem C7_feed_sequence_number (c : Client Unit) (feedName : GoString) (resp : Response)
    (hd : Delivered c (lit "HEAD") (lit "/feeds/" ++ feedName) none () (some resp) none)
    (hs : resp.StatusCode = 200) :
    (∀ n : Int, -2 ^ 63 ≤ n → n < 2 ^ 63 →
      resp.Header.Get (lit "Current-Sequence-Number") = formatInt n →
      c.FeedSequenceNumber feedName = .returned n none) ∧
    (∀ n : Int, -2 ^ 63 ≤ n → n < 2 ^ 63 →
      decimalInteger (resp.Header.Get (lit "Current-Sequence-Number")) = some n →
      c.FeedSequenceNumber feedName = .returned n none) ∧
    (resp.Header.lookup (lit "Current-Sequence-Number") = none →
      ∃ e, c.FeedSequenceNumber feedName = .returned 0 (some e)) ∧
    (resp.Header.Get (lit "Current-Sequence-Number") = [] →
      ∃ e, c.FeedSequenceNumber feedName = .returned 0 (some e)) ∧
    (decimalInteger (resp.Header.Get (lit "Current-Sequence-Number")) = none →
      ∃ e, c.FeedSequenceNumber feedName = .returned 0 (some e)) ∧
    (∀ v : Int, decimalInteger (resp.Header.Get (lit "Current-Sequence-Number")) = some v →
      (v < -2 ^ 63 ∨ 2 ^ 63 ≤ v) →
      ∃ e, c.FeedSequenceNumber feedName = .returned 0 (some e)) := by
  obtain ⟨req, -, hk⟩ := (error_first c (lit "HEAD") (lit "/feeds/" ++ feedName) none ()
    StatusOK 0
    (fun resp _ =>
      match ParseInt (resp.Header.Get (lit "Current-Sequence-Number")) 10 64 with
      | (_, some err) => .returned 0 (some err)
      | (seq, none) => .returned seq none)
    (c.FeedSequenceNumber feedName) rfl).2.2.1 resp hd hs
  have hspec := ParseInt_spec (resp.Header.Get (lit "Current-Sequence-Number"))
  have good : ∀ n : Int, -2 ^ 63 ≤ n → n < 2 ^ 63 →
      decimalInteger (resp.Header.Get (lit "Current-Sequence-Number")) = some n →
      c.FeedSequenceNumber feedName = .returned n none := by
    intro n h1 h2 hdec
    rw [hk]
    show (match ParseInt (resp.Header.Get (lit "Current-Sequence-Number")) 10 64 with
      | (_, some err) => Outcome.returned 0 (some err)
      | (seq, none) => Outcome.returned seq none) = _
    rw [hspec.1 n hdec h1 h2]
  have bad : (ParseInt (resp.Header.Get (lit "Current-Sequence-Number")) 10 64).2 ≠ none →
      ∃ e, c.FeedSequenceNumber feedName = .returned 0 (some e) := by
    intro hne
    rw [hk]
    show ∃ e, (match ParseInt (resp.Header.Get (lit "Current-Sequence-Number")) 10 64 with
      | (_, some err) => Outcome.returned 0 (some err)
      | (seq, none) => Outcome.returned seq none) = _
    generalize ParseInt (resp.Header.Get (lit "Current-Sequence-Number")) 10 64 = p at hne
    rcases p with ⟨n, _ | e⟩
    · exact absurd rfl hne
    · exact ⟨e, rfl⟩
  have hempty : resp.Header.Get (lit "Current-Sequence-Number") = [] →
      ∃ e, c.FeedSequenceNumber feedName = .returned 0 (some e) := by
    intro h0
    apply bad
    apply hspec.2.2
    rw [h0]; rfl
  refine ⟨?_, good, ?_, hempty, fun h => bad (hspec.2.2 h), fun v hv hr => bad (hspec.2.1 v hv hr)⟩
  · intro n h1 h2 hget
    exact good n h1 h2 (by rw [hget]; exact decimalInteger_formatInt n)
  · intro habs
    apply hempty
    simp only [Header.Get, habs]

/-- C7, at a concrete input: the header `Current-Sequence-Number: 42` on a response
with status 200 gives `(42, nil)`. -/
theorem C7_feed_sequence_number_witness :
    Client.FeedSequenceNumber
      (constClient someRequest
        (some ⟨200, [(lit "Current-Sequence-Number", [lit "42"])], []⟩) none ())
      (lit "orders") = .returned 42 none :=
  (C7_feed_sequence_number _ (lit "orders")
    ⟨200, [(lit "Current-Sequence-Number", [lit "42"])], []⟩
    (constClient_delivered _ _ _ _ _ _ _ _) rfl).1 42 (by decide) (by decide) (by decide)

end Serialized

namespace Serialized

/-! ## UTF-8 sequences -/

set_option maxHeartbeats 2000000 in
/-- A valid multi-byte sequence at the head of a string, as `DecodeRune` accepts it. -/
theorem DecodeRune_valid (b : Nat) (rest : List Nat) (c size : Nat) (hb : ¬ b < 0x80)
    (h : DecodeRune (b :: rest) = (c, size)) (hv : ¬ (c = RuneError ∧ size = 1)) :
    (∃ b1 t, rest = b1 :: t ∧ size = 2 ∧ 0xC2 ≤ b ∧ b ≤ 0xDF ∧ 0x80 ≤ b1 ∧ b1 ≤ 0xBF ∧
      c = b % 32 * 64 + b1 % 64) ∨
    (∃ b1 b2 t, rest = b1 :: b2 :: t ∧ size = 3 ∧ 0xE0 ≤ b ∧ b ≤ 0xEF ∧
      0x80 ≤ b1 ∧ b1 ≤ 0xBF ∧ (b = 0xE0 → 0xA0 ≤ b1) ∧ (b = 0xED → b1 ≤ 0x9F) ∧
      0x80 ≤ b2 ∧ b2 ≤ 0xBF ∧ c = b % 16 * 4096 + b1 % 64 * 64 + b2 % 64) ∨
    (∃ b1 b2 b3 t, rest = b1 :: b2 :: b3 :: t ∧ size = 4 ∧ 0xF0 ≤ b ∧ b ≤ 0xF4 ∧
      0x80 ≤ b1 ∧ b1 ≤ 0xBF ∧ (b = 0xF0 → 0x90 ≤ b1) ∧ (b = 0xF4 → b1 ≤ 0x8F) ∧
      0x80 ≤ b2 ∧ b2 ≤ 0xBF ∧ 0x80 ≤ b3 ∧ b3 ≤ 0xBF ∧
      c = b % 8 * 262144 + b1 % 64 * 4096 + b2 % 64 * 64 + b3 % 64) := by
  have herr : ∀ {P : Prop}, ((RuneError, 1) : Nat × Nat) = (c, size) → P := by
    intro P he
    simp only [Prod.mk.injEq] at he
    exact absurd ⟨he.1.symm, he.2.symm⟩ hv
  simp only [DecodeRune] at h
  rw [if_neg hb] at h
  rcases hacc : acceptRange b with _ | ⟨sz, lo, hi⟩
  · rw [hacc] at h; exact herr h
  · rw [hacc] at h
    simp only at h
    have hsz : (sz = 2 ∧ 0xC2 ≤ b ∧ b ≤ 0xDF ∧ lo = 0x80 ∧ hi = 0xBF) ∨
        (sz = 3 ∧ 0xE0 ≤ b ∧ b ≤ 0xEF ∧ 0x80 ≤ lo ∧ hi ≤ 0xBF ∧
          (b = 0xE0 → 0xA0 ≤ lo) ∧ (b = 0xED → hi ≤ 0x9F)) ∨
        (sz = 4 ∧ 0xF0 ≤ b ∧ b ≤ 0xF4 ∧ 0x80 ≤ lo ∧ hi ≤ 0xBF ∧
          (b = 0xF0 → 0x90 ≤ lo) ∧ (b = 0xF4 → hi ≤ 0x8F)) := by
      simp only [acceptRange] at hacc
      split_ifs at hacc <;> simp only [Option.some.injEq, Prod.mk.injEq] at hacc <;>
        obtain ⟨rfl, rfl, rfl⟩ := hacc <;> omega
    rcases hsz with ⟨rfl, h1, h2, rfl, rfl⟩ | ⟨rfl, h1, h2, h3, h4, h5, h6⟩ |
      ⟨rfl, h1, h2, h3, h4, h5, h6⟩
    · left
      rcases rest with _ | ⟨b1, t⟩ <;>
        simp only [List.length_cons, List.length_nil, List.getD_cons_zero,
          List.getD_cons_succ, List.getD_nil] at h <;>
        split_ifs at h
      all_goals first
        | exact herr h
        | omega
        | (simp only [Prod.mk.injEq] at h
           exact ⟨b1, t, rfl, h.2.symm, h1, h2, by omega, by omega, h.1.symm⟩)
    · right; left
      rcases rest with _ | ⟨b1, _ | ⟨b2, t⟩⟩ <;>
        simp only [List.length_cons, List.length_nil, List.getD_cons_zero,
          List.getD_cons_succ, List.getD_nil] at h <;>
        split_ifs at h
      all_goals first
        | exact herr h
        | omega
        | (simp only [Prod.mk.injEq] at h
           exact ⟨b1, b2, t, rfl, h.2.symm, h1, h2, by omega, by omega,
             fun hb0 => by have := h5 hb0; omega, fun hbd => by have := h6 hbd; omega,
             by omega, by omega, h.1.symm⟩)
    · right; right
      rcases rest with _ | ⟨b1, _ | ⟨b2, _ | ⟨b3, t⟩⟩⟩ <;>
        simp only [List.length_cons, List.length_nil, List.getD_cons_zero,
          List.getD_cons_succ, List.getD_nil] at h <;>
        split_ifs at h
      all_goals first
        | exact herr h
        | omega
        | (simp only [Prod.mk.injEq] at h
           exact ⟨b1, b2, b3, t, rfl, h.2.symm, h1, h2, by omega, by omega,
             fun hb0 => by have := h5 hb0; omega, fun hbd => by have := h6 hbd; omega,
             by omega, by omega, by omega, by omega, h.1.symm⟩)

end Serialized

namespace Serialized

/-- `DecodeRune` on a valid sequence of two bytes. -/
theorem DecodeRune_two (b b1 : Nat) (t : List Nat) (h1 : 0xC2 ≤ b) (h2 : b ≤ 0xDF)
    (h3 : 0x80 ≤ b1) (h4 : b1 ≤ 0xBF) :
    DecodeRune (b :: b1 :: t) = (b % 32 * 64 + b1 % 64, 2) := by
  have hacc : acceptRange b = some (2, 0x80, 0xBF) := by
    simp only [acceptRange]; rw [if_pos ⟨h1, h2⟩]
  simp only [DecodeRune, hacc, List.length_cons, List.getD_cons_zero]
  rw [if_neg (by omega), if_neg (by omega), if_neg (by omega), if_pos (by omega)]

/-- `DecodeRune` on a valid sequence of three bytes. -/
theorem DecodeRune_three (b b1 b2 : Nat) (t : List Nat) (h1 : 0xE0 ≤ b) (h2 : b ≤ 0xEF)
    (h3 : 0x80 ≤ b1) (h4 : b1 ≤ 0xBF) (h5 : b = 0xE0 → 0xA0 ≤ b1) (h6 : b = 0xED → b1 ≤ 0x9F)
    (h7 : 0x80 ≤ b2) (h8 : b2 ≤ 0xBF) :
    DecodeRune (b :: b1 :: b2 :: t) = (b % 16 * 4096 + b1 % 64 * 64 + b2 % 64, 3) := by
  have hacc : ∃ lo hi, acceptRange b = some (3, lo, hi) ∧ lo ≤ b1 ∧ b1 ≤ hi := by
    simp only [acceptRange]
    split_ifs with c1 c2 c3 c4 c5 c6 c7 c8
    all_goals first
      | omega
      | exact ⟨_, _, rfl, by omega, by omega⟩
  obtain ⟨lo, hi, hacc, hlo, hhi⟩ := hacc
  simp only [DecodeRune, hacc, List.length_cons, List.getD_cons_zero, List.getD_cons_succ]
  rw [if_neg (by omega), if_neg (by omega), if_neg (by omega), if_neg (by omega),
    if_neg (by omega), if_pos (by omega)]

/-- `DecodeRune` on a valid sequence of four bytes. -/
theorem DecodeRune_four (b b1 b2 b3 : Nat) (t : List Nat) (h1 : 0xF0 ≤ b) (h2 : b ≤ 0xF4)
    (h3 : 0x80 ≤ b1) (h4 : b1 ≤ 0xBF) (h5 : b = 0xF0 → 0x90 ≤ b1) (h6 : b = 0xF4 → b1 ≤ 0x8F)
    (h7 : 0x80 ≤ b2) (h8 : b2 ≤ 0xBF) (h9 : 0x80 ≤ b3) (h10 : b3 ≤ 0xBF) :
    DecodeRune (b :: b1 :: b2 :: b3 :: t)
      = (b % 8 * 262144 + b1 % 64 * 4096 + b2 % 64 * 64 + b3 % 64, 4) := by
  have hacc : ∃ lo hi, acceptRange b = some (4, lo, hi) ∧ lo ≤ b1 ∧ b1 ≤ hi := by
    simp only [acceptRange]
    split_ifs with c1 c2 c3 c4 c5 c6 c7 c8
    all_goals first
      | omega
      | exact ⟨_, _, rfl, by omega, by omega⟩
  obtain ⟨lo, hi, hacc, hlo, hhi⟩ := hacc
  simp only [DecodeRune, hacc, List.length_cons, List.getD_cons_zero, List.getD_cons_succ]
  rw [if_neg (by omega), if_neg (by omega), if_neg (by omega), if_neg (by omega),
    if_neg (by omega), if_neg (by omega), if_neg (by omega)]

/-- A valid multi-byte sequence is the encoding of the rune it decodes to, and it
decodes to the same rune whatever follows it. -/
theorem DecodeRune_take (b : Nat) (rest : List Nat) (c size : Nat) (hb : ¬ b < 0x80)
    (h : DecodeRune (b :: rest) = (c, size)) (hv : ¬ (c = RuneError ∧ size = 1)) :
    1 ≤ size ∧ ((b :: rest).take size).length = size ∧
    EncodeRune c = (b :: rest).take size ∧
    ∀ t, DecodeRune ((b :: rest).take size ++ t) = (c, size) := by
  rcases DecodeRune_valid b rest c size hb h hv with
    ⟨b1, t, rfl, rfl, h1, h2, h3, h4, rfl⟩ |
    ⟨b1, b2, t, rfl, rfl, h1, h2, h3, h4, h5, h6, h7, h8, rfl⟩ |
    ⟨b1, b2, b3, t, rfl, rfl, h1, h2, h3, h4, h5, h6, h7, h8, h9, h10, rfl⟩
  · refine ⟨by omega, by simp, ?_, ?_⟩
    · simp only [EncodeRune, List.take_succ_cons, List.take_zero]
      rw [if_neg (by omega), if_pos (by omega)]
      congr 1
      · omega
      · congr 1; omega
    · intro t'
      simp only [List.take_succ_cons, List.take_zero, List.cons_append, List.nil_append]
      exact DecodeRune_two b b1 t' h1 h2 h3 h4
  · refine ⟨by omega, by simp, ?_, ?_⟩
    · simp only [EncodeRune, List.take_succ_cons, List.take_zero]
      rw [if_neg (by omega), if_neg (by omega), if_neg (by
        intro hh
        rcases hh with hh | hh
        · omega
        · have := h6
          omega), if_pos (by omega)]
      congr 1
      · omega
      · congr 1
        · omega
        · congr 1; omega
    · intro t'
      simp only [List.take_succ_cons, List.take_zero, List.cons_append, List.nil_append]
      exact DecodeRune_three b b1 b2 t' h1 h2 h3 h4 h5 h6 h7 h8
  · refine ⟨by omega, by simp, ?_, ?_⟩
    · simp only [EncodeRune, List.take_succ_cons, List.take_zero]
      rw [if_neg (by omega), if_neg (by omega), if_neg (by
        intro hh
        rcases hh with hh | hh
        · have := h6
          omega
        · omega), if_neg (by have := h5; omega)]
      congr 1
      · omega
      · congr 1
        · omega
        · congr 1
          · omega
          · congr 1; omega
    · intro t'
      simp only [List.take_succ_cons, List.take_zero, List.cons_append, List.nil_append]
      exact DecodeRune_four b b1 b2 b3 t' h1 h2 h3 h4 h5 h6 h7 h8 h9 h10

end Serialized

namespace Serialized

/-! ## String literals: what the decoder reads back from the encoder -/

theorem unhex_hexDigit (n : Nat) (h : n < 16) : unhex (hexDigit n) = some n := by
  interval_cases n <;> rfl

theorem unquoteLoop_nil (fuel : Nat) : unquoteLoop fuel [] = some [] := by
  cases fuel <;> rfl

theorem appendStringLoop_nil (fuel : Nat) : appendStringLoop fuel [] = [] := by
  cases fuel <;> rfl

theorem coerceLoop_nil (fuel : Nat) : coerceLoop fuel [] = [] := by
  cases fuel <;> rfl

theorem unquoteLoop_cons (fuel c : Nat) (rest out rem : List Nat)
    (h : unquoteStep c rest = some (out, rem)) :
    unquoteLoop (fuel + 1) (c :: rest) = (unquoteLoop fuel rem).map (out ++ ·) := by
  rw [unquoteLoop, h]

/-- The decoder on what the encoder writes for one ASCII byte. -/
theorem unquoteStep_escapeByte (b : Nat) (hb : b < 0x80) (r : List Nat) :
    ∃ o os, escapeByte b = o :: os ∧ unquoteStep o (os ++ r) = some ([b], r) := by
  unfold escapeByte
  by_cases hsafe : htmlSafe b = true
  · rw [if_pos hsafe]
    simp only [htmlSafe, decide_eq_true_eq] at hsafe
    refine ⟨b, [], rfl, ?_⟩
    simp only [unquoteStep, List.nil_append]
    rw [if_neg (by omega), if_neg (by omega), if_pos (by omega)]
  · rw [if_neg hsafe]
    simp only [htmlSafe, decide_eq_true_eq] at hsafe
    by_cases h1 : b = 92 ∨ b = 34
    · rw [if_pos h1]
      refine ⟨92, [b], rfl, ?_⟩
      rcases h1 with rfl | rfl <;> rfl
    · rw [if_neg h1]
      by_cases h8 : b = 8
      · subst h8; exact ⟨92, [98], rfl, rfl⟩
      · rw [if_neg h8]
        by_cases h12 : b = 12
        · subst h12; exact ⟨92, [102], rfl, rfl⟩
        · rw [if_neg h12]
          by_cases h10 : b = 10
          · subst h10; exact ⟨92, [110], rfl, rfl⟩
          · rw [if_neg h10]
            by_cases h13 : b = 13
            · subst h13; exact ⟨92, [114], rfl, rfl⟩
            · rw [if_neg h13]
              by_cases h9 : b = 9
              · subst h9; exact ⟨92, [116], rfl, rfl⟩
              · rw [if_neg h9]
                refine ⟨92, [117, 48, 48, hexDigit (b / 16), hexDigit (b % 16)], rfl, ?_⟩
                have hg : getu4 (92 :: 117 :: 48 :: 48 :: hexDigit (b / 16)
                    :: hexDigit (b % 16) :: r) = some b := by
                  simp only [getu4, unhex_hexDigit (b / 16) (by omega),
                    unhex_hexDigit (b % 16) (by omega)]
                  have h0 : unhex 48 = some 0 := rfl
                  simp only [h0]
                  congr 1; omega
                have hs : IsSurrogate b = false := by
                  simp only [IsSurrogate, decide_eq_false_iff_not]; omega
                have he : EncodeRune b = [b] := by
                  simp only [EncodeRune]; rw [if_pos (by omega)]
                simp only [unquoteStep, List.cons_append, List.nil_append, hg]
                simp [hs, he]

/-- The decoder on the escape the encoder writes for an invalid byte. -/
theorem unquoteStep_replacement (r : List Nat) :
    unquoteStep 92 ([117, 102, 102, 102, 100] ++ r) = some ([0xEF, 0xBF, 0xBD], r) := by
  have hg : getu4 (92 :: 117 :: 102 :: 102 :: 102 :: 100 :: r) = some 0xFFFD := rfl
  have hs : IsSurrogate 0xFFFD = false := by decide
  have he : EncodeRune 0xFFFD = [0xEF, 0xBF, 0xBD] := by decide
  simp only [unquoteStep, List.cons_append, List.nil_append, hg]
  simp [hs, he]

/-- The decoder on the escapes the encoder writes for U+2028 and U+2029. -/
theorem unquoteStep_separator (c : Nat) (hc : c = 0x2028 ∨ c = 0x2029) (r : List Nat) :
    unquoteStep 92 ([117, 50, 48, 50, hexDigit (c % 16)] ++ r) = some (EncodeRune c, r) := by
  rcases hc with rfl | rfl
  · have hg : getu4 (92 :: 117 :: 50 :: 48 :: 50 :: hexDigit (0x2028 % 16) :: r)
        = some 0x2028 := rfl
    have hs : IsSurrogate 0x2028 = false := by decide
    simp only [unquoteStep, List.cons_append, List.nil_append, hg]
    simp [hs]
  · have hg : getu4 (92 :: 117 :: 50 :: 48 :: 50 :: hexDigit (0x2029 % 16) :: r)
        = some 0x2029 := rfl
    have hs : IsSurrogate 0x2029 = false := by decide
    simp only [unquoteStep, List.cons_append, List.nil_append, hg]
    simp [hs]

/-- The decoder on a byte at or above 0x80: the rune at the head is decoded and
written back. -/
theorem unquoteStep_high (b : Nat) (hb : ¬ b < 0x80) (tl : List Nat) :
    unquoteStep b tl
      = some (EncodeRune (DecodeRune (b :: tl)).1, (b :: tl).drop (DecodeRune (b :: tl)).2) := by
  simp only [unquoteStep]
  rw [if_neg (by omega), if_neg (by omega), if_neg hb]

end Serialized

namespace Serialized

/-- The decoder reads back what the encoder wrote: the string coerced to well-formed
UTF-8. It never fails on a literal of the encoder. -/
theorem unquoteLoop_appendStringLoop (fuel : Nat) : ∀ (s : List Nat) (fuel2 : Nat),
    s.length ≤ fuel → (appendStringLoop fuel s).length ≤ fuel2 →
    unquoteLoop fuel2 (appendStringLoop fuel s) = some (coerceLoop fuel s) := by
  induction fuel with
  | zero =>
    intro s fuel2 hs _
    have : s = [] := List.length_eq_zero.1 (by omega)
    subst this
    rw [appendStringLoop_nil, unquoteLoop_nil, coerceLoop_nil]
  | succ fuel ih =>
    intro s fuel2 hs hlen
    cases s with
    | nil => rw [appendStringLoop_nil, unquoteLoop_nil, coerceLoop_nil]
    | cons b rest =>
      have hrest : rest.length ≤ fuel := by simp only [List.length_cons] at hs; omega
      by_cases hb : b < 0x80
      · have hstep : appendStringStep b rest = (escapeByte b, rest) := by
          simp only [appendStringStep]; rw [if_pos hb]
        have happ : appendStringLoop (fuel + 1) (b :: rest)
            = escapeByte b ++ appendStringLoop fuel rest := by
          rw [appendStringLoop, hstep]
        have hco : coerceLoop (fuel + 1) (b :: rest) = b :: coerceLoop fuel rest := by
          rw [coerceLoop, if_pos hb]
        obtain ⟨o, os, heq, hun⟩ := unquoteStep_escapeByte b hb (appendStringLoop fuel rest)
        rw [happ, heq] at hlen
        rw [happ, hco, heq]
        simp only [List.cons_append, List.length_cons, List.length_append] at hlen ⊢
        obtain ⟨k, rfl⟩ : ∃ k, fuel2 = k + 1 := ⟨fuel2 - 1, by omega⟩
        rw [unquoteLoop_cons _ _ _ _ _ hun, ih rest k hrest (by omega)]
        rfl
      · rcases hdec : DecodeRune (b :: rest) with ⟨c, size⟩
        by_cases hinv : c = RuneError ∧ size = 1
        · have hstep : appendStringStep b rest = ([92, 117, 102, 102, 102, 100], rest) := by
            simp only [appendStringStep, hdec]; rw [if_neg hb, if_pos hinv]
          have happ : appendStringLoop (fuel + 1) (b :: rest)
              = 92 :: ([117, 102, 102, 102, 100] ++ appendStringLoop fuel rest) := by
            rw [appendStringLoop, hstep]; rfl
          have hco : coerceLoop (fuel + 1) (b :: rest)
              = [0xEF, 0xBF, 0xBD] ++ coerceLoop fuel rest := by
            rw [coerceLoop, if_neg hb, hdec, if_pos hinv]
          rw [happ] at hlen
          rw [happ, hco]
          simp only [List.cons_append, List.nil_append, List.length_cons] at hlen
          obtain ⟨k, rfl⟩ : ∃ k, fuel2 = k + 1 := ⟨fuel2 - 1, by omega⟩
          rw [unquoteLoop_cons _ _ _ _ _ (unquoteStep_replacement _),
            ih rest k hrest (by omega)]
          rfl
        · obtain ⟨hsz, htl, henc, hdr⟩ := DecodeRune_take b rest c size hb hdec hinv
          have hdrop : ((b :: rest).drop size).length ≤ fuel := by
            simp only [List.length_drop, List.length_cons] at hs ⊢; omega
          have hco : coerceLoop (fuel + 1) (b :: rest)
              = (b :: rest).take size ++ coerceLoop fuel ((b :: rest).drop size) := by
            rw [coerceLoop, if_neg hb, hdec, if_neg hinv]
          by_cases hsep : c = 0x2028 ∨ c = 0x2029
          · have hstep : appendStringStep b rest
                = ([92, 117, 50, 48, 50, hexDigit (c % 16)], (b :: rest).drop size) := by
              simp only [appendStringStep, hdec]; rw [if_neg hb, if_neg hinv, if_pos hsep]
            have happ : appendStringLoop (fuel + 1) (b :: rest)
                = 92 :: ([117, 50, 48, 50, hexDigit (c % 16)]
                  ++ appendStringLoop fuel ((b :: rest).drop size)) := by
              rw [appendStringLoop, hstep]; rfl
            rw [happ] at hlen
            rw [happ, hco]
            simp only [List.cons_append, List.nil_append, List.length_cons] at hlen
            obtain ⟨k, rfl⟩ : ∃ k, fuel2 = k + 1 := ⟨fuel2 - 1, by omega⟩
            rw [unquoteLoop_cons _ _ _ _ _ (unquoteStep_separator c hsep _),
              ih _ k hdrop (by omega), henc]
            rfl
          · have hstep : appendStringStep b rest
                = ((b :: rest).take size, (b :: rest).drop size) := by
              simp only [appendStringStep, hdec]; rw [if_neg hb, if_neg hinv, if_neg hsep]
            have happ : appendStringLoop (fuel + 1) (b :: rest)
                = (b :: rest).take size ++ appendStringLoop fuel ((b :: rest).drop size) := by
              rw [appendStringLoop, hstep]
            obtain ⟨m, rfl⟩ : ∃ m, size = m + 1 := ⟨size - 1, by omega⟩
            have htake : (b :: rest).take (m + 1) = b :: rest.take m := rfl
            have hd := hdr (appendStringLoop fuel ((b :: rest).drop (m + 1)))
            rw [happ] at hlen
            rw [happ, hco]
            rw [htake] at hd hlen htl henc ⊢
            simp only [List.cons_append, List.length_cons, List.length_append] at hlen htl ⊢
            obtain ⟨k, rfl⟩ : ∃ k, fuel2 = k + 1 := ⟨fuel2 - 1, by omega⟩
            have hun := unquoteStep_high b hb
              (rest.take m ++ appendStringLoop fuel ((b :: rest).drop (m + 1)))
            rw [List.cons_append] at hd
            rw [hd] at hun
            simp only at hun
            have hdrop2 : (b :: (List.take m rest
                ++ appendStringLoop fuel ((b :: rest).drop (m + 1)))).drop (m + 1)
                = appendStringLoop fuel ((b :: rest).drop (m + 1)) := by
              simp only [List.drop_succ_cons]
              rw [List.drop_left' (by omega)]
            rw [hdrop2, henc] at hun
            rw [unquoteLoop_cons _ _ _ _ _ hun, ih _ k hdrop (by omega)]
            rfl

/-- The decoder on a literal of the encoder, quotes included. -/
theorem unquote_appendString (s : GoString) :
    unquote (appendString s) = some (coerceUTF8 s) := by
  have h1 : (appendString s).length ≥ 2 := by simp [appendString]
  have h2 : (appendString s).head? = some 34 := rfl
  have h3 : (appendString s).getLast? = some 34 := by
    show ((34 :: appendStringLoop s.length s) ++ [34]).getLast? = some 34
    rw [List.getLast?_concat]
  have h4 : (appendString s).tail.dropLast = appendStringLoop s.length s := by
    simp [appendString, List.dropLast_concat]
  simp only [unquote]
  rw [if_neg (by rw [h2, h3]; simp; omega), h4]
  exact unquoteLoop_appendStringLoop s.length s _ (Nat.le_refl _) (Nat.le_refl _)

/-- A valid UTF-8 string is left as it is by the coercion. -/
theorem coerceLoop_valid (fuel : Nat) : ∀ s : List Nat, validLoop fuel s = true →
    coerceLoop fuel s = s := by
  induction fuel with
  | zero =>
    intro s hv
    cases s with
    | nil => rfl
    | cons b rest => simp [validLoop] at hv
  | succ fuel ih =>
    intro s hv
    cases s with
    | nil => rfl
    | cons b rest =>
      rw [validLoop] at hv
      rw [coerceLoop]
      by_cases hb : b < 0x80
      · rw [if_pos hb] at hv ⊢
        rw [ih rest hv]
      · rw [if_neg hb] at hv ⊢
        by_cases hinv : (DecodeRune (b :: rest)).1 = RuneError ∧ (DecodeRune (b :: rest)).2 = 1
        · rw [if_pos hinv] at hv; exact absurd hv (by simp)
        · rw [if_neg hinv] at hv ⊢
          rw [ih _ hv, List.take_append_drop]

/-- Round trip of a string literal: a valid UTF-8 string is read back unchanged. -/
theorem unquote_appendString_valid (s : GoString) (h : ValidString s = true) :
    unquote (appendString s) = some s := by
  rw [unquote_appendString, coerceUTF8, coerceLoop_valid _ _ h]

end Serialized

namespace Serialized

/-! ## The wire format of `Reaction` -/

/-- The syntax tree of the encoding of a reaction: every key, in declaration order. -/
theorem Reaction.marshal_eq (r : Reaction) :
    r.marshal = .obj [
      (lit "\"id\"", .str (appendString r.ID)),
      (lit "\"name\"", .str (appendString r.Name)),
      (lit "\"feed\"", .str (appendString r.Feed)),
      (lit "\"eventType\"", .str (appendString r.EventType)),
      (lit "\"action\"", .obj [
        (lit "\"httpMethod\"", .str (appendString r.Action.HTTPMethod)),
        (lit "\"targetUri\"", .str (appendString r.Action.TargetURI)),
        (lit "\"body\"", .str (appendString r.Action.Body)),
        (lit "\"actionType\"", .str (appendString r.Action.ActionType))])] := by
  have h1 : appendString (lit "id") = lit "\"id\"" := by decide
  have h2 : appendString (lit "name") = lit "\"name\"" := by decide
  have h3 : appendString (lit "feed") = lit "\"feed\"" := by decide
  have h4 : appendString (lit "eventType") = lit "\"eventType\"" := by decide
  have h5 : appendString (lit "action") = lit "\"action\"" := by decide
  have h6 : appendString (lit "httpMethod") = lit "\"httpMethod\"" := by decide
  have h7 : appendString (lit "targetUri") = lit "\"targetUri\"" := by decide
  have h8 : appendString (lit "body") = lit "\"body\"" := by decide
  have h9 : appendString (lit "actionType") = lit "\"actionType\"" := by decide
  simp only [Reaction.marshal, Action.marshal, encodeStruct, stringField, List.filter,
    Bool.false_and, Bool.not_false, List.map, h1, h2, h3, h4, h5, h6, h7, h8, h9]

/-- The bytes of the encoding of a reaction. -/
theorem Reaction.render_marshal (r : Reaction) :
    r.marshal.render =
      lit "\x7b\"id\":" ++ appendString r.ID
      ++ lit ",\"name\":" ++ appendString r.Name
      ++ lit ",\"feed\":" ++ appendString r.Feed
      ++ lit ",\"eventType\":" ++ appendString r.EventType
      ++ lit ",\"action\":\x7b\"httpMethod\":" ++ appendString r.Action.HTTPMethod
      ++ lit ",\"targetUri\":" ++ appendString r.Action.TargetURI
      ++ lit ",\"body\":" ++ appendString r.Action.Body
      ++ lit ",\"actionType\":" ++ appendString r.Action.ActionType
      ++ lit "\x7d\x7d" := by
  have e1 : lit "\x7b\"id\":" = 123 :: (lit "\"id\"" ++ [58]) := by decide
  have e2 : lit ",\"name\":" = 44 :: (lit "\"name\"" ++ [58]) := by decide
  have e3 : lit ",\"feed\":" = 44 :: (lit "\"feed\"" ++ [58]) := by decide
  have e4 : lit ",\"eventType\":" = 44 :: (lit "\"eventType\"" ++ [58]) := by decide
  have e5 : lit ",\"action\":\x7b\"httpMethod\":"
      = 44 :: (lit "\"action\"" ++ 58 :: 123 :: (lit "\"httpMethod\"" ++ [58])) := by decide
  have e6 : lit ",\"targetUri\":" = 44 :: (lit "\"targetUri\"" ++ [58]) := by decide
  have e7 : lit ",\"body\":" = 44 :: (lit "\"body\"" ++ [58]) := by decide
  have e8 : lit ",\"actionType\":" = 44 :: (lit "\"actionType\"" ++ [58]) := by decide
  have e9 : lit "\x7d\x7d" = [125, 125] := by decide
  rw [Reaction.marshal_eq, e1, e2, e3, e4, e5, e6, e7, e8, e9]
  simp only [Json.render, renderMembers, List.append_assoc, List.cons_append, List.nil_append]

end Serialized

namespace Serialized

/-- The decoder on a string literal of the encoder. -/
theorem decodeString_appendString (s t : GoString) :
    decodeString (.str (appendString s)) t = (coerceUTF8 s, none) := by
  simp only [decodeString, unquote_appendString]

/-- The decoder of `Action` on the encoding of an action. -/
theorem unmarshal_marshal_Action (a z : Action) :
    Action.unmarshal a.marshal z
      = ({ HTTPMethod := coerceUTF8 a.HTTPMethod, TargetURI := coerceUTF8 a.TargetURI,
           Body := coerceUTF8 a.Body, ActionType := coerceUTF8 a.ActionType }, none) := by
  have k1 : unquote (appendString (lit "httpMethod")) = some (lit "httpMethod") := by decide
  have k2 : unquote (appendString (lit "targetUri")) = some (lit "targetUri") := by decide
  have k3 : unquote (appendString (lit "body")) = some (lit "body") := by decide
  have k4 : unquote (appendString (lit "actionType")) = some (lit "actionType") := by decide
  have n1 : lit "httpMethod" = [104, 116, 116, 112, 77, 101, 116, 104, 111, 100] := by decide
  have n2 : lit "targetUri" = [116, 97, 114, 103, 101, 116, 85, 114, 105] := by decide
  have n3 : lit "body" = [98, 111, 100, 121] := by decide
  have n4 : lit "actionType" = [97, 99, 116, 105, 111, 110, 84, 121, 112, 101] := by decide
  simp only [Action.unmarshal, Action.marshal, encodeStruct, stringField, List.filter,
    Bool.false_and, Bool.not_false, List.map, decodeStruct, decodeMembers, k1, k2, k3, k4,
    Option.bind, findField, decodeString_appendString]
  simp [n1, n2, n3, n4, List.find?, decodeString_appendString]

/-- The decoder of `Reaction` on the encoding of a reaction: the reaction with its
strings coerced to well-formed UTF-8, and no error. -/
theorem unmarshal_marshal_Reaction (r z : Reaction) :
    Reaction.unmarshal r.marshal z = (r.coerce, none) := by
  have k1 : unquote (appendString (lit "id")) = some (lit "id") := by decide
  have k2 : unquote (appendString (lit "name")) = some (lit "name") := by decide
  have k3 : unquote (appendString (lit "feed")) = some (lit "feed") := by decide
  have k4 : unquote (appendString (lit "eventType")) = some (lit "eventType") := by decide
  have k5 : unquote (appendString (lit "action")) = some (lit "action") := by decide
  have n1 : lit "id" = [105, 100] := by decide
  have n2 : lit "name" = [110, 97, 109, 101] := by decide
  have n3 : lit "feed" = [102, 101, 101, 100] := by decide
  have n4 : lit "eventType" = [101, 118, 101, 110, 116, 84, 121, 112, 101] := by decide
  have n5 : lit "action" = [97, 99, 116, 105, 111, 110] := by decide
  simp only [Reaction.unmarshal, Reaction.marshal, encodeStruct, stringField, List.filter,
    Bool.false_and, Bool.not_false, List.map, decodeStruct, decodeMembers, k1, k2, k3, k4, k5,
    Option.bind, findField, decodeString_appendString, unmarshal_marshal_Action]
  simp [n1, n2, n3, n4, n5, List.find?, Reaction.coerce, decodeString_appendString,
    unmarshal_marshal_Action]

end Serialized

namespace Serialized

/-- A reaction with valid UTF-8 fields is left as it is by the coercion. -/
theorem Reaction.coerce_valid (r : Reaction) (h : r.ValidUTF8) : r.coerce = r := by
  obtain ⟨h1, h2, h3, h4, h5, h6, h7, h8⟩ := h
  simp only [Reaction.coerce, coerceUTF8]
  rw [coerceLoop_valid _ _ h1, coerceLoop_valid _ _ h2, coerceLoop_valid _ _ h3,
    coerceLoop_valid _ _ h4, coerceLoop_valid _ _ h5, coerceLoop_valid _ _ h6,
    coerceLoop_valid _ _ h7, coerceLoop_valid _ _ h8]

theorem isHex_hexDigit (n : Nat) (h : n < 16) : isHex (hexDigit n) = true := by
  interval_cases n <;> rfl

/-- The scanner passes over bytes at or above 0x80. -/
theorem scanString_high (l : List Nat) (hl : ∀ c ∈ l, 0x80 ≤ c) (tail : List Nat) :
    scanString (l ++ tail) = scanString tail := by
  induction l with
  | nil => rfl
  | cons c l ih =>
    have hc := hl c (List.mem_cons_self _ _)
    rw [List.cons_append, scanString.eq_def]
    simp only
    rw [if_neg (by omega), if_neg (by omega), if_neg (by omega)]
    exact ih (fun x hx => hl x (List.mem_cons_of_mem _ hx))

/-- The scanner passes over a short escape. -/
theorem scanString_short (e : Nat) (tail : List Nat)
    (he : e = 98 ∨ e = 102 ∨ e = 110 ∨ e = 114 ∨ e = 116 ∨ e = 92 ∨ e = 47 ∨ e = 34) :
    scanString (92 :: e :: tail) = scanString tail := by
  rw [scanString.eq_def]
  simp [he]

/-- The scanner passes over an escape `\u` with four hexadecimal digits. -/
theorem scanString_u (h1 h2 h3 h4 : Nat) (tail : List Nat) (x1 : isHex h1 = true)
    (x2 : isHex h2 = true) (x3 : isHex h3 = true) (x4 : isHex h4 = true) :
    scanString (92 :: 117 :: h1 :: h2 :: h3 :: h4 :: tail) = scanString tail := by
  rw [scanString.eq_def]
  simp [x1, x2, x3, x4]

/-- The scanner passes over what the encoder writes for one ASCII byte. -/
theorem scanString_escapeByte (b : Nat) (hb : b < 0x80) (tail : List Nat) :
    scanString (escapeByte b ++ tail) = scanString tail := by
  unfold escapeByte
  by_cases hsafe : htmlSafe b = true
  · rw [if_pos hsafe]
    simp only [htmlSafe, decide_eq_true_eq] at hsafe
    rw [List.singleton_append, scanString.eq_def]
    simp only
    rw [if_neg (by omega), if_neg (by omega), if_neg (by omega)]
  · rw [if_neg hsafe]
    by_cases h1 : b = 92 ∨ b = 34
    · rw [if_pos h1]
      exact scanString_short b tail (by omega)
    · rw [if_neg h1]
      by_cases h8 : b = 8
      · rw [if_pos h8]; exact scanString_short 98 tail (by omega)
      · rw [if_neg h8]
        by_cases h12 : b = 12
        · rw [if_pos h12]; exact scanString_short 102 tail (by omega)
        · rw [if_neg h12]
          by_cases h10 : b = 10
          · rw [if_pos h10]; exact scanString_short 110 tail (by omega)
          · rw [if_neg h10]
            by_cases h13 : b = 13
            · rw [if_pos h13]; exact scanString_short 114 tail (by omega)
            · rw [if_neg h13]
              by_cases h9 : b = 9
              · rw [if_pos h9]; exact scanString_short 116 tail (by omega)
              · rw [if_neg h9]
                exact scanString_u 48 48 _ _ tail rfl rfl
                  (isHex_hexDigit (b / 16) (by omega)) (isHex_hexDigit (b % 16) (by omega))

/-- The scanner accepts everything the loop of the encoder writes. -/
theorem scanString_appendStringLoop (fuel : Nat) : ∀ (s tail : List Nat),
    scanString (appendStringLoop fuel s ++ tail) = scanString tail := by
  induction fuel with
  | zero =>
    intro s tail
    cases s <;> rfl
  | succ fuel ih =>
    intro s tail
    cases s with
    | nil => rfl
    | cons b rest =>
      rw [appendStringLoop, List.append_assoc]
      by_cases hb : b < 0x80
      · have hstep : appendStringStep b rest = (escapeByte b, rest) := by
          simp only [appendStringStep]; rw [if_pos hb]
        rw [hstep, scanString_escapeByte b hb, ih]
      · rcases hdec : DecodeRune (b :: rest) with ⟨c, size⟩
        by_cases hinv : c = RuneError ∧ size = 1
        · have hstep : appendStringStep b rest = ([92, 117, 102, 102, 102, 100], rest) := by
            simp only [appendStringStep, hdec]; rw [if_neg hb, if_pos hinv]
          rw [hstep]
          exact (scanString_u 102 102 102 100 _ rfl rfl rfl rfl).trans (ih _ _)
        · by_cases hsep : c = 0x2028 ∨ c = 0x2029
          · have hstep : appendStringStep b rest
                = ([92, 117, 50, 48, 50, hexDigit (c % 16)], (b :: rest).drop size) := by
              simp only [appendStringStep, hdec]; rw [if_neg hb, if_neg hinv, if_pos hsep]
            rw [hstep]
            exact (scanString_u 50 48 50 _ _ rfl rfl rfl
              (isHex_hexDigit (c % 16) (by omega))).trans (ih _ _)
          · have hstep : appendStringStep b rest
                = ((b :: rest).take size, (b :: rest).drop size) := by
              simp only [appendStringStep, hdec]; rw [if_neg hb, if_neg hinv, if_neg hsep]
            rw [hstep]
            have hhigh : ∀ x ∈ (b :: rest).take size, 0x80 ≤ x := by
              rcases DecodeRune_valid b rest c size hb hdec hinv with
                ⟨b1, t, rfl, rfl, h1, h2, h3, h4, -⟩ |
                ⟨b1, b2, t, rfl, rfl, h1, h2, h3, h4, h5, h6, h7, h8, -⟩ |
                ⟨b1, b2, b3, t, rfl, rfl, h1, h2, h3, h4, h5, h6, h7, h8, h9, h10, -⟩ <;>
              · intro x hx
                simp only [List.take_succ_cons, List.take_zero, List.mem_cons,
                  List.mem_singleton, List.not_mem_nil, or_false] at hx
                omega
            rw [scanString_high _ hhigh, ih]

/-- The scanner accepts every literal of the encoder. -/
theorem validLiteral_appendString (s : GoString) : validLiteral (appendString s) = true := by
  have h1 : 2 ≤ (appendString s).length := by simp [appendString]
  have h2 : (appendString s).head? = some 34 := rfl
  have h3 : (appendString s).getLast? = some 34 := by
    show ((34 :: appendStringLoop s.length s) ++ [34]).getLast? = some 34
    rw [List.getLast?_concat]
  have h4 : (appendString s).tail.dropLast = appendStringLoop s.length s := by
    simp [appendString, List.dropLast_concat]
  have h5 : scanString (appendStringLoop s.length s) = true := by
    have := scanString_appendStringLoop s.length s []
    simpa using this
  simp only [validLiteral, h4, h5, h2, h3, decide_eq_true_eq]
  exact ⟨h1, trivial, trivial, trivial⟩

/-- Every string literal of the encoding of a reaction is well formed. -/
theorem Reaction.valid_marshal (r : Reaction) : r.marshal.valid = true := by
  have k1 : validLiteral (lit "\"id\"") = true := by decide
  have k2 : validLiteral (lit "\"name\"") = true := by decide
  have k3 : validLiteral (lit "\"feed\"") = true := by decide
  have k4 : validLiteral (lit "\"eventType\"") = true := by decide
  have k5 : validLiteral (lit "\"action\"") = true := by decide
  have k6 : validLiteral (lit "\"httpMethod\"") = true := by decide
  have k7 : validLiteral (lit "\"targetUri\"") = true := by decide
  have k8 : validLiteral (lit "\"body\"") = true := by decide
  have k9 : validLiteral (lit "\"actionType\"") = true := by decide
  rw [Reaction.marshal_eq]
  simp [Json.valid, validMembers, validLiteral_appendString, k1, k2, k3, k4, k5, k6, k7, k8, k9]

/-! ## The reader on what the encoder writes -/

/-- The reader at a closing quote. -/
theorem splitString_quote (rest : List Nat) : splitString (34 :: rest) = some ([], rest) := by
  rw [splitString.eq_def]
  simp

/-- The reader at a byte that is neither a quote nor a backslash. -/
theorem splitString_plain (c : Nat) (rest : List Nat) (h1 : c ≠ 34) (h2 : c ≠ 92) :
    splitString (c :: rest) = (splitString rest).map fun p => (c :: p.1, p.2) := by
  rw [splitString.eq_def]
  simp [h1, h2]

/-- The reader passes over bytes that are neither a quote nor a backslash. -/
theorem splitString_pass : ∀ (l tail : List Nat), (∀ c ∈ l, c ≠ 34 ∧ c ≠ 92) →
    splitString (l ++ tail) = (splitString tail).map fun p => (l ++ p.1, p.2)
  | [], tail, _ => by simp
  | c :: l, tail, h => by
    have hc := h c (List.mem_cons_self c l)
    have ih := splitString_pass l tail fun x hx => h x (List.mem_cons_of_mem c hx)
    rw [List.cons_append, splitString_plain _ _ hc.1 hc.2, ih]
    cases splitString tail <;> rfl

/-- The reader passes over a backslash and the byte after it. -/
theorem splitString_short (e : Nat) (tail : List Nat) :
    splitString (92 :: e :: tail) = (splitString tail).map fun p => (92 :: e :: p.1, p.2) := by
  rw [splitString.eq_def]
  simp

/-- The reader passes over a `\uXXXX` escape. -/
theorem splitString_u (a b c d : Nat) (tail : List Nat)
    (ha : a ≠ 34 ∧ a ≠ 92) (hb : b ≠ 34 ∧ b ≠ 92) (hc : c ≠ 34 ∧ c ≠ 92)
    (hd : d ≠ 34 ∧ d ≠ 92) :
    splitString ([92, 117, a, b, c, d] ++ tail)
      = (splitString tail).map fun p => ([92, 117, a, b, c, d] ++ p.1, p.2) := by
  have h := splitString_pass [a, b, c, d] tail (by
    intro x hx
    simp only [List.mem_cons, List.mem_singleton, List.not_mem_nil, or_false] at hx
    rcases hx with rfl | rfl | rfl | rfl <;> assumption)
  show splitString (92 :: 117 :: ([a, b, c, d] ++ tail)) = _
  rw [splitString_short, h]
  cases splitString tail <;> rfl

/-- A hexadecimal digit is neither a quote nor a backslash. -/
theorem hexDigit_plain (n : Nat) (h : n < 16) : hexDigit n ≠ 34 ∧ hexDigit n ≠ 92 := by
  unfold hexDigit
  split_ifs <;> omega

/-- The reader passes over what the encoder writes for one ASCII byte. -/
theorem splitString_escapeByte (b : Nat) (hb : b < 0x80) (tail : List Nat) :
    splitString (escapeByte b ++ tail)
      = (splitString tail).map fun p => (escapeByte b ++ p.1, p.2) := by
  unfold escapeByte
  by_cases hsafe : htmlSafe b = true
  · rw [if_pos hsafe]
    simp only [htmlSafe, decide_eq_true_eq] at hsafe
    exact splitString_pass [b] tail (by
      intro x hx
      simp only [List.mem_singleton] at hx
      subst hx
      exact ⟨hsafe.2.2.1, hsafe.2.2.2.1⟩)
  · rw [if_neg hsafe]
    by_cases h1 : b = 92 ∨ b = 34
    · rw [if_pos h1]; exact splitString_short b tail
    · rw [if_neg h1]
      by_cases h8 : b = 8
      · rw [if_pos h8]; exact splitString_short 98 tail
      · rw [if_neg h8]
        by_cases h12 : b = 12
        · rw [if_pos h12]; exact splitString_short 102 tail
        · rw [if_neg h12]
          by_cases h10 : b = 10
          · rw [if_pos h10]; exact splitString_short 110 tail
          · rw [if_neg h10]
            by_cases h13 : b = 13
            · rw [if_pos h13]; exact splitString_short 114 tail
            · rw [if_neg h13]
              by_cases h9 : b = 9
              · rw [if_pos h9]; exact splitString_short 116 tail
              · rw [if_neg h9]
                exact splitString_u 48 48 _ _ tail (by decide) (by decide)
                  (hexDigit_plain (b / 16) (by omega)) (hexDigit_plain (b % 16) (by omega))

/-- The reader passes over everything the loop of the encoder writes. -/
theorem splitString_appendStringLoop (fuel : Nat) : ∀ (s tail : List Nat),
    splitString (appendStringLoop fuel s ++ tail)
      = (splitString tail).map fun p => (appendStringLoop fuel s ++ p.1, p.2) := by
  induction fuel with
  | zero =>
    intro s tail
    cases s <;> simp [appendStringLoop]
  | succ fuel ih =>
    intro s tail
    cases s with
    | nil => simp [appendStringLoop]
    | cons b rest =>
      rw [appendStringLoop, List.append_assoc]
      have key : ∀ piece rest2 : List Nat,
          (∀ t : List Nat, splitString (piece ++ t)
            = (splitString t).map fun p => (piece ++ p.1, p.2)) →
          splitString (piece ++ (appendStringLoop fuel rest2 ++ tail))
            = (splitString tail).map fun p =>
                ((piece ++ appendStringLoop fuel rest2) ++ p.1, p.2) := by
        intro piece rest2 hp
        rw [hp, ih]
        cases splitString tail <;> simp
      by_cases hb : b < 0x80
      · have hstep : appendStringStep b rest = (escapeByte b, rest) := by
          simp only [appendStringStep]; rw [if_pos hb]
        rw [hstep]
        exact key _ _ (splitString_escapeByte b hb)
      · rcases hdec : DecodeRune (b :: rest) with ⟨c, size⟩
        by_cases hinv : c = RuneError ∧ size = 1
        · have hstep : appendStringStep b rest = ([92, 117, 102, 102, 102, 100], rest) := by
            simp only [appendStringStep, hdec]; rw [if_neg hb, if_pos hinv]
          rw [hstep]
          exact key _ _ fun t => splitString_u 102 102 102 100 t (by decide) (by decide)
            (by decide) (by decide)
        · by_cases hsep : c = 0x2028 ∨ c = 0x2029
          · have hstep : appendStringStep b rest
                = ([92, 117, 50, 48, 50, hexDigit (c % 16)], (b :: rest).drop size) := by
              simp only [appendStringStep, hdec]; rw [if_neg hb, if_neg hinv, if_pos hsep]
            rw [hstep]
            exact key _ _ fun t => splitString_u 50 48 50 _ t (by decide) (by decide)
              (by decide) (hexDigit_plain (c % 16) (by omega))
          · have hstep : appendStringStep b rest
                = ((b :: rest).take size, (b :: rest).drop size) := by
              simp only [appendStringStep, hdec]; rw [if_neg hb, if_neg hinv, if_neg hsep]
            rw [hstep]
            have hhigh : ∀ x ∈ (b :: rest).take size, 0x80 ≤ x := by
              rcases DecodeRune_valid b rest c size hb hdec hinv with
                ⟨b1, t, rfl, rfl, h1, h2, h3, h4, -⟩ |
                ⟨b1, b2, t, rfl, rfl, h1, h2, h3, h4, h5, h6, h7, h8, -⟩ |
                ⟨b1, b2, b3, t, rfl, rfl, h1, h2, h3, h4, h5, h6, h7, h8, h9, h10, -⟩ <;>
              · intro x hx
                simp only [List.take_succ_cons, List.take_zero, List.mem_cons,
                  List.mem_singleton, List.not_mem_nil, or_false] at hx
                rcases hx with rfl | rfl | rfl | rfl <;> omega
            exact key _ _ fun t => splitString_pass _ t fun x hx => by
              have := hhigh x hx
              omega

/-- The reader splits a literal of the encoder at its closing quote. -/
theorem splitString_appendString (s rest : List Nat) :
    splitString (appendStringLoop s.length s ++ 34 :: rest)
      = some (appendStringLoop s.length s, rest) := by
  rw [splitString_appendStringLoop, splitString_quote]
  simp

/-- White space is skipped up to a byte that is none. -/
theorem skipSpace_cons (c : Nat) (rest : List Nat) (h : isSpace c = false) :
    skipSpace (c :: rest) = c :: rest := by
  rw [skipSpace, if_neg (by simp [h])]

/-- The reader on a literal of the encoder. -/
theorem parseValue_string (fuel depth : Nat) (s rest : List Nat) :
    parseValue (fuel + 1) depth (appendString s ++ rest)
      = some (.str (appendString s), rest) := by
  have e : appendString s ++ rest = 34 :: (appendStringLoop s.length s ++ 34 :: rest) := by
    simp [appendString]
  rw [e, parseValue, skipSpace_cons 34 _ (by decide)]
  simp only [splitString_appendString]
  rfl

/-- The reader on an object whose first byte after the brace is a quote. -/
theorem parseValue_object (fuel depth : Nat) (x : List Nat) (hd : depth < 10000) :
    parseValue (fuel + 1) depth (123 :: 34 :: x)
      = (parseMembers fuel (depth + 1) (34 :: x)).map fun p => (.obj p.1, p.2) := by
  have hn : ¬ 10000 ≤ depth := by omega
  rw [parseValue, skipSpace_cons 123 _ (by decide)]
  simp [skipSpace_cons 34 x (by decide), hn]

/-- The reader on an array whose first byte after the bracket opens an object. -/
theorem parseValue_array (fuel depth : Nat) (x : List Nat) (hd : depth < 10000) :
    parseValue (fuel + 1) depth (91 :: 123 :: x)
      = (parseItems fuel (depth + 1) (123 :: x)).map fun p => (.arr p.1, p.2) := by
  have hn : ¬ 10000 ≤ depth := by omega
  rw [parseValue, skipSpace_cons 91 _ (by decide)]
  simp [skipSpace_cons 123 x (by decide), hn]

/-- The reader on an empty array. -/
theorem parseValue_empty_array (fuel depth : Nat) (x : List Nat) (hd : depth < 10000) :
    parseValue (fuel + 1) depth (91 :: 93 :: x) = some (.arr [], x) := by
  have hn : ¬ 10000 ≤ depth := by omega
  rw [parseValue, skipSpace_cons 91 _ (by decide)]
  simp [skipSpace_cons 93 x (by decide), hn]

/-- The reader on a member that a comma follows. -/
theorem parseMembers_comma (fuel depth : Nat) (k r2 : List Nat) (v : Json) (r4 : List Nat)
    (h : parseValue fuel depth r2 = some (v, 44 :: r4)) :
    parseMembers (fuel + 1) depth (appendString k ++ 58 :: r2)
      = (parseMembers fuel depth r4).map fun p => ((appendString k, v) :: p.1, p.2) := by
  have e : appendString k ++ 58 :: r2
      = 34 :: (appendStringLoop k.length k ++ 34 :: 58 :: r2) := by
    simp [appendString]
  rw [e, parseMembers, skipSpace_cons 34 _ (by decide)]
  simp only [splitString_appendString, skipSpace_cons 58 r2 (by decide), h,
    skipSpace_cons 44 r4 (by decide)]
  rfl

/-- The reader on the last member of an object. -/
theorem parseMembers_last (fuel depth : Nat) (k r2 : List Nat) (v : Json) (r4 : List Nat)
    (h : parseValue fuel depth r2 = some (v, 125 :: r4)) :
    parseMembers (fuel + 1) depth (appendString k ++ 58 :: r2)
      = some ([(appendString k, v)], r4) := by
  have e : appendString k ++ 58 :: r2
      = 34 :: (appendStringLoop k.length k ++ 34 :: 58 :: r2) := by
    simp [appendString]
  rw [e, parseMembers, skipSpace_cons 34 _ (by decide)]
  simp only [splitString_appendString, skipSpace_cons 58 r2 (by decide), h,
    skipSpace_cons 125 r4 (by decide)]
  rfl

/-- The reader on an item that a comma follows. -/
theorem parseItems_comma (fuel depth : Nat) (s : List Nat) (v : Json) (rest : List Nat)
    (h : parseValue fuel depth s = some (v, 44 :: rest)) :
    parseItems (fuel + 1) depth s
      = (parseItems fuel depth rest).map fun p => (v :: p.1, p.2) := by
  rw [parseItems]
  simp only [h, skipSpace_cons 44 rest (by decide)]
  rfl

/-- The reader on the last item of an array. -/
theorem parseItems_last (fuel depth : Nat) (s : List Nat) (v : Json) (rest : List Nat)
    (h : parseValue fuel depth s = some (v, 93 :: rest)) :
    parseItems (fuel + 1) depth s = some ([v], rest) := by
  rw [parseItems]
  simp only [h, skipSpace_cons 93 rest (by decide)]
  rfl

/-- The reader on an object whose first key is a literal of the encoder. -/
theorem parseValue_object_key (fuel depth : Nat) (k x : List Nat) (hd : depth < 10000) :
    parseValue (fuel + 1) depth (123 :: (appendString k ++ x))
      = (parseMembers fuel (depth + 1) (appendString k ++ x)).map fun p => (.obj p.1, p.2) :=
  parseValue_object fuel depth _ hd

/-- The reader on a member whose value is a string and that a comma follows. -/
theorem parseMembers_string_comma (fuel depth : Nat) (k s x : List Nat) :
    parseMembers (fuel + 2) depth (appendString k ++ 58 :: (appendString s ++ 44 :: x))
      = (parseMembers (fuel + 1) depth x).map fun p =>
          ((appendString k, .str (appendString s)) :: p.1, p.2) :=
  parseMembers_comma (fuel + 1) depth k _ _ x (parseValue_string fuel depth s (44 :: x))

/-- The reader on a last member whose value is a string. -/
theorem parseMembers_string_last (fuel depth : Nat) (k s x : List Nat) :
    parseMembers (fuel + 2) depth (appendString k ++ 58 :: (appendString s ++ 125 :: x))
      = some ([(appendString k, .str (appendString s))], x) :=
  parseMembers_last (fuel + 1) depth k _ _ x (parseValue_string fuel depth s (125 :: x))

/-- The reader on the encoding of a reaction, whatever follows it. -/
theorem parseValue_marshal (fuel depth : Nat) (r : Reaction) (rest : List Nat)
    (hd : depth + 2 ≤ 10000) :
    parseValue (fuel + 12) depth (r.marshal.render ++ rest) = some (r.marshal, rest) := by
  have e : r.marshal.render ++ rest
      = 123 :: (appendString (lit "id") ++ 58 :: (appendString r.ID ++ 44 ::
        (appendString (lit "name") ++ 58 :: (appendString r.Name ++ 44 ::
        (appendString (lit "feed") ++ 58 :: (appendString r.Feed ++ 44 ::
        (appendString (lit "eventType") ++ 58 :: (appendString r.EventType ++ 44 ::
        (appendString (lit "action") ++ 58 :: 123 ::
        (appendString (lit "httpMethod") ++ 58 :: (appendString r.Action.HTTPMethod ++ 44 ::
        (appendString (lit "targetUri") ++ 58 :: (appendString r.Action.TargetURI ++ 44 ::
        (appendString (lit "body") ++ 58 :: (appendString r.Action.Body ++ 44 ::
        (appendString (lit "actionType") ++ 58 :: (appendString r.Action.ActionType ++
          125 :: 125 :: rest))))))))))))))))) := by
    simp only [Reaction.marshal, Action.marshal, encodeStruct, stringField, List.filter,
      Bool.false_and, Bool.not_false, List.map, Json.render, renderMembers,
      List.append_assoc, List.cons_append, List.nil_append]
  have inner : parseValue (fuel + 6) (depth + 1) (123 ::
        (appendString (lit "httpMethod") ++ 58 :: (appendString r.Action.HTTPMethod ++ 44 ::
        (appendString (lit "targetUri") ++ 58 :: (appendString r.Action.TargetURI ++ 44 ::
        (appendString (lit "body") ++ 58 :: (appendString r.Action.Body ++ 44 ::
        (appendString (lit "actionType") ++ 58 :: (appendString r.Action.ActionType ++
          125 :: 125 :: rest)))))))))
      = some (r.Action.marshal, 125 :: rest) := by
    rw [parseValue_object_key _ _ _ _ (by omega), parseMembers_string_comma,
      parseMembers_string_comma, parseMembers_string_comma, parseMembers_string_last]
    rfl
  rw [e, parseValue_object_key _ _ _ _ (by omega), parseMembers_string_comma,
    parseMembers_string_comma, parseMembers_string_comma, parseMembers_string_comma,
    parseMembers_last _ _ _ _ _ _ inner]
  rfl

/-- The reader on the encodings of a non-empty list of reactions, up to the closing
bracket. -/
theorem parseItems_marshal (depth : Nat) (hd : depth + 2 ≤ 10000) (r : Reaction) :
    ∀ (rs : List Reaction) (fuel : Nat) (rest : List Nat),
    parseItems (fuel + rs.length + 13) depth
        (renderItems ((r :: rs).map Reaction.marshal) ++ 93 :: rest)
      = some ((r :: rs).map Reaction.marshal, rest) := by
  intro rs
  induction rs generalizing r with
  | nil =>
    intro fuel rest
    have h := parseValue_marshal fuel depth r (93 :: rest) hd
    simp only [List.map_cons, List.map_nil, renderItems, List.length_nil, Nat.add_zero]
    exact parseItems_last _ _ _ _ _ h
  | cons r2 rs ih =>
    intro fuel rest
    have h := parseValue_marshal (fuel + rs.length + 1) depth r
      (44 :: (renderItems ((r2 :: rs).map Reaction.marshal) ++ 93 :: rest)) hd
    have e : renderItems ((r :: r2 :: rs).map Reaction.marshal) ++ 93 :: rest
        = r.marshal.render ++ 44 :: (renderItems ((r2 :: rs).map Reaction.marshal)
          ++ 93 :: rest) := by
      simp only [List.map_cons, renderItems, List.append_assoc, List.cons_append]
    rw [e]
    have h2 := parseItems_comma _ _ _ _ _ h
    have e2 : fuel + (r2 :: rs).length + 13 = fuel + rs.length + 1 + 12 + 1 := by
      simp only [List.length_cons]
      omega
    rw [e2, h2, ih r2 fuel rest]
    rfl

/-- The rendering of a list of items is at least as long as the list. -/
theorem length_renderItems_marshal : ∀ rs : List Reaction,
    rs.length ≤ (renderItems (rs.map Reaction.marshal)).length
  | [] => Nat.le_refl 0
  | [r] => by
    have h6 : (lit "\x7b\"id\":").length = 6 := by decide
    simp only [List.map_cons, List.map_nil, renderItems, Reaction.render_marshal,
      List.length_append, List.length_cons, List.length_nil, h6]
    omega
  | r :: r2 :: rs => by
    have ih := length_renderItems_marshal (r2 :: rs)
    simp only [List.map_cons, renderItems, List.length_append, List.length_cons] at ih ⊢
    omega

/-- The encoding of a reaction starts with an opening brace. -/
theorem head_render_marshal (r : Reaction) : ∃ y, r.marshal.render = 123 :: y := by
  rw [Reaction.marshal_eq]
  simp only [Json.render]
  exact ⟨_, rfl⟩

/-- The encoding of a reaction has at least six bytes. -/
theorem length_render_marshal (r : Reaction) : 6 ≤ r.marshal.render.length := by
  have h6 : (lit "\x7b\"id\":").length = 6 := by decide
  simp only [Reaction.render_marshal, List.length_append, h6]
  omega

/-- The reader on the encoding of a reaction. -/
theorem parseJSON_marshal (r : Reaction) : parseJSON r.marshal.render = some r.marshal := by
  have hlen := length_render_marshal r
  obtain ⟨k, hk⟩ : ∃ k, 2 * r.marshal.render.length + 2 = k + 12 :=
    ⟨2 * r.marshal.render.length + 2 - 12, by omega⟩
  have h := parseValue_marshal k 0 r [] (by decide)
  rw [List.append_nil] at h
  simp only [parseJSON, hk, h]
  rfl

/-- The reader on a body that holds the encodings of a list of reactions in compact
form. -/
theorem parseJSON_reactions (rs : List Reaction) :
    parseJSON (Json.render (.obj [(appendString (lit "reactions"),
        .arr (rs.map Reaction.marshal))]))
      = some (.obj [(appendString (lit "reactions"), .arr (rs.map Reaction.marshal))]) := by
  cases rs with
  | nil =>
    have harr := parseValue_empty_array 31 1 (125 :: []) (by decide)
    have hmem := parseMembers_last _ _ (lit "reactions") _ _ _ harr
    have e : Json.render (.obj [(appendString (lit "reactions"), .arr ([].map Reaction.marshal))])
        = 123 :: (appendString (lit "reactions") ++ 58 :: 91 :: 93 :: 125 :: []) := by
      simp only [List.map_nil, Json.render, renderMembers, renderItems, List.append_assoc,
        List.cons_append, List.nil_append]
    have hl : 2 * (Json.render (.obj [(appendString (lit "reactions"),
        .arr ([].map Reaction.marshal))])).length + 2 = 33 + 1 := by
      rw [e]
      decide
    unfold parseJSON
    rw [hl, e, parseValue_object_key _ _ _ _ (by decide), hmem]
    rfl
  | cons r rs =>
    have hlen := length_renderItems_marshal (r :: rs)
    have e : Json.render (.obj [(appendString (lit "reactions"),
          .arr ((r :: rs).map Reaction.marshal))])
        = 123 :: (appendString (lit "reactions") ++ 58 :: 91 ::
            (renderItems ((r :: rs).map Reaction.marshal) ++ 93 :: 125 :: [])) := by
      simp only [Json.render, renderMembers, List.append_assoc, List.cons_append,
        List.nil_append]
    have hl : (Json.render (.obj [(appendString (lit "reactions"),
          .arr ((r :: rs).map Reaction.marshal))])).length
        = (renderItems ((r :: rs).map Reaction.marshal)).length + 16 := by
      have h11 : (appendString (lit "reactions")).length = 11 := by decide
      rw [e]
      simp only [List.length_append, List.length_cons, List.length_nil, h11]
      omega
    obtain ⟨k, hk⟩ : ∃ k, 2 * (renderItems ((r :: rs).map Reaction.marshal)).length + 34
        = k + rs.length + 13 + 1 + 1 + 1 :=
      ⟨2 * (renderItems ((r :: rs).map Reaction.marshal)).length + 34 - (rs.length + 16), by
        simp only [List.length_cons] at hlen
        omega⟩
    have hitems := parseItems_marshal 2 (by decide) r rs k (125 :: [])
    have hr : ∃ y, renderItems ((r :: rs).map Reaction.marshal) ++ 93 :: 125 :: []
        = 123 :: y := by
      obtain ⟨z, hz⟩ := head_render_marshal r
      cases rs with
      | nil =>
        refine ⟨z ++ 93 :: 125 :: [], ?_⟩
        simp only [List.map_cons, List.map_nil, renderItems, hz, List.cons_append]
      | cons r2 rs =>
        refine ⟨z ++ 44 :: renderItems ((r2 :: rs).map Reaction.marshal) ++ 93 :: 125 :: [], ?_⟩
        simp only [List.map_cons, renderItems, hz, List.cons_append]
    obtain ⟨y, hy⟩ := hr
    have harr : parseValue (k + rs.length + 13 + 1) 1
        (91 :: (renderItems ((r :: rs).map Reaction.marshal) ++ 93 :: 125 :: []))
        = some (.arr ((r :: rs).map Reaction.marshal), 125 :: []) := by
      rw [hy, parseValue_array _ _ _ (by decide), ← hy, hitems]
      rfl
    have hmem := parseMembers_last _ _ (lit "reactions") _ _ _ harr
    unfold parseJSON
    rw [hl]
    have hf : 2 * ((renderItems ((r :: rs).map Reaction.marshal)).length + 16) + 2
        = k + rs.length + 13 + 1 + 1 + 1 := by omega
    rw [hf, e, parseValue_object_key _ _ _ _ (by decide), hmem]
    rfl

/-- The body of the encoding of a reaction is the object of the claim, with the
literals of the encoder as values. -/
theorem reactionObject_marshal (x : Reaction) :
    reactionObject (appendString x.ID) (appendString x.Name) (appendString x.Feed)
        (appendString x.EventType) (appendString x.Action.HTTPMethod)
        (appendString x.Action.TargetURI) (appendString x.Action.Body)
        (appendString x.Action.ActionType)
      = x.marshal.render := by
  rw [Reaction.render_marshal, reactionObject]

/-- A literal of the encoder is a JSON string of the string coerced to UTF-8. -/
theorem isJSONString_appendString (s : GoString) :
    IsJSONString (appendString s) (coerceUTF8 s) :=
  ⟨validLiteral_appendString s, unquote_appendString s⟩

/-- The round trip of an operation with a nil target, for the modelled helpers: one
call of the transport with the request `newRequest` built, then the status check. -/
theorem specClient_do_nil (resolve : GoString → Except GoError GoString)
    (transport : Request → Except GoError Response) (req : Request) :
    ((specClient resolve transport none).«do» req ()) =
      match transport req with
      | .error err => { resp := none, err := some err, val := () }
      | .ok resp => { resp := some resp, err := none, val := () } := by
  cases h : transport req <;> simp [specClient, doRequest, h]

/-- C3 (as amended): the body `CreateReaction` sends. For every reaction `x`, with the
modelled helpers, `CreateReaction` hands the transport exactly one request, the POST
of `/reactions` whose body is the JSON object with the keys `id`, `name`, `feed`,
`eventType`, `action` in this order, `action` being an object with the keys
`httpMethod`, `targetUri`, `body`, `actionType` in this order, and then checks the
status of the answer; every key is there whatever the value, the decoder reads the
body as this object, and each value is a JSON string: of the field when the field is
valid UTF-8, as for `r`, and of the field coerced to UTF-8 in general. -/
theorem C3_create_reaction_body (resolve : GoString → Except GoError GoString) (r : Reaction)
    (u : GoString) (hres : resolve (lit "/reactions") = .ok u) (h : r.ValidUTF8) :
    (∀ (x : Reaction) (transport : Request → Except GoError Response),
      (specClient resolve transport none).CreateReaction x =
        match transport { Method := lit "POST", URL := u, Body := some (
          reactionObject (appendString x.ID) (appendString x.Name) (appendString x.Feed)
            (appendString x.EventType) (appendString x.Action.HTTPMethod)
            (appendString x.Action.TargetURI) (appendString x.Action.Body)
            (appendString x.Action.ActionType)) } with
        | .error _ => .panicked
        | .ok resp =>
          if resp.StatusCode ≠ 201 then .returned () (some (unexpectedStatus resp.StatusCode))
          else .returned () none) ∧
    (∀ x : Reaction,
      parseJSON (reactionObject (appendString x.ID) (appendString x.Name) (appendString x.Feed)
          (appendString x.EventType) (appendString x.Action.HTTPMethod)
          (appendString x.Action.TargetURI) (appendString x.Action.Body)
          (appendString x.Action.ActionType))
        = some (.obj [
            (lit "\"id\"", .str (appendString x.ID)),
            (lit "\"name\"", .str (appendString x.Name)),
            (lit "\"feed\"", .str (appendString x.Feed)),
            (lit "\"eventType\"", .str (appendString x.EventType)),
            (lit "\"action\"", .obj [
              (lit "\"httpMethod\"", .str (appendString x.Action.HTTPMethod)),
              (lit "\"targetUri\"", .str (appendString x.Action.TargetURI)),
              (lit "\"body\"", .str (appendString x.Action.Body)),
              (lit "\"actionType\"", .str (appendString x.Action.ActionType))])])) ∧
    (∀ s : GoString, IsJSONString (appendString s) (coerceUTF8 s)) ∧
    IsJSONString (appendString r.ID) r.ID ∧
    IsJSONString (appendString r.Name) r.Name ∧
    IsJSONString (appendString r.Feed) r.Feed ∧
    IsJSONString (appendString r.EventType) r.EventType ∧
    IsJSONString (appendString r.Action.HTTPMethod) r.Action.HTTPMethod ∧
    IsJSONString (appendString r.Action.TargetURI) r.Action.TargetURI ∧
    IsJSONString (appendString r.Action.Body) r.Action.Body ∧
    IsJSONString (appendString r.Action.ActionType) r.Action.ActionType := by
  have hv : ∀ s : GoString, ValidString s = true → IsJSONString (appendString s) s :=
    fun s hs => ⟨validLiteral_appendString s, unquote_appendString_valid s hs⟩
  obtain ⟨h1, h2, h3, h4, h5, h6, h7, h8⟩ := h
  refine ⟨?_, ?_, isJSONString_appendString, hv _ h1, hv _ h2, hv _ h3, hv _ h4, hv _ h5,
    hv _ h6, hv _ h7, hv _ h8⟩
  · intro x transport
    have hnr : newRequest resolve (lit "POST") (lit "/reactions") (some (.reaction x))
        = .ok { Method := lit "POST", URL := u, Body := some x.marshal.render } := by
      simp only [newRequest, hres, Option.map, Payload.marshal]
    rw [reactionObject_marshal]
    simp only [Client.CreateReaction]
    rw [show (specClient resolve transport none).newRequest = newRequest resolve from rfl, hnr]
    simp only [specClient_do_nil]
    cases transport { Method := lit "POST", URL := u, Body := some x.marshal.render } <;> rfl
  · intro x
    rw [reactionObject_marshal, parseJSON_marshal, Reaction.marshal_eq]

/-- C3, at the input of `TestCreateReaction`: the reaction of the test is valid UTF-8,
and a server that answers 201 to the POST of `/reactions` with the body the test
wants, and 400 to any other request, makes `CreateReaction` return a nil error. -/
theorem C3_create_reaction_body_witness :
    testReaction.ValidUTF8 ∧
    Client.CreateReaction
        (specClient Except.ok
          (expectRequest
            { Method := lit "POST", URL := lit "/reactions", Body := some createReactionBody }
            { StatusCode := 201, Header := [], Body := [] }) none)
        testReaction
      = .returned () none :=
  ⟨by set_option maxRecDepth 100000 in decide,
    ((C3_create_reaction_body Except.ok testReaction (lit "/reactions") rfl
      (by set_option maxRecDepth 100000 in decide)).1 testReaction _).trans
      (by set_option maxRecDepth 100000 in decide)⟩

/-- C3, counterexample: the `ID` of `badReaction` is the byte 0xFF. A server that
answers 201 only to the body whose `id` is the literal `"\ufffd"` makes
`CreateReaction` return a nil error: this is the body sent. The literal is a JSON
string of the bytes EF BF BD, the encoding of U+FFFD, and not of the `ID`. -/
theorem C3_counterexample :
    Client.CreateReaction
        (specClient Except.ok
          (expectRequest
            { Method := lit "POST", URL := lit "/reactions", Body := some badReactionBody }
            { StatusCode := 201, Header := [], Body := [] }) none)
        badReaction
      = .returned () none ∧
    badReactionBody
      = reactionObject (lit "\"\\ufffd\"") (lit "\"\"") (lit "\"\"") (lit "\"\"") (lit "\"\"")
          (lit "\"\"") (lit "\"\"") (lit "\"\"") ∧
    IsJSONString (lit "\"\\ufffd\"") [0xEF, 0xBF, 0xBD] ∧
    ¬ IsJSONString (lit "\"\\ufffd\"") badReaction.ID := by
  unfold IsJSONString
  set_option maxRecDepth 100000 in decide

end Serialized

namespace Serialized

/-- The decoder on the bytes of the encoding of a reaction: the reaction with its
strings coerced to well-formed UTF-8, and no error. -/
theorem decodeInto_render_marshal (x : Reaction) :
    decodeInto Reaction.unmarshal (Payload.reaction x).marshal.render Reaction.zero
      = (x.coerce, none) := by
  show decodeInto Reaction.unmarshal x.marshal.render Reaction.zero = (x.coerce, none)
  simp only [decodeInto, parseJSON_marshal]
  rw [if_pos (Reaction.valid_marshal x)]
  exact unmarshal_marshal_Reaction x Reaction.zero

/-- C5 (as amended): round trip of the wire format of `Reaction`. For every reaction
whose string fields are valid UTF-8, decoding the bytes `CreateReaction` sends as the
body, with the decoder `ListReactions` applies to one element of the array, gives
back the reaction, field by field, and no error. For an arbitrary reaction the result
is the reaction with its strings coerced to well-formed UTF-8. -/
theorem C5_reaction_round_trip (r : Reaction) (h : r.ValidUTF8) :
    decodeInto Reaction.unmarshal (Payload.reaction r).marshal.render Reaction.zero
      = (r, none) ∧
    (∀ x : Reaction,
      decodeInto Reaction.unmarshal (Payload.reaction x).marshal.render Reaction.zero
        = (x.coerce, none)) := by
  refine ⟨?_, decodeInto_render_marshal⟩
  rw [decodeInto_render_marshal, Reaction.coerce_valid r h]

/-- C5, at the reaction of the two tests: it is valid UTF-8 and its bytes are read
back as the same reaction. -/
theorem C5_reaction_round_trip_witness :
    testReaction.ValidUTF8 ∧
    decodeInto Reaction.unmarshal (Payload.reaction testReaction).marshal.render Reaction.zero
      = (testReaction, none) :=
  ⟨by set_option maxRecDepth 100000 in decide,
    (C5_reaction_round_trip testReaction (by set_option maxRecDepth 100000 in decide)).1⟩

/-- C5, counterexample: a reaction whose `ID` is the byte 0xFF is sent as
the escape of U+FFFD and read back with the `ID` EF BF BD, not with the `ID` it had. -/
theorem C5_counterexample :
    (Payload.reaction badReaction).marshal.render
      = lit "\x7b\"id\":\"\\ufffd\",\"name\":\"\",\"feed\":\"\",\"eventType\":\"\",\"action\":\x7b\"httpMethod\":\"\",\"targetUri\":\"\",\"body\":\"\",\"actionType\":\"\"\x7d\x7d" ∧
    decodeInto Reaction.unmarshal (Payload.reaction badReaction).marshal.render Reaction.zero
      = ({ Reaction.zero with ID := [0xEF, 0xBF, 0xBD] }, none) ∧
    decodeInto Reaction.unmarshal (Payload.reaction badReaction).marshal.render Reaction.zero
      ≠ (badReaction, none) := by
  set_option maxRecDepth 1000000 in decide

end Serialized

namespace Serialized

/-- The array decoder on the encodings of a list of reactions. -/
theorem decodeItems_marshal (rs : List Reaction) : ∀ cur : List Reaction,
    decodeItems Reaction.unmarshal Reaction.zero (rs.map Reaction.marshal) cur
      = (rs.map Reaction.coerce, none) := by
  induction rs with
  | nil => intro cur; rfl
  | cons r rs ih =>
    intro cur
    simp only [List.map_cons, decodeItems, ih, unmarshal_marshal_Reaction]
    rfl

/-- Validity of the encodings of a list of reactions. -/
theorem validItems_marshal (rs : List Reaction) :
    validItems (rs.map Reaction.marshal) = true := by
  induction rs with
  | nil => rfl
  | cons r rs ih => simp only [List.map_cons, validItems, ih, Reaction.valid_marshal]; rfl

/-- The decoder of `ListReactions` on a body that holds the encodings of `rs`. -/
theorem ReactionsResponse.unmarshal_body (rs : List Reaction) (body : List Nat)
    (hbody : parseJSON body
      = some (.obj [(appendString (lit "reactions"), .arr (rs.map Reaction.marshal))])) :
    decodeInto ReactionsResponse.unmarshal body { Reactions := none }
      = ({ Reactions := some (rs.map Reaction.coerce) }, none) := by
  have k : unquote (appendString (lit "reactions")) = some (lit "reactions") := by decide
  have hv : Json.valid (.obj [(appendString (lit "reactions"),
      .arr (rs.map Reaction.marshal))]) = true := by
    simp [Json.valid, validMembers, validLiteral_appendString, validItems_marshal]
  simp only [decodeInto, hbody]
  rw [if_pos hv]
  simp only [ReactionsResponse.unmarshal, decodeStruct, decodeMembers, k, Option.bind, findField,
    List.find?, decide_True, decodeSlice, decodeItems_marshal]
  rfl

/-- The values of the encoding of a reaction, key by key. -/
theorem Reaction.stringAt_marshal (r : Reaction) :
    r.marshal.stringAt (lit "id") = some (coerceUTF8 r.ID) ∧
    r.marshal.stringAt (lit "name") = some (coerceUTF8 r.Name) ∧
    r.marshal.stringAt (lit "feed") = some (coerceUTF8 r.Feed) ∧
    r.marshal.stringAt (lit "eventType") = some (coerceUTF8 r.EventType) ∧
    ∃ a, r.marshal.member (lit "action") = some a ∧
      a.stringAt (lit "httpMethod") = some (coerceUTF8 r.Action.HTTPMethod) ∧
      a.stringAt (lit "targetUri") = some (coerceUTF8 r.Action.TargetURI) ∧
      a.stringAt (lit "body") = some (coerceUTF8 r.Action.Body) ∧
      a.stringAt (lit "actionType") = some (coerceUTF8 r.Action.ActionType) := by
  have k1 : unquote (lit "\"id\"") = some [105, 100] := by decide
  have k2 : unquote (lit "\"name\"") = some [110, 97, 109, 101] := by decide
  have k3 : unquote (lit "\"feed\"") = some [102, 101, 101, 100] := by decide
  have k4 : unquote (lit "\"eventType\"")
      = some [101, 118, 101, 110, 116, 84, 121, 112, 101] := by decide
  have k5 : unquote (lit "\"action\"") = some [97, 99, 116, 105, 111, 110] := by decide
  have k6 : unquote (lit "\"httpMethod\"")
      = some [104, 116, 116, 112, 77, 101, 116, 104, 111, 100] := by decide
  have k7 : unquote (lit "\"targetUri\"")
      = some [116, 97, 114, 103, 101, 116, 85, 114, 105] := by decide
  have k8 : unquote (lit "\"body\"") = some [98, 111, 100, 121] := by decide
  have k9 : unquote (lit "\"actionType\"")
      = some [97, 99, 116, 105, 111, 110, 84, 121, 112, 101] := by decide
  have n1 : lit "id" = [105, 100] := by decide
  have n2 : lit "name" = [110, 97, 109, 101] := by decide
  have n3 : lit "feed" = [102, 101, 101, 100] := by decide
  have n4 : lit "eventType" = [101, 118, 101, 110, 116, 84, 121, 112, 101] := by decide
  have n5 : lit "action" = [97, 99, 116, 105, 111, 110] := by decide
  have n6 : lit "httpMethod" = [104, 116, 116, 112, 77, 101, 116, 104, 111, 100] := by decide
  have n7 : lit "targetUri" = [116, 97, 114, 103, 101, 116, 85, 114, 105] := by decide
  have n8 : lit "body" = [98, 111, 100, 121] := by decide
  have n9 : lit "actionType" = [97, 99, 116, 105, 111, 110, 84, 121, 112, 101] := by decide
  rw [Reaction.marshal_eq]
  simp only [n1, n2, n3, n4, n5, n6, n7, n8, n9]
  refine ⟨?_, ?_, ?_, ?_, .obj [
    (lit "\"httpMethod\"", .str (appendString r.Action.HTTPMethod)),
    (lit "\"targetUri\"", .str (appendString r.Action.TargetURI)),
    (lit "\"body\"", .str (appendString r.Action.Body)),
    (lit "\"actionType\"", .str (appendString r.Action.ActionType))], ?_, ?_, ?_, ?_, ?_⟩
  · simp [Json.stringAt, Json.member, List.find?, k1, unquote_appendString]
  · simp [Json.stringAt, Json.member, List.find?, k1, k2, unquote_appendString]
  · simp [Json.stringAt, Json.member, List.find?, k1, k2, k3, unquote_appendString]
  · simp [Json.stringAt, Json.member, List.find?, k1, k2, k3, k4, unquote_appendString]
  · simp only [Json.member, List.find?, k1, k2, k3, k4, k5]
    simp
  · simp [Json.stringAt, Json.member, List.find?, k6, unquote_appendString]
  · simp [Json.stringAt, Json.member, List.find?, k6, k7, unquote_appendString]
  · simp [Json.stringAt, Json.member, List.find?, k6, k7, k8, unquote_appendString]
  · simp [Json.stringAt, Json.member, List.find?, k6, k7, k8, k9, unquote_appendString]

end Serialized

namespace Serialized

/-- Coercion leaves a list of reactions with valid UTF-8 fields as it is. -/
theorem map_coerce_valid : ∀ rs : List Reaction, (∀ r ∈ rs, r.ValidUTF8) →
    rs.map Reaction.coerce = rs
  | [], _ => rfl
  | r :: rs, h => by
    rw [List.map_cons, Reaction.coerce_valid r (h r (List.mem_cons_self r rs)),
      map_coerce_valid rs fun x hx => h x (List.mem_cons_of_mem r hx)]

/-- C4: when the server answers the GET of `/reactions` with status 200 and a body
that reads as an object whose member `reactions` is the array of the JSON encodings
of `rs` (white space between the tokens is free), `ListReactions` returns a nil error
and the slice of the reactions `rs`, in the same order, each with its strings
coerced to UTF-8: the slice `rs` itself when the fields of `rs` are valid UTF-8. The
fields of the reaction at index `i` are the strings the element at `i` holds under
the keys `id`, `name`, `feed`, `eventType` and, inside `action`, `httpMethod`,
`targetUri`, `body`, `actionType`. The compact encoding of such an object is such a
body. -/
theorem C4_list_reactions (resolve : GoString → Except GoError GoString)
    (transport : Request → Except GoError Response) (rs : List Reaction) (u : GoString)
    (hdr : Header) (body : List Nat) (hres : resolve (lit "/reactions") = .ok u)
    (htr : transport { Method := lit "GET", URL := u, Body := none }
      = .ok (Response.mk 200 hdr body))
    (hbody : parseJSON body
      = some (.obj [(appendString (lit "reactions"), .arr (rs.map Reaction.marshal))])) :
    (specClient resolve transport (some ReactionsResponse.unmarshal)).ListReactions
      = .returned (some (rs.map Reaction.coerce)) none ∧
    ((∀ r ∈ rs, r.ValidUTF8) →
      (specClient resolve transport (some ReactionsResponse.unmarshal)).ListReactions
        = .returned (some rs) none) ∧
    (rs.map Reaction.coerce).length = rs.length ∧
    (∀ (i : Nat) (r : Reaction), rs[i]? = some r →
      (rs.map Reaction.coerce)[i]? = some r.coerce ∧
      r.marshal.stringAt (lit "id") = some r.coerce.ID ∧
      r.marshal.stringAt (lit "name") = some r.coerce.Name ∧
      r.marshal.stringAt (lit "feed") = some r.coerce.Feed ∧
      r.marshal.stringAt (lit "eventType") = some r.coerce.EventType ∧
      ∃ a, r.marshal.member (lit "action") = some a ∧
        a.stringAt (lit "httpMethod") = some r.coerce.Action.HTTPMethod ∧
        a.stringAt (lit "targetUri") = some r.coerce.Action.TargetURI ∧
        a.stringAt (lit "body") = some r.coerce.Action.Body ∧
        a.stringAt (lit "actionType") = some r.coerce.Action.ActionType) ∧
    parseJSON (Json.render (.obj [(appendString (lit "reactions"),
        .arr (rs.map Reaction.marshal))]))
      = some (.obj [(appendString (lit "reactions"), .arr (rs.map Reaction.marshal))]) := by
  have hout : (specClient resolve transport (some ReactionsResponse.unmarshal)).ListReactions
      = .returned (some (rs.map Reaction.coerce)) none := by
    have hnr : newRequest resolve (lit "GET") (lit "/reactions") none
        = .ok { Method := lit "GET", URL := u, Body := none } := by
      simp only [newRequest, hres, Option.map]
    simp only [Client.ListReactions, specClient, hnr, doRequest, htr,
      ReactionsResponse.unmarshal_body rs body hbody]
    rfl
  refine ⟨hout, ?_, by simp, ?_, parseJSON_reactions rs⟩
  · intro hvalid
    rw [hout, map_coerce_valid rs hvalid]
  · intro i r hi
    exact ⟨by simp [hi], Reaction.stringAt_marshal r⟩

/-- C4, at the fixture of `TestListReactions`: the body, pretty-printed, holds one
reaction, and `ListReactions` returns the slice of this one reaction. A body whose
`id` is written with the escapes of a quote, a backslash, a line feed and `<` gives
the reaction with these four bytes in its `ID`. -/
theorem C4_list_reactions_witness :
    parseJSON listReactionsBody
      = some (.obj [(appendString (lit "reactions"),
          .arr ([testReaction].map Reaction.marshal))]) ∧
    (specClient Except.ok (fun _ => .ok (Response.mk 200 [] listReactionsBody))
        (some ReactionsResponse.unmarshal)).ListReactions
      = .returned (some [testReaction]) none ∧
    (specClient Except.ok (fun _ => .ok (Response.mk 200 [] escapedBody))
        (some ReactionsResponse.unmarshal)).ListReactions
      = .returned (some [escapedReaction]) none :=
  ⟨by set_option maxRecDepth 1000000 in rfl,
    (C4_list_reactions Except.ok _ [testReaction] (lit "/reactions") [] listReactionsBody
      rfl rfl (by set_option maxRecDepth 1000000 in rfl)).2.1
      (by set_option maxRecDepth 100000 in decide),
    (C4_list_reactions Except.ok _ [escapedReaction] (lit "/reactions") [] escapedBody
      rfl rfl (by set_option maxRecDepth 1000000 in rfl)).2.1
      (by set_option maxRecDepth 100000 in decide)⟩

end Serialized

namespace Serialized

/-! ## The wire format of `ProjectionDefinition` -/

/-- The keys of the encoding of a `Function`: every non-empty field, in declaration
order. -/
theorem keys_marshal_Function (f : Serialized.Function) :
    (Function.marshal f).keys =
      (if f.Function ≠ [] then [appendString (lit "function")] else [])
      ++ (if f.TargetSelector ≠ [] then [appendString (lit "targetSelector")] else [])
      ++ (if f.EventSelector ≠ [] then [appendString (lit "eventSelector")] else [])
      ++ (if f.TargetFilter ≠ [] then [appendString (lit "targetFilter")] else [])
      ++ (if f.EventFilter ≠ [] then [appendString (lit "eventFilter")] else [])
      ++ (if f.RawData.isSome then [appendString (lit "rawData")] else []) := by
  rcases f with ⟨a, b, c, d, e, g⟩
  simp only [Function.marshal, encodeStruct, stringField, ifaceField, Json.keys]
  rcases a with _ | ⟨a0, a⟩ <;> rcases b with _ | ⟨b0, b⟩ <;> rcases c with _ | ⟨c0, c⟩ <;>
    rcases d with _ | ⟨d0, d⟩ <;> rcases e with _ | ⟨e0, e⟩ <;> rcases g with _ | g <;>
    simp [List.filter]

/-- The keys of the encoding of an `EventHandler`. -/
theorem keys_marshal_EventHandler (h : EventHandler) :
    h.marshal.keys =
      (if h.EventType ≠ [] then [appendString (lit "eventType")] else [])
      ++ (if h.Functions.len ≠ 0 then [appendString (lit "functions")] else []) := by
  rcases h with ⟨a, b⟩
  simp only [EventHandler.marshal, encodeStruct, stringField, sliceField, Json.keys]
  rcases a with _ | ⟨a0, a⟩ <;> rcases b with _ | _ | ⟨b0, b⟩ <;>
    simp [List.filter, Slice.len]

/-- The keys of the encoding of a `ProjectionDefinition`. -/
theorem keys_marshal_ProjectionDefinition (d : ProjectionDefinition) :
    d.marshal.keys =
      (if d.Name ≠ [] then [appendString (lit "projectionName")] else [])
      ++ (if d.Feed ≠ [] then [appendString (lit "feedName")] else [])
      ++ (if d.Handlers.len ≠ 0 then [appendString (lit "handlers")] else []) := by
  rcases d with ⟨a, b, c⟩
  simp only [ProjectionDefinition.marshal, encodeStruct, stringField, sliceField, Json.keys]
  rcases a with _ | ⟨a0, a⟩ <;> rcases b with _ | ⟨b0, b⟩ <;> rcases c with _ | _ | ⟨c0, c⟩ <;>
    simp [List.filter, Slice.len]

end Serialized

namespace Serialized

/-- Membership in a list that holds one element under a condition. -/
theorem mem_ite_singleton {p : Prop} [Decidable p] (x a : List Nat) :
    x ∈ (if p then [a] else []) ↔ p ∧ x = a := by
  split <;> simp [*]

/-- The value of the member `handlers` of the encoding of a definition. -/
theorem ProjectionDefinition.member_handlers (d : ProjectionDefinition)
    (hs : List (Option EventHandler)) (h : d.Handlers = some hs) (hne : hs ≠ []) :
    d.marshal.member (lit "handlers")
      = some (.arr (hs.map (encodePtr EventHandler.marshal))) := by
  have k1 : unquote (appendString (lit "projectionName")) = some (lit "projectionName") := by
    decide
  have k2 : unquote (appendString (lit "feedName")) = some (lit "feedName") := by decide
  have k3 : unquote (appendString (lit "handlers")) = some (lit "handlers") := by decide
  have n1 : lit "projectionName" ≠ lit "handlers" := by decide
  have n2 : lit "feedName" ≠ lit "handlers" := by decide
  rcases d with ⟨a, b, c⟩
  simp only at h
  subst h
  rcases hs with _ | ⟨h0, hs⟩
  · exact absurd rfl hne
  · simp only [ProjectionDefinition.marshal, encodeStruct, stringField, sliceField, Json.member]
    rcases a with _ | ⟨a0, a⟩ <;> rcases b with _ | ⟨b0, b⟩ <;>
      simp [List.filter, Slice.len, List.find?, k1, k2, k3, n1, n2, encodeSlice]

/-- The value of the member `functions` of the encoding of a handler. -/
theorem EventHandler.member_functions (h : EventHandler)
    (fs : List (Option Serialized.Function)) (hf : h.Functions = some fs) (hne : fs ≠ []) :
    h.marshal.member (lit "functions")
      = some (.arr (fs.map (encodePtr Function.marshal))) := by
  have k1 : unquote (appendString (lit "eventType")) = some (lit "eventType") := by decide
  have k2 : unquote (appendString (lit "functions")) = some (lit "functions") := by decide
  have n1 : lit "eventType" ≠ lit "functions" := by decide
  rcases h with ⟨a, c⟩
  simp only at hf
  subst hf
  rcases fs with _ | ⟨f0, fs⟩
  · exact absurd rfl hne
  · simp only [EventHandler.marshal, encodeStruct, stringField, sliceField, Json.member]
    rcases a with _ | ⟨a0, a⟩ <;>
      simp [List.filter, Slice.len, List.find?, k1, k2, n1, encodeSlice]

/-- C10: the body `CreateProjectionDefinition` sends for a definition `d` omits every
empty field. With the modelled helpers the operation hands the transport exactly one
request, the POST of `/projections/definitions` whose body is the encoding of `d`,
and then checks the status of the answer. A key among `projectionName`, `feedName`, `handlers` (and, inside
`handlers`, `eventType`, `functions`, and inside `functions`, `function`,
`targetSelector`, `eventSelector`, `targetFilter`, `eventFilter`, `rawData`) is in
the encoding exactly when the field is non-empty (a non-empty string, a non-empty
slice, a non-nil `rawData`); the keys that are there keep the declaration order, and
a definition with all fields empty is sent as `{}`. -/
theorem C10_omitempty (resolve : GoString → Except GoError GoString)
    (d : ProjectionDefinition) (u : GoString)
    (hres : resolve (lit "/projections/definitions") = .ok u) :
    newRequest resolve (lit "POST") (lit "/projections/definitions")
        (some (.projectionDefinition (some d)))
      = .ok (Request.mk (lit "POST") u (some d.marshal.render)) ∧
    (∀ transport : Request → Except GoError Response,
      (specClient resolve transport none).CreateProjectionDefinition (some d) =
        match transport (Request.mk (lit "POST") u (some d.marshal.render)) with
        | .error _ => .panicked
        | .ok resp =>
          if resp.StatusCode ≠ 200 then .returned () (some (unexpectedStatus resp.StatusCode))
          else .returned () none) ∧
    d.marshal.keys =
      (if d.Name ≠ [] then [appendString (lit "projectionName")] else [])
      ++ (if d.Feed ≠ [] then [appendString (lit "feedName")] else [])
      ++ (if d.Handlers.len ≠ 0 then [appendString (lit "handlers")] else []) ∧
    (appendString (lit "projectionName") ∈ d.marshal.keys ↔ d.Name ≠ []) ∧
    (appendString (lit "feedName") ∈ d.marshal.keys ↔ d.Feed ≠ []) ∧
    (appendString (lit "handlers") ∈ d.marshal.keys ↔ d.Handlers.len ≠ 0) ∧
    (∀ hs, d.Handlers = some hs → hs ≠ [] →
      d.marshal.member (lit "handlers")
        = some (.arr (hs.map (encodePtr EventHandler.marshal)))) ∧
    (∀ h : EventHandler,
      h.marshal.keys =
        (if h.EventType ≠ [] then [appendString (lit "eventType")] else [])
        ++ (if h.Functions.len ≠ 0 then [appendString (lit "functions")] else []) ∧
      (appendString (lit "eventType") ∈ h.marshal.keys ↔ h.EventType ≠ []) ∧
      (appendString (lit "functions") ∈ h.marshal.keys ↔ h.Functions.len ≠ 0) ∧
      (∀ fs, h.Functions = some fs → fs ≠ [] →
        h.marshal.member (lit "functions")
          = some (.arr (fs.map (encodePtr Function.marshal))))) ∧
    (∀ f : Serialized.Function,
      (Function.marshal f).keys =
        (if f.Function ≠ [] then [appendString (lit "function")] else [])
        ++ (if f.TargetSelector ≠ [] then [appendString (lit "targetSelector")] else [])
        ++ (if f.EventSelector ≠ [] then [appendString (lit "eventSelector")] else [])
        ++ (if f.TargetFilter ≠ [] then [appendString (lit "targetFilter")] else [])
        ++ (if f.EventFilter ≠ [] then [appendString (lit "eventFilter")] else [])
        ++ (if f.RawData.isSome then [appendString (lit "rawData")] else []) ∧
      (appendString (lit "function") ∈ (Function.marshal f).keys ↔ f.Function ≠ []) ∧
      (appendString (lit "targetSelector") ∈ (Function.marshal f).keys
        ↔ f.TargetSelector ≠ []) ∧
      (appendString (lit "eventSelector") ∈ (Function.marshal f).keys
        ↔ f.EventSelector ≠ []) ∧
      (appendString (lit "targetFilter") ∈ (Function.marshal f).keys ↔ f.TargetFilter ≠ []) ∧
      (appendString (lit "eventFilter") ∈ (Function.marshal f).keys ↔ f.EventFilter ≠ []) ∧
      (appendString (lit "rawData") ∈ (Function.marshal f).keys ↔ f.RawData.isSome)) ∧
    (d.Name = [] → d.Feed = [] → d.Handlers.len = 0 → d.marshal.render = lit "\x7b\x7d") := by
  have t1 : appendString (lit "projectionName")
      = [34, 112, 114, 111, 106, 101, 99, 116, 105, 111, 110, 78, 97, 109, 101, 34] := by decide
  have t2 : appendString (lit "feedName") = [34, 102, 101, 101, 100, 78, 97, 109, 101, 34] := by
    decide
  have t3 : appendString (lit "handlers") = [34, 104, 97, 110, 100, 108, 101, 114, 115, 34] := by
    decide
  have t4 : appendString (lit "eventType")
      = [34, 101, 118, 101, 110, 116, 84, 121, 112, 101, 34] := by decide
  have t5 : appendString (lit "functions")
      = [34, 102, 117, 110, 99, 116, 105, 111, 110, 115, 34] := by decide
  have t6 : appendString (lit "function") = [34, 102, 117, 110, 99, 116, 105, 111, 110, 34] := by
    decide
  have t7 : appendString (lit "targetSelector")
      = [34, 116, 97, 114, 103, 101, 116, 83, 101, 108, 101, 99, 116, 111, 114, 34] := by decide
  have t8 : appendString (lit "eventSelector")
      = [34, 101, 118, 101, 110, 116, 83, 101, 108, 101, 99, 116, 111, 114, 34] := by decide
  have t9 : appendString (lit "targetFilter")
      = [34, 116, 97, 114, 103, 101, 116, 70, 105, 108, 116, 101, 114, 34] := by decide
  have t10 : appendString (lit "eventFilter")
      = [34, 101, 118, 101, 110, 116, 70, 105, 108, 116, 101, 114, 34] := by decide
  have t11 : appendString (lit "rawData") = [34, 114, 97, 119, 68, 97, 116, 97, 34] := by
    decide
  refine ⟨?_, ?_, keys_marshal_ProjectionDefinition d, ?_, ?_, ?_,
    ProjectionDefinition.member_handlers d, ?_, ?_, ?_⟩
  · simp only [newRequest, hres, Option.map, Payload.marshal, encodePtr]
  · intro transport
    have hnr : newRequest resolve (lit "POST") (lit "/projections/definitions")
        (some (.projectionDefinition (some d)))
        = .ok (Request.mk (lit "POST") u (some d.marshal.render)) := by
      simp only [newRequest, hres, Option.map, Payload.marshal, encodePtr]
    simp only [Client.CreateProjectionDefinition]
    rw [show (specClient resolve transport none).newRequest = newRequest resolve from rfl, hnr]
    simp only [specClient_do_nil]
    cases transport (Request.mk (lit "POST") u (some d.marshal.render)) <;> rfl
  · rw [keys_marshal_ProjectionDefinition, t1, t2, t3]
    simp only [List.mem_append, mem_ite_singleton]
    simp
  · rw [keys_marshal_ProjectionDefinition, t1, t2, t3]
    simp only [List.mem_append, mem_ite_singleton]
    simp
  · rw [keys_marshal_ProjectionDefinition, t1, t2, t3]
    simp only [List.mem_append, mem_ite_singleton]
    simp
  · intro h
    refine ⟨keys_marshal_EventHandler h, ?_, ?_, EventHandler.member_functions h⟩
    · rw [keys_marshal_EventHandler, t4, t5]
      simp only [List.mem_append, mem_ite_singleton]
      simp
    · rw [keys_marshal_EventHandler, t4, t5]
      simp only [List.mem_append, mem_ite_singleton]
      simp
  · intro f
    refine ⟨keys_marshal_Function f, ?_, ?_, ?_, ?_, ?_, ?_⟩ <;>
      rw [keys_marshal_Function, t6, t7, t8, t9, t10, t11] <;>
      simp only [List.mem_append, mem_ite_singleton] <;>
      simp
  · intro ha hb hc
    rcases d with ⟨a, b, c⟩
    simp only at ha hb hc
    subst ha hb
    rcases c with _ | _ | ⟨c0, c⟩
    · rfl
    · rfl
    · simp [Slice.len] at hc

/-- C10, at concrete inputs: a definition with all fields empty is sent as `{}`, to a
server that answers 200 to the POST of `/projections/definitions` with this body and
400 to any other request; a definition with only a feed name and one handler is sent
with the two keys in declaration order. -/
theorem C10_omitempty_witness :
    Client.CreateProjectionDefinition
        (specClient Except.ok
          (expectRequest
            (Request.mk (lit "POST") (lit "/projections/definitions") (some (lit "\x7b\x7d")))
            { StatusCode := 200, Header := [], Body := [] }) none)
        (some ⟨[], [], none⟩)
      = .returned () none ∧
    Client.CreateProjectionDefinition
        (specClient Except.ok
          (expectRequest
            (Request.mk (lit "POST") (lit "/projections/definitions") (some (lit
              "\x7b\"feedName\":\"orders\",\"handlers\":[\x7b\"eventType\":\"OrderPlaced\"\x7d]\x7d")))
            { StatusCode := 200, Header := [], Body := [] }) none)
        (some ⟨[], lit "orders", some [some ⟨lit "OrderPlaced", none⟩]⟩)
      = .returned () none :=
  ⟨((C10_omitempty Except.ok ⟨[], [], none⟩ (lit "/projections/definitions") rfl).2.1 _).trans
      (by decide),
    ((C10_omitempty Except.ok ⟨[], lit "orders", some [some ⟨lit "OrderPlaced", none⟩]⟩
      (lit "/projections/definitions") rfl).2.1 _).trans
      (by set_option maxRecDepth 100000 in decide)⟩

end Serialized
